import Mathlib

set_option autoImplicit false

/-!
# Energy optimisation system: priority queue, load shedding and toggling

A shallow embedding of `priority_queue.h` and of the state-changing methods of
`energy_system.cpp`: `addDevice`, `toggleDevice`, `getCurrentTotalLoad`,
`performLoadShedding`, `scheduleDevice` and the dispatch of `run`.

Conventions of the embedding:

* C++ `int` fields that are only compared (`priority`, `scheduledTime`,
  `duration`) are `Int`; array indices, sizes and capacities are `Nat`. Heap
  indices stay below `2 * capacity + 2`, so the `int` arithmetic of `leftChild` and
  `rightChild` does not overflow for capacities below `2 ^ 30`.
* `float` quantities are rationals (`ℚ`). The methods `getCurrentTotalLoad`,
  `performLoadShedding` and `toggleDevice` compute with them exactly. The versions
  `getCurrentTotalLoadWith`, `performLoadSheddingWith` and `toggleDeviceWith` round
  every stored `float` result by a function `rnd`; `float32Round` is the rounding of
  binary32 (to nearest, ties to even; overflow to infinity and NaN are outside the
  model), and `rnd = id` gives the exact methods back.
* Console output (`cout`) is not part of the state and is left out.
* `while` loops with a `break` are recursive functions with a fuel argument;
  the lemmas `heapifyUpLoop_fuel` and `heapifyDownLoop_fuel` show that the fuel
  `heapifyUp` and `heapifyDown` pass is never exhausted: more fuel gives the same
  result.
* `for` loops with a fixed bound are folds over `List.range`.
* Values read from the input (`cin`) and the clock (`time(0)`) are arguments of the
  method that reads them.
* The header with `Device`, the registry (a hash map) and the history tracker is
  not among the sources. The registry is the list of devices in the order
  `getAllValues` enumerates them, and a `Device*` is a position in that list. The
  local arrays of 100 pointers in `energy_system.cpp` hold that enumeration for
  registries of at most 100 devices, which is the range the model describes.
-/

namespace EnergySystem

/-! ## `priority_queue.h` -/

/-- The struct `ScheduledTask`. -/
structure ScheduledTask where
  deviceID : String
  deviceName : String
  scheduledTime : Int
  duration : Int
  priority : Int
  isCritical : Bool
  estimatedCost : ℚ
deriving DecidableEq

/-- The default constructor `ScheduledTask()`. -/
def ScheduledTask.new : ScheduledTask :=
  { deviceID := "", deviceName := "", scheduledTime := 0, duration := 0,
    priority := 5, isCritical := false, estimatedCost := 0 }

/-- The constructor `ScheduledTask(id, name, time, dur, prio, crit)`. -/
def ScheduledTask.create (id name : String) (time dur prio : Int) (crit : Bool) :
    ScheduledTask :=
  { deviceID := id, deviceName := name, scheduledTime := time, duration := dur,
    priority := prio, isCritical := crit, estimatedCost := 0 }

instance : Inhabited ScheduledTask := ⟨ScheduledTask.new⟩

/-- The ordering relation of the scheduler as the specification words it:
`a` outranks `b` iff `a.priority > b.priority`, or the priorities are equal and
`a.scheduledTime < b.scheduledTime`. -/
def outranks (a b : ScheduledTask) : Prop :=
  a.priority > b.priority ∨ (a.priority = b.priority ∧ a.scheduledTime < b.scheduledTime)

instance (a b : ScheduledTask) : Decidable (outranks a b) := by
  unfold outranks; infer_instance

/-- The class `PriorityQueue`: the array `heap` (all `capacity` slots), `capacity`
and `size`. -/
structure PriorityQueue where
  heap : List ScheduledTask
  capacity : Nat
  size : Nat
deriving DecidableEq

/-- Array read `heap[i]`. -/
def heapAt (heap : List ScheduledTask) (i : Nat) : ScheduledTask :=
  heap.getD i ScheduledTask.new

/-- The method `swap(heap[i], heap[j])`: `temp = a; a = b; b = temp`. -/
def swap (heap : List ScheduledTask) (i j : Nat) : List ScheduledTask :=
  let temp := heapAt heap i
  let heap1 := heap.set i (heapAt heap j)
  heap1.set j temp

/-- The method `parent`. -/
def parent (i : Nat) : Nat := (i - 1) / 2

/-- The method `leftChild`. -/
def leftChild (i : Nat) : Nat := 2 * i + 1

/-- The method `rightChild`. -/
def rightChild (i : Nat) : Nat := 2 * i + 2

/-- The `while (index > 0)` loop of `heapifyUp`, one iteration per unit of fuel. -/
def heapifyUpLoop : Nat → List ScheduledTask → Nat → List ScheduledTask
  | 0, heap, _ => heap
  | fuel + 1, heap, index =>
    if index > 0 then
      let p := parent index
      if (heapAt heap index).priority > (heapAt heap p).priority ∨
          ((heapAt heap index).priority = (heapAt heap p).priority ∧
            (heapAt heap index).scheduledTime < (heapAt heap p).scheduledTime) then
        heapifyUpLoop fuel (swap heap index p) p
      else heap
    else heap

/-- The method `heapifyUp(index)`. -/
def heapifyUp (heap : List ScheduledTask) (index : Nat) : List ScheduledTask :=
  heapifyUpLoop index heap index

/-- The `while (true)` loop of `heapifyDown`, one iteration per unit of fuel. -/
def heapifyDownLoop (size : Nat) : Nat → List ScheduledTask → Nat → List ScheduledTask
  | 0, heap, _ => heap
  | fuel + 1, heap, index =>
    let largest := index
    let left := leftChild index
    let right := rightChild index
    let largest :=
      if left < size ∧
          ((heapAt heap left).priority > (heapAt heap largest).priority ∨
            ((heapAt heap left).priority = (heapAt heap largest).priority ∧
              (heapAt heap left).scheduledTime < (heapAt heap largest).scheduledTime)) then
        left
      else largest
    let largest :=
      if right < size ∧
          ((heapAt heap right).priority > (heapAt heap largest).priority ∨
            ((heapAt heap right).priority = (heapAt heap largest).priority ∧
              (heapAt heap right).scheduledTime < (heapAt heap largest).scheduledTime)) then
        right
      else largest
    if largest ≠ index then
      heapifyDownLoop size fuel (swap heap index largest) largest
    else heap

/-- The method `heapifyDown(index)` on a heap of `size` live slots. -/
def heapifyDown (heap : List ScheduledTask) (size : Nat) (index : Nat) :
    List ScheduledTask :=
  heapifyDownLoop size (size - index) heap index

/-- The default capacity of the constructor, `cap = 100`. -/
def defaultCapacity : Nat := 100

/-- The constructor `PriorityQueue(cap)`: `cap` default-constructed slots, size 0. -/
def PriorityQueue.new (cap : Nat) : PriorityQueue :=
  { heap := List.replicate cap ScheduledTask.new, capacity := cap, size := 0 }

/-- The method `enqueue`. -/
def PriorityQueue.enqueue (q : PriorityQueue) (task : ScheduledTask) : PriorityQueue :=
  if q.size ≥ q.capacity then q
  else
    let heap1 := q.heap.set q.size task
    { q with heap := heapifyUp heap1 q.size, size := q.size + 1 }

/-- The method `dequeue`: the returned task and the queue afterwards. -/
def PriorityQueue.dequeue (q : PriorityQueue) : ScheduledTask × PriorityQueue :=
  if q.size = 0 then (ScheduledTask.new, q)
  else
    let result := heapAt q.heap 0
    let heap1 := q.heap.set 0 (heapAt q.heap (q.size - 1))
    let size1 := q.size - 1
    (result, { q with heap := heapifyDown heap1 size1 0, size := size1 })

/-- The method `peek`. -/
def PriorityQueue.peek (q : PriorityQueue) : ScheduledTask :=
  if q.size = 0 then ScheduledTask.new else heapAt q.heap 0

/-- A call of `peek` as a step on the queue: the returned task and the queue
afterwards. The method assigns to no member, so the queue afterwards is the queue
it was called on. -/
def PriorityQueue.peekCall (q : PriorityQueue) : ScheduledTask × PriorityQueue :=
  (q.peek, q)

/-- The method `isEmpty`. -/
def PriorityQueue.isEmpty (q : PriorityQueue) : Bool := q.size == 0

/-- The method `getSize`. -/
def PriorityQueue.getSize (q : PriorityQueue) : Nat := q.size

/-- The tasks the queue holds: the live slots `heap[0 .. size-1]`, in storage order
(what `display` enumerates). -/
def PriorityQueue.tasks (q : PriorityQueue) : List ScheduledTask :=
  q.heap.take q.size

/-- Enqueue a list of tasks, first to last. -/
def PriorityQueue.enqueueAll (q : PriorityQueue) (ts : List ScheduledTask) :
    PriorityQueue :=
  ts.foldl PriorityQueue.enqueue q

/-- Dequeue `n` times, collecting the returned tasks in order. -/
def PriorityQueue.dequeueN : Nat → PriorityQueue → List ScheduledTask
  | 0, _ => []
  | n + 1, q => (q.dequeue).1 :: PriorityQueue.dequeueN n (q.dequeue).2

/-- Dequeue until the queue is empty. -/
def PriorityQueue.drain (q : PriorityQueue) : List ScheduledTask :=
  PriorityQueue.dequeueN q.size q

/-- One operation of a client on the queue. -/
inductive QueueOp where
  | enq (task : ScheduledTask)
  | deq

/-- Apply one operation (the task returned by a dequeue is dropped). -/
def QueueOp.apply (q : PriorityQueue) : QueueOp → PriorityQueue
  | QueueOp.enq task => q.enqueue task
  | QueueOp.deq => (q.dequeue).2

/-- Apply a finite sequence of operations, first to last. -/
def PriorityQueue.run (q : PriorityQueue) (ops : List QueueOp) : PriorityQueue :=
  ops.foldl QueueOp.apply q

/-! ## `energy_system.cpp` -/

/-- Modelled from the spec: the status of a device, `{ON, OFF}`. The class `Device`
is declared in a header that is not among the sources; the code tests
`status == "ON"` and `status == "OFF"`. -/
inductive Status where
  | ON
  | OFF
deriving DecidableEq

/-- Modelled from the spec: the class `Device`, with the fields `energy_system.cpp`
reads and writes. `startTime` is the activation timestamp. -/
structure Device where
  deviceID : String
  deviceName : String
  consumptionRate : ℚ
  isCritical : Bool
  priority : Int
  status : Status
  startTime : Int
deriving DecidableEq

/-- Modelled from the spec: the constructor `Device(id, name, rate, critical, priority)`;
a device starts `OFF`. -/
def Device.create (id name : String) (rate : ℚ) (critical : Bool) (priority : Int) :
    Device :=
  { deviceID := id, deviceName := name, consumptionRate := rate, isCritical := critical,
    priority := priority, status := Status.OFF, startTime := 0 }

instance : Inhabited Device := ⟨Device.create "" "" 0 false 0⟩

/-- Modelled from the spec: `Device::turnOn()`, which sets the status to `ON` and
records the activation time `now`. -/
def Device.turnOn (d : Device) (now : Int) : Device :=
  { d with status := Status.ON, startTime := now }

/-- Modelled from the spec: `Device::turnOff()`, the `ON → OFF` transition of the
device (the class is declared in a header that is not among the sources). It acts
on the `Device` alone: the duration, the units and the history record of the
transition are computed by `toggleDevice` itself after the call (lines 136-148 of
`energy_system.cpp`), from the `startTime` that the call leaves in place. -/
def Device.turnOff (d : Device) : Device :=
  { d with status := Status.OFF }

/-- Modelled from the spec: a usage record, as `toggleDevice` constructs it. -/
structure HistoryRecord where
  deviceID : String
  deviceName : String
  consumptionRate : ℚ
  timestamp : Int
  duration : Int
  unitsConsumed : ℚ
deriving DecidableEq

/-- The state of `EnergyOptimizationSystem` that the load controller uses.
`deviceRegistry` lists the registered devices in the order `getAllValues`
enumerates them; a position in that list stands for a `Device*`.
`historyTracker` lists the records in insertion order. -/
structure EnergyOptimizationSystem where
  deviceRegistry : List Device
  historyTracker : List HistoryRecord
  scheduler : PriorityQueue
  maxLoadCapacity : ℚ
  deviceCount : Nat
deriving DecidableEq

/-- Pointer dereference `devices[i]->`. -/
def deviceAt (devices : List Device) (i : Nat) : Device :=
  devices.getD i default

/-- Modelled from the spec: `deviceRegistry.get(id)`, a point lookup by the unique
key; `none` is the null pointer. -/
def registryGet (devices : List Device) (id : String) : Option Nat :=
  devices.findIdx? (fun d => d.deviceID == id)

/-- Modelled from the spec: `historyTracker.insertRecord(record)`, an append. -/
def insertRecord (history : List HistoryRecord) (record : HistoryRecord) :
    List HistoryRecord :=
  history ++ [record]

/-- The method `getCurrentTotalLoad`. -/
def getCurrentTotalLoad (s : EnergyOptimizationSystem) : ℚ :=
  s.deviceRegistry.foldl
    (fun total d => if d.status = Status.ON then total + d.consumptionRate else total) 0

/-- First loop of `performLoadShedding`: the pointers to the devices that are `ON`
and not critical, in enumeration order. -/
def collectNonCritical (devices : List Device) : List Nat :=
  (List.range devices.length).foldl
    (fun nonCritical i =>
      if (deviceAt devices i).status = Status.ON ∧ ¬ (deviceAt devices i).isCritical then
        nonCritical ++ [i]
      else nonCritical) []

/-- Array read `nonCritical[j]`. -/
def ptrAt (arr : List Nat) (j : Nat) : Nat := arr.getD j 0

/-- The inner loop `for (j = 0; j < bound; j++)` of the bubble sort, where
`key p` is the priority read through the pointer `p`. -/
def bubbleInner (key : Nat → Int) (arr : List Nat) (bound : Nat) : List Nat :=
  (List.range bound).foldl
    (fun arr j =>
      if key (ptrAt arr j) > key (ptrAt arr (j + 1)) then
        let temp := ptrAt arr j
        let arr1 := arr.set j (ptrAt arr (j + 1))
        arr1.set (j + 1) temp
      else arr) arr

/-- The bubble sort of `performLoadShedding`:
`for (i = 0; i < n - 1; i++) for (j = 0; j < n - i - 1; j++)`. -/
def bubbleSort (key : Nat → Int) (arr : List Nat) : List Nat :=
  (List.range (arr.length - 1)).foldl
    (fun a i => bubbleInner key a (arr.length - i - 1)) arr

/-- The shedding loop
`for (i = 0; i < nonCritCount && freedCapacity < requiredCapacity; i++)` over the
remaining sorted pointers; returns the registry, `freedCapacity` and `shedCount`. -/
def shedLoop (requiredCapacity : ℚ) :
    List Nat → List Device → ℚ → Nat → List Device × ℚ × Nat
  | [], devices, freedCapacity, shedCount => (devices, freedCapacity, shedCount)
  | p :: rest, devices, freedCapacity, shedCount =>
    if freedCapacity < requiredCapacity then
      let devices1 := devices.set p (deviceAt devices p).turnOff
      shedLoop requiredCapacity rest devices1
        (freedCapacity + (deviceAt devices1 p).consumptionRate) (shedCount + 1)
    else (devices, freedCapacity, shedCount)

/-- The sorted candidate array of `performLoadShedding`, after the bubble sort. -/
def sortedNonCritical (devices : List Device) : List Nat :=
  bubbleSort (fun p => (deviceAt devices p).priority) (collectNonCritical devices)

/-- The locals of `performLoadShedding` when its shedding loop ends: the registry,
`freedCapacity` and `shedCount`. -/
def sheddingRun (s : EnergyOptimizationSystem) (requiredCapacity : ℚ) :
    List Device × ℚ × Nat :=
  let nonCritical := sortedNonCritical s.deviceRegistry
  shedLoop requiredCapacity nonCritical s.deviceRegistry 0 0

/-- The method `performLoadShedding`: the returned flag and the system afterwards. -/
def performLoadShedding (s : EnergyOptimizationSystem) (requiredCapacity : ℚ) :
    Bool × EnergyOptimizationSystem :=
  let r := sheddingRun s requiredCapacity
  (decide (r.2.1 ≥ requiredCapacity), { s with deviceRegistry := r.1 })

/-- The method `toggleDevice`, for the device id read from the input. `now` is the
clock when the device is switched and `stamp` the clock when the history record
is built. -/
def toggleDevice (s : EnergyOptimizationSystem) (id : String) (now stamp : Int) :
    EnergyOptimizationSystem :=
  match registryGet s.deviceRegistry id with
  | none => s
  | some i =>
    let device := deviceAt s.deviceRegistry i
    if device.status = Status.OFF then
      let currentLoad := getCurrentTotalLoad s
      let newLoad := currentLoad + device.consumptionRate
      if newLoad > s.maxLoadCapacity then
        if device.isCritical then
          let r := performLoadShedding s device.consumptionRate
          if r.1 then
            { r.2 with deviceRegistry :=
                r.2.deviceRegistry.set i ((deviceAt r.2.deviceRegistry i).turnOn now) }
          else r.2
        else s
      else
        { s with deviceRegistry := s.deviceRegistry.set i (device.turnOn now) }
    else
      let device1 := device.turnOff
      let duration := now - device1.startTime
      let units := (device1.consumptionRate * ((duration : ℚ) / 3600)) / 1000
      let record : HistoryRecord :=
        { deviceID := device1.deviceID, deviceName := device1.deviceName,
          consumptionRate := device1.consumptionRate, timestamp := stamp,
          duration := duration, unitsConsumed := units }
      { s with deviceRegistry := s.deviceRegistry.set i device1,
               historyTracker := insertRecord s.historyTracker record }

/-- Modelled from the spec: `deviceRegistry.insert(id, device)`; the source
overwrites the entry of an id that is already present, and adds a new entry
otherwise. -/
def registryInsert (devices : List Device) (id : String) (device : Device) :
    List Device :=
  match registryGet devices id with
  | some i => devices.set i device
  | none => devices ++ [device]

/-- Modelled from the spec: the system as it is constructed, with the configured
`maxLoadCapacity`, no device, no history and the default scheduler. -/
def EnergyOptimizationSystem.init (maxLoadCapacity : ℚ) : EnergyOptimizationSystem :=
  { deviceRegistry := [], historyTracker := [],
    scheduler := PriorityQueue.new defaultCapacity,
    maxLoadCapacity := maxLoadCapacity, deviceCount := 0 }

/-- The method `addDevice`, for the id, name, rate and critical flag read from the
input; `priorityInput` is the priority read from the input when the device is not
critical. -/
def addDevice (s : EnergyOptimizationSystem) (id name : String) (rate : ℚ)
    (critical : Int) (priorityInput : Int) : EnergyOptimizationSystem :=
  let priority := if critical ≠ 0 then 10 else priorityInput
  let device := Device.create id name rate (decide (critical ≠ 0)) priority
  { s with deviceRegistry := registryInsert s.deviceRegistry id device,
           deviceCount := s.deviceCount + 1 }

/-- The task `scheduleDevice` builds for a device (lines 306-316): the constructor
call, the tariff and the estimated cost. -/
def scheduledTaskFor (device : Device) (timeHour duration : Int) : ScheduledTask :=
  let task := ScheduledTask.create device.deviceID device.deviceName timeHour duration
    device.priority device.isCritical
  let tariff : ℚ := if timeHour ≥ 6 ∧ timeHour ≤ 22 then 20 else 10
  { task with
    estimatedCost := (device.consumptionRate * (duration : ℚ) / 60 / 1000) * tariff }

/-- The method `scheduleDevice`, for the id, hour and duration read from the
input. -/
def scheduleDevice (s : EnergyOptimizationSystem) (id : String) (timeHour duration : Int) :
    EnergyOptimizationSystem :=
  match registryGet s.deviceRegistry id with
  | none => s
  | some i =>
    let task := scheduledTaskFor (deviceAt s.deviceRegistry i) timeHour duration
    { s with scheduler := s.scheduler.enqueue task }

/-- A menu choice of `run` that changes the state, with the values read from the
input: 1 (`addDevice`), 3 (`toggleDevice`) and 5 (`scheduleDevice`). -/
inductive MenuChoice where
  | add (id name : String) (rate : ℚ) (critical priorityInput : Int)
  | toggle (id : String) (now stamp : Int)
  | schedule (id : String) (timeHour duration : Int)

/-- One iteration of the `switch` in `run`. -/
def MenuChoice.apply (s : EnergyOptimizationSystem) : MenuChoice → EnergyOptimizationSystem
  | MenuChoice.add id name rate critical priorityInput =>
    addDevice s id name rate critical priorityInput
  | MenuChoice.toggle id now stamp => toggleDevice s id now stamp
  | MenuChoice.schedule id timeHour duration => scheduleDevice s id timeHour duration

/-- The method `run`, for a finite sequence of state-changing menu choices. -/
def EnergyOptimizationSystem.run (s : EnergyOptimizationSystem) (choices : List MenuChoice) :
    EnergyOptimizationSystem :=
  choices.foldl MenuChoice.apply s

/-- A stable ascending sort by priority as the specification asks for it: insertion
sort, which puts an element in front of the first element that does not have a
smaller key. -/
def stableSortByPriority (key : Nat → Int) (arr : List Nat) : List Nat :=
  arr.insertionSort (fun a b => key a ≤ key b)

/-- The devices a run turned off: the positions that were `ON` before and are
`OFF` after. -/
def turnedOff (before after : List Device) : List Nat :=
  (List.range before.length).filter
    (fun i => (deviceAt before i).status = Status.ON ∧
      (deviceAt after i).status = Status.OFF)

/-- Sum of the consumption rates read through a list of pointers. -/
def sumRates (devices : List Device) (ptrs : List Nat) : ℚ :=
  (ptrs.map (fun p => (deviceAt devices p).consumptionRate)).sum

/-! ## The same methods with `float` rounding

The definitions above compute with exact rationals. The source computes the loads in
`float`: every `float` addition rounds its exact result to binary32. The definitions
below are the same methods with the rounding `rnd` applied where the source stores a
`float` result; `rnd = id` gives the exact versions and `rnd = float32Round` the
binary32 ones. -/

/-- The unit in the last place of binary32 at `x ≥ 0`, for `x` below `2 ^ 128`: the
least power of two `u ≥ 2 ^ (-149)` with `x < 2 ^ 24 * u`. -/
def float32Ulp (x : ℚ) : ℚ :=
  (List.range 253).foldl (fun u _ => if 16777216 * u ≤ x then 2 * u else u) (1 / 2 ^ 149)

/-- The integer nearest to `r ≥ 0`, a tie going to the even one. -/
def roundHalfEven (r : ℚ) : ℚ :=
  let n : Nat := r.num.toNat / r.den
  let frac : ℚ := r - n
  if frac < 1 / 2 then n
  else if 1 / 2 < frac then n + 1
  else if n % 2 = 0 then n
  else n + 1

/-- Rounding of a rational of magnitude below `2 ^ 128` to binary32: round to
nearest, ties to even. -/
def float32Round (x : ℚ) : ℚ :=
  if x < 0 then -(roundHalfEven (-x / float32Ulp (-x)) * float32Ulp (-x))
  else roundHalfEven (x / float32Ulp x) * float32Ulp x

/-- The method `getCurrentTotalLoad` with `total += consumptionRate` rounded by
`rnd`. -/
def getCurrentTotalLoadWith (rnd : ℚ → ℚ) (s : EnergyOptimizationSystem) : ℚ :=
  s.deviceRegistry.foldl
    (fun total d => if d.status = Status.ON then rnd (total + d.consumptionRate) else total) 0

/-- The shedding loop with `freedCapacity += consumptionRate` rounded by `rnd`. -/
def shedLoopWith (rnd : ℚ → ℚ) (requiredCapacity : ℚ) :
    List Nat → List Device → ℚ → Nat → List Device × ℚ × Nat
  | [], devices, freedCapacity, shedCount => (devices, freedCapacity, shedCount)
  | p :: rest, devices, freedCapacity, shedCount =>
    if freedCapacity < requiredCapacity then
      let devices1 := devices.set p (deviceAt devices p).turnOff
      shedLoopWith rnd requiredCapacity rest devices1
        (rnd (freedCapacity + (deviceAt devices1 p).consumptionRate)) (shedCount + 1)
    else (devices, freedCapacity, shedCount)

/-- The locals of `performLoadShedding` when its shedding loop ends, with the
additions rounded by `rnd`. -/
def sheddingRunWith (rnd : ℚ → ℚ) (s : EnergyOptimizationSystem) (requiredCapacity : ℚ) :
    List Device × ℚ × Nat :=
  let nonCritical := sortedNonCritical s.deviceRegistry
  shedLoopWith rnd requiredCapacity nonCritical s.deviceRegistry 0 0

/-- The method `performLoadShedding` with the additions rounded by `rnd`. -/
def performLoadSheddingWith (rnd : ℚ → ℚ) (s : EnergyOptimizationSystem)
    (requiredCapacity : ℚ) : Bool × EnergyOptimizationSystem :=
  let r := sheddingRunWith rnd s requiredCapacity
  (decide (r.2.1 ≥ requiredCapacity), { s with deviceRegistry := r.1 })

/-- The method `toggleDevice` with every `float` result rounded by `rnd`: the sum
`newLoad`, the sums inside `getCurrentTotalLoad` and `performLoadShedding`, and the
conversion, quotient, product and quotient of `units`. -/
def toggleDeviceWith (rnd : ℚ → ℚ) (s : EnergyOptimizationSystem) (id : String)
    (now stamp : Int) : EnergyOptimizationSystem :=
  match registryGet s.deviceRegistry id with
  | none => s
  | some i =>
    let device := deviceAt s.deviceRegistry i
    if device.status = Status.OFF then
      let currentLoad := getCurrentTotalLoadWith rnd s
      let newLoad := rnd (currentLoad + device.consumptionRate)
      if newLoad > s.maxLoadCapacity then
        if device.isCritical then
          let r := performLoadSheddingWith rnd s device.consumptionRate
          if r.1 then
            { r.2 with deviceRegistry :=
                r.2.deviceRegistry.set i ((deviceAt r.2.deviceRegistry i).turnOn now) }
          else r.2
        else s
      else
        { s with deviceRegistry := s.deviceRegistry.set i (device.turnOn now) }
    else
      let device1 := device.turnOff
      let duration := now - device1.startTime
      let units := rnd (rnd (device1.consumptionRate * rnd (rnd (duration : ℚ) / 3600)) / 1000)
      let record : HistoryRecord :=
        { deviceID := device1.deviceID, deviceName := device1.deviceName,
          consumptionRate := device1.consumptionRate, timestamp := stamp,
          duration := duration, unitsConsumed := units }
      { s with deviceRegistry := s.deviceRegistry.set i device1,
               historyTracker := insertRecord s.historyTracker record }

/-- The value of `freedCapacity` after the shedding loop has added the rates read
through `ptrs`, in order, to `freed`, each addition rounded by `rnd`. -/
def accRates (rnd : ℚ → ℚ) (devices : List Device) (freed : ℚ) (ptrs : List Nat) : ℚ :=
  ptrs.foldl (fun f p => rnd (f + (deviceAt devices p).consumptionRate)) freed

/-! ## Invariants used in the proofs -/

/-- Heap order on the first `n` slots: no slot outranks its parent. -/
def HeapOrdered (heap : List ScheduledTask) (n : Nat) : Prop :=
  ∀ i, 0 < i → i < n → ¬ outranks (heapAt heap i) (heapAt heap (parent i))

/-- Heap order everywhere except at slot `k`, which may outrank its parent; the
children of `k` do not outrank the parent of `k`. -/
def UpInv (heap : List ScheduledTask) (n k : Nat) : Prop :=
  (∀ i, 0 < i → i < n → i ≠ k → ¬ outranks (heapAt heap i) (heapAt heap (parent i))) ∧
  (∀ i, 0 < i → i < n → parent i = k → 0 < k →
    ¬ outranks (heapAt heap i) (heapAt heap (parent k)))

/-- Heap order everywhere except between slot `k` and its children; the children
of `k` do not outrank the parent of `k`. -/
def DownInv (heap : List ScheduledTask) (n k : Nat) : Prop :=
  (∀ i, 0 < i → i < n → parent i ≠ k →
    ¬ outranks (heapAt heap i) (heapAt heap (parent i))) ∧
  (∀ i, 0 < i → i < n → parent i = k → 0 < k →
    ¬ outranks (heapAt heap i) (heapAt heap (parent k)))

/-- The index `largest` that one iteration of `heapifyDown` selects. -/
def selectLargest (heap : List ScheduledTask) (size index : Nat) : Nat :=
  let largest := index
  let left := leftChild index
  let right := rightChild index
  let largest :=
    if left < size ∧
        ((heapAt heap left).priority > (heapAt heap largest).priority ∨
          ((heapAt heap left).priority = (heapAt heap largest).priority ∧
            (heapAt heap left).scheduledTime < (heapAt heap largest).scheduledTime)) then
      left
    else largest
  let largest :=
    if right < size ∧
        ((heapAt heap right).priority > (heapAt heap largest).priority ∨
          ((heapAt heap right).priority = (heapAt heap largest).priority ∧
            (heapAt heap right).scheduledTime < (heapAt heap largest).scheduledTime)) then
      right
    else largest
  largest

/-- Representation invariant of a queue: the array has `capacity` slots, `size` is
within it, and the live slots are heap ordered. -/
def PriorityQueue.Valid (q : PriorityQueue) : Prop :=
  q.heap.length = q.capacity ∧ q.size ≤ q.capacity ∧ HeapOrdered q.heap q.size

/-- One iteration of the inner loop of the bubble sort, at index `j`. -/
def bubbleStep (key : Nat → Int) (arr : List Nat) (j : Nat) : List Nat :=
  if key (ptrAt arr j) > key (ptrAt arr (j + 1)) then
    let temp := ptrAt arr j
    let arr1 := arr.set j (ptrAt arr (j + 1))
    arr1.set (j + 1) temp
  else arr

/-- The first `m` iterations of the outer loop of the bubble sort on an array of
`n` pointers. -/
def bubbleOuter (key : Nat → Int) (n : Nat) (arr : List Nat) (m : Nat) : List Nat :=
  (List.range m).foldl (fun a i => bubbleInner key a (n - i - 1)) arr

/-- The load a device contributes: its rate while it is `ON`, nothing otherwise. -/
def loadOf (d : Device) : ℚ :=
  if d.status = Status.ON then d.consumptionRate else 0

/-- The total load of a registry as a sum over its devices. -/
def totalLoad (devices : List Device) : ℚ :=
  (devices.map loadOf).sum

/-- Every critical device of the registry has priority 10. -/
def CriticalMax (devices : List Device) : Prop :=
  ∀ d ∈ devices, d.isCritical = true → d.priority = 10

/-- The index that one iteration of the sift-down selects when the comparisons are
the ordering relation `outranks`: the left child if it outranks the node, then the
right child if it outranks that choice. -/
def largestByOutranks (heap : List ScheduledTask) (size index : Nat) : Nat :=
  let largest :=
    if leftChild index < size ∧ outranks (heapAt heap (leftChild index)) (heapAt heap index)
    then leftChild index else index
  if rightChild index < size ∧ outranks (heapAt heap (rightChild index)) (heapAt heap largest)
  then rightChild index else largest

/-! ## Concrete inputs used by the witnesses -/

/-- A task with priority `p` and scheduled hour `h` for the device `id`. -/
def sampleTask (id : String) (p h : Int) : ScheduledTask :=
  ScheduledTask.create id id h 30 p false

/-- A device with the given id, rate, critical flag, priority and status. -/
def sampleDevice (id : String) (rate : ℚ) (critical : Bool) (priority : Int)
    (status : Status) : Device :=
  { Device.create id id rate critical priority with status := status }

/-- A system with the given registry and capacity, an empty history and an empty
scheduler. -/
def sampleSystem (devices : List Device) (capacity : ℚ) : EnergyOptimizationSystem :=
  { deviceRegistry := devices, historyTracker := [],
    scheduler := PriorityQueue.new defaultCapacity, maxLoadCapacity := capacity,
    deviceCount := devices.length }

/-- The status of every device of the registry, in enumeration order. -/
def statuses (s : EnergyOptimizationSystem) : List Status :=
  s.deviceRegistry.map (fun d => d.status)

/-- The default queue after one hundred enqueues: it is full. -/
def fullQueue : PriorityQueue :=
  (PriorityQueue.new defaultCapacity).enqueueAll (List.replicate 100 (sampleTask "a" 5 10))

/-! ## Lemmas -/

/-! ### The ordering relation -/

theorem outranks_irrefl (a : ScheduledTask) : ¬ outranks a a := by
  unfold outranks; omega

theorem outranks_asymm {a b : ScheduledTask} (h : outranks a b) : ¬ outranks b a := by
  unfold outranks at *; omega

theorem outranks_trans {a b c : ScheduledTask} (h1 : outranks a b) (h2 : outranks b c) :
    outranks a c := by
  unfold outranks at *; omega

theorem not_outranks_trans {a b c : ScheduledTask} (h1 : ¬ outranks a b)
    (h2 : ¬ outranks b c) : ¬ outranks a c := by
  unfold outranks at *; omega

theorem not_outranks_of_not_of_outranks {a b c : ScheduledTask} (h1 : ¬ outranks a b)
    (h2 : outranks c b) : ¬ outranks a c := by
  unfold outranks at *; omega

/-! ### Array reads and swaps -/

theorem heapAt_set (heap : List ScheduledTask) (i k : Nat) (x : ScheduledTask) :
    heapAt (heap.set i x) k = if k = i ∧ i < heap.length then x else heapAt heap k := by
  unfold heapAt
  simp only [List.getD_eq_getElem?_getD, List.getElem?_set]
  by_cases h : i = k
  · subst h
    by_cases h2 : i < heap.length
    · simp [h2]
    · have h3 : heap.length ≤ i := by omega
      simp [h2, List.getElem?_eq_none h3]
  · have h' : ¬ k = i := fun e => h e.symm
    simp [h, h']

theorem length_swap (heap : List ScheduledTask) (i j : Nat) :
    (swap heap i j).length = heap.length := by
  simp [swap]

theorem heapAt_swap (heap : List ScheduledTask) (i j k : Nat) (hi : i < heap.length)
    (hj : j < heap.length) :
    heapAt (swap heap i j) k =
      if k = j then heapAt heap i else if k = i then heapAt heap j else heapAt heap k := by
  simp only [swap, heapAt_set, List.length_set, hi, hj, and_true]

theorem heapAt_mem_take (heap : List ScheduledTask) (n i : Nat) (hn : n ≤ heap.length)
    (hi : i < n) : heapAt heap i ∈ heap.take n := by
  have hlen : i < (heap.take n).length := by simp; omega
  have : heapAt heap i = (heap.take n)[i] := by
    unfold heapAt
    rw [List.getD_eq_getElem _ _ (by omega)]
    simp
  rw [this]
  exact List.getElem_mem _

theorem exists_of_mem_take (heap : List ScheduledTask) (n : Nat) (x : ScheduledTask)
    (hx : x ∈ heap.take n) : ∃ i, i < n ∧ i < heap.length ∧ heapAt heap i = x := by
  obtain ⟨i, hi, rfl⟩ := List.getElem_of_mem hx
  have hi' : i < n ∧ i < heap.length := by
    simp at hi; omega
  refine ⟨i, hi'.1, hi'.2, ?_⟩
  unfold heapAt
  rw [List.getD_eq_getElem _ _ hi'.2]
  simp

theorem set_perm_count (l : List ScheduledTask) (i j : Nat) (hi : i < l.length)
    (hj : j < l.length) : ((l.set i l[j]).set j l[i]).Perm l := by
  rw [List.perm_iff_count]
  intro a
  have hj' : j < (l.set i l[j]).length := by simpa using hj
  rw [List.count_set _ _ _ _ hj', List.count_set _ _ _ _ hi]
  have e : (l.set i l[j])[j] = l[j] := by
    rw [List.getElem_set]
    split <;> rfl
  rw [e]
  have c1 : (if l[i] == a then 1 else 0) ≤ l.count a := by
    split
    · rename_i h
      have : l[i] = a := by simpa using h
      have hm : a ∈ l := this ▸ List.getElem_mem _
      exact List.count_pos_iff.mpr hm
    · omega
  omega

theorem swap_take_perm (heap : List ScheduledTask) (n i j : Nat) (hn : n ≤ heap.length)
    (hi : i < n) (hj : j < n) : ((swap heap i j).take n).Perm (heap.take n) := by
  have hi' : i < (heap.take n).length := by simp; omega
  have hj' : j < (heap.take n).length := by simp; omega
  have e : (swap heap i j).take n =
      ((heap.take n).set i (heap.take n)[j]).set j (heap.take n)[i] := by
    unfold swap heapAt
    rw [List.getD_eq_getElem _ _ (by omega), List.getD_eq_getElem _ _ (by omega)]
    simp only [List.set_take, List.getElem_take]
  rw [e]
  exact set_perm_count _ _ _ hi' hj'

/-! ### Index arithmetic -/

theorem parent_lt {i : Nat} (h : 0 < i) : parent i < i := by
  unfold parent; omega

theorem parent_eq_iff {i k : Nat} (h : 0 < i) :
    parent i = k ↔ i = leftChild k ∨ i = rightChild k := by
  unfold parent leftChild rightChild; omega

/-! ### Heap order -/

theorem HeapOrdered.root_max {heap : List ScheduledTask} {n : Nat}
    (h : HeapOrdered heap n) : ∀ i, i < n → ¬ outranks (heapAt heap i) (heapAt heap 0) := by
  intro i
  induction i using Nat.strong_induction_on with
  | _ i ih =>
    intro hi
    by_cases h0 : i = 0
    · subst h0; exact outranks_irrefl _
    · have hpos : 0 < i := Nat.pos_of_ne_zero h0
      have hp := parent_lt hpos
      exact not_outranks_trans (h i hpos hi) (ih (parent i) hp (by omega))

theorem upInv_swap {heap : List ScheduledTask} {n k : Nat} (hn : n ≤ heap.length)
    (hk : k < n) (hpos : 0 < k) (inv : UpInv heap n k)
    (hout : outranks (heapAt heap k) (heapAt heap (parent k))) :
    UpInv (swap heap k (parent k)) n (parent k) := by
  have hp := parent_lt hpos
  have hkl : k < heap.length := by omega
  have hpl : parent k < heap.length := by omega
  obtain ⟨ha, hb⟩ := inv
  constructor
  · intro i hi0 hin hip
    rw [heapAt_swap _ _ _ _ hkl hpl, heapAt_swap _ _ _ _ hkl hpl]
    have hpi := parent_lt hi0
    by_cases hik : i = k
    · subst hik
      simp only [if_neg (Nat.ne_of_gt hp), if_true]
      exact outranks_asymm hout
    · simp only [if_neg hip, if_neg hik]
      by_cases h1 : parent i = parent k
      · simp only [h1, if_true]
        have := ha i hi0 hin hik
        rw [h1] at this
        exact not_outranks_of_not_of_outranks this hout
      · simp only [if_neg h1]
        by_cases h2 : parent i = k
        · simp only [h2, if_true]
          exact hb i hi0 hin h2 hpos
        · simp only [if_neg h2]
          exact ha i hi0 hin hik
  · intro i hi0 hin hip hp0
    have hpp := parent_lt hp0
    rw [heapAt_swap _ _ _ _ hkl hpl, heapAt_swap _ _ _ _ hkl hpl]
    have hne1 : parent (parent k) ≠ parent k := by omega
    have hne2 : parent (parent k) ≠ k := by omega
    simp only [if_neg hne1, if_neg hne2]
    have hipk : i ≠ parent k := by
      have := parent_lt hi0; omega
    simp only [if_neg hipk]
    have hpk : ¬ outranks (heapAt heap (parent k)) (heapAt heap (parent (parent k))) :=
      ha (parent k) hp0 (by omega) (by omega)
    by_cases hik : i = k
    · simp only [hik, if_true]
      exact hpk
    · simp only [if_neg hik]
      have := ha i hi0 hin hik
      rw [hip] at this
      exact not_outranks_trans this hpk

theorem heapifyUpLoop_length (fuel : Nat) (heap : List ScheduledTask) (index : Nat) :
    (heapifyUpLoop fuel heap index).length = heap.length := by
  induction fuel generalizing heap index with
  | zero => rfl
  | succ fuel ih =>
    unfold heapifyUpLoop
    split
    · simp only []
      split
      · rw [ih, length_swap]
      · rfl
    · rfl

theorem heapifyUpLoop_heapOrdered (fuel : Nat) (heap : List ScheduledTask) (n k : Nat)
    (hf : k ≤ fuel) (hn : n ≤ heap.length) (hk : k < n) (inv : UpInv heap n k) :
    HeapOrdered (heapifyUpLoop fuel heap k) n := by
  induction fuel generalizing heap k with
  | zero =>
    have hk0 : k = 0 := by omega
    subst hk0
    intro i hi0 hin
    exact inv.1 i hi0 hin (by omega)
  | succ fuel ih =>
    unfold heapifyUpLoop
    split
    · rename_i hpos
      simp only []
      split
      · rename_i hout
        have hp := parent_lt hpos
        exact ih _ _ (by omega) (by rw [length_swap]; exact hn) (by omega)
          (upInv_swap hn hk hpos inv hout)
      · rename_i hout
        intro i hi0 hin
        by_cases hik : i = k
        · subst hik; exact hout
        · exact inv.1 i hi0 hin hik
    · rename_i hpos
      intro i hi0 hin
      exact inv.1 i hi0 hin (by omega)

theorem heapifyUpLoop_perm (fuel : Nat) (heap : List ScheduledTask) (n k : Nat)
    (hn : n ≤ heap.length) (hk : k < n) :
    ((heapifyUpLoop fuel heap k).take n).Perm (heap.take n) := by
  induction fuel generalizing heap k with
  | zero => exact List.Perm.refl _
  | succ fuel ih =>
    unfold heapifyUpLoop
    split
    · rename_i hpos
      simp only []
      have hp := parent_lt hpos
      split
      · exact (ih _ _ (by rw [length_swap]; exact hn) (by omega)).trans
          (swap_take_perm heap n k (parent k) hn hk (by omega))
      · exact List.Perm.refl _
    · exact List.Perm.refl _

theorem heapifyUpLoop_fuel (f1 f2 : Nat) (heap : List ScheduledTask) (index : Nat)
    (h1 : index ≤ f1) (h2 : index ≤ f2) :
    heapifyUpLoop f1 heap index = heapifyUpLoop f2 heap index := by
  induction f1 generalizing f2 heap index with
  | zero =>
    have : index = 0 := by omega
    subst this
    cases f2 with
    | zero => rfl
    | succ f2 => simp [heapifyUpLoop]
  | succ f1 ih =>
    cases f2 with
    | zero =>
      have : index = 0 := by omega
      subst this
      simp [heapifyUpLoop]
    | succ f2 =>
      unfold heapifyUpLoop
      split
      · rename_i hpos
        have hp := parent_lt hpos
        simp only []
        split
        · exact ih _ _ _ (by omega) (by omega)
        · rfl
      · rfl

theorem heapifyDownLoop_succ (size fuel : Nat) (heap : List ScheduledTask) (index : Nat) :
    heapifyDownLoop size (fuel + 1) heap index =
      if selectLargest heap size index ≠ index then
        heapifyDownLoop size fuel (swap heap index (selectLargest heap size index))
          (selectLargest heap size index)
      else heap := rfl

theorem selectLargest_eq {heap : List ScheduledTask} {size index : Nat}
    (h : selectLargest heap size index = index) :
    (leftChild index < size →
      ¬ outranks (heapAt heap (leftChild index)) (heapAt heap index)) ∧
    (rightChild index < size →
      ¬ outranks (heapAt heap (rightChild index)) (heapAt heap index)) := by
  have hl : leftChild index ≠ index := by unfold leftChild; omega
  have hr : rightChild index ≠ index := by unfold rightChild; omega
  unfold selectLargest at h
  simp only [] at h
  by_cases c1 : leftChild index < size ∧
        ((heapAt heap (leftChild index)).priority > (heapAt heap index).priority ∨
          ((heapAt heap (leftChild index)).priority = (heapAt heap index).priority ∧
            (heapAt heap (leftChild index)).scheduledTime < (heapAt heap index).scheduledTime))
  · rw [if_pos c1] at h
    split at h
    · exact absurd h hr
    · exact absurd h hl
  · rw [if_neg c1] at h
    split at h
    · exact absurd h hr
    · rename_i c2
      exact ⟨fun hlt ho => c1 ⟨hlt, ho⟩, fun hlt ho => c2 ⟨hlt, ho⟩⟩

theorem selectLargest_ne {heap : List ScheduledTask} {size index : Nat}
    (h : selectLargest heap size index ≠ index) :
    (selectLargest heap size index = leftChild index ∨
      selectLargest heap size index = rightChild index) ∧
    selectLargest heap size index < size ∧
    outranks (heapAt heap (selectLargest heap size index)) (heapAt heap index) ∧
    (leftChild index < size → ¬ outranks (heapAt heap (leftChild index))
      (heapAt heap (selectLargest heap size index))) ∧
    (rightChild index < size → ¬ outranks (heapAt heap (rightChild index))
      (heapAt heap (selectLargest heap size index))) := by
  unfold selectLargest at h ⊢
  simp only [] at h ⊢
  by_cases c1 : leftChild index < size ∧
        ((heapAt heap (leftChild index)).priority > (heapAt heap index).priority ∨
          ((heapAt heap (leftChild index)).priority = (heapAt heap index).priority ∧
            (heapAt heap (leftChild index)).scheduledTime < (heapAt heap index).scheduledTime))
  · rw [if_pos c1] at h ⊢
    by_cases c2 : rightChild index < size ∧
        ((heapAt heap (rightChild index)).priority > (heapAt heap (leftChild index)).priority ∨
          ((heapAt heap (rightChild index)).priority = (heapAt heap (leftChild index)).priority ∧
            (heapAt heap (rightChild index)).scheduledTime <
              (heapAt heap (leftChild index)).scheduledTime))
    · rw [if_pos c2] at h ⊢
      have o1 : outranks (heapAt heap (leftChild index)) (heapAt heap index) := c1.2
      have o2 : outranks (heapAt heap (rightChild index)) (heapAt heap (leftChild index)) :=
        c2.2
      exact ⟨Or.inr rfl, c2.1, outranks_trans o2 o1, fun _ => outranks_asymm o2,
        fun _ => outranks_irrefl _⟩
    · rw [if_neg c2] at h ⊢
      exact ⟨Or.inl rfl, c1.1, c1.2, fun _ => outranks_irrefl _, fun hlt ho => c2 ⟨hlt, ho⟩⟩
  · rw [if_neg c1] at h ⊢
    by_cases c2 : rightChild index < size ∧
        ((heapAt heap (rightChild index)).priority > (heapAt heap index).priority ∨
          ((heapAt heap (rightChild index)).priority = (heapAt heap index).priority ∧
            (heapAt heap (rightChild index)).scheduledTime <
              (heapAt heap index).scheduledTime))
    · rw [if_pos c2] at h ⊢
      have o2 : outranks (heapAt heap (rightChild index)) (heapAt heap index) := c2.2
      refine ⟨Or.inr rfl, c2.1, o2, ?_, fun _ => outranks_irrefl _⟩
      intro hlt
      have : ¬ outranks (heapAt heap (leftChild index)) (heapAt heap index) :=
        fun ho => c1 ⟨hlt, ho⟩
      exact not_outranks_of_not_of_outranks this o2
    · rw [if_neg c2] at h
      exact absurd rfl h

theorem downInv_swap {heap : List ScheduledTask} {n k : Nat} (hn : n ≤ heap.length)
    (inv : DownInv heap n k) (hne : selectLargest heap n k ≠ k) :
    DownInv (swap heap k (selectLargest heap n k)) n (selectLargest heap n k) := by
  obtain ⟨hm, hmn, hout, hleft, hright⟩ := selectLargest_ne hne
  generalize selectLargest heap n k = m at *
  have hkm : k < m := by
    unfold leftChild rightChild at hm; omega
  have hkl : k < heap.length := by omega
  have hml : m < heap.length := by omega
  have hpm : parent m = k := (parent_eq_iff (by omega)).mpr hm
  obtain ⟨ha, hb⟩ := inv
  constructor
  · intro i hi0 hin hip
    rw [heapAt_swap _ _ _ _ hkl hml, heapAt_swap _ _ _ _ hkl hml]
    have hpi := parent_lt hi0
    simp only [if_neg hip]
    by_cases him : i = m
    · subst him
      simp only [if_true, hpm]
      exact outranks_asymm hout
    · simp only [if_neg him]
      by_cases hik : i = k
      · subst hik
        have h1 : parent i ≠ i := by omega
        simp only [if_true, if_neg h1]
        exact hb m (by omega) hmn hpm hi0
      · simp only [if_neg hik]
        by_cases h2 : parent i = k
        · simp only [h2, if_true]
          rcases (parent_eq_iff hi0).mp h2 with e | e
          · rw [e]; exact hleft (by omega)
          · rw [e]; exact hright (by omega)
        · simp only [if_neg h2]
          exact ha i hi0 hin h2
  · intro i hi0 hin hip _
    have hpi := parent_lt hi0
    rw [heapAt_swap _ _ _ _ hkl hml, heapAt_swap _ _ _ _ hkl hml]
    have h1 : i ≠ m := by omega
    have h2 : i ≠ k := by omega
    have h3 : k ≠ m := by omega
    simp only [if_neg h1, if_neg h2, hpm, if_neg h3, if_true]
    have := ha i hi0 hin (by omega)
    rw [hip] at this
    exact this

theorem heapifyDownLoop_length (size fuel : Nat) (heap : List ScheduledTask) (index : Nat) :
    (heapifyDownLoop size fuel heap index).length = heap.length := by
  induction fuel generalizing heap index with
  | zero => rfl
  | succ fuel ih =>
    rw [heapifyDownLoop_succ]
    split
    · rw [ih, length_swap]
    · rfl

theorem downInv_heapOrdered {heap : List ScheduledTask} {n k : Nat}
    (inv : DownInv heap n k) (he : n ≤ k ∨ selectLargest heap n k = k) :
    HeapOrdered heap n := by
  intro i hi0 hin
  by_cases hp : parent i = k
  · have hpi := parent_lt hi0
    rcases he with he | he
    · omega
    · obtain ⟨h1, h2⟩ := selectLargest_eq he
      rw [hp]
      rcases (parent_eq_iff hi0).mp hp with e | e
      · rw [e]; exact h1 (by omega)
      · rw [e]; exact h2 (by omega)
  · exact inv.1 i hi0 hin hp

theorem heapifyDownLoop_heapOrdered (fuel : Nat) (heap : List ScheduledTask) (n k : Nat)
    (hf : n - k ≤ fuel) (hn : n ≤ heap.length) (inv : DownInv heap n k) :
    HeapOrdered (heapifyDownLoop n fuel heap k) n := by
  induction fuel generalizing heap k with
  | zero =>
    exact downInv_heapOrdered inv (Or.inl (by omega))
  | succ fuel ih =>
    rw [heapifyDownLoop_succ]
    split
    · rename_i hne
      obtain ⟨hm, hmn, _⟩ := selectLargest_ne hne
      have hkm : k < selectLargest heap n k := by
        unfold leftChild rightChild at hm; omega
      exact ih _ _ (by omega) (by rw [length_swap]; exact hn) (downInv_swap hn inv hne)
    · rename_i he
      exact downInv_heapOrdered inv (Or.inr (not_not.mp he))

theorem heapifyDownLoop_perm (fuel : Nat) (heap : List ScheduledTask) (n k : Nat)
    (hn : n ≤ heap.length) :
    ((heapifyDownLoop n fuel heap k).take n).Perm (heap.take n) := by
  induction fuel generalizing heap k with
  | zero => exact List.Perm.refl _
  | succ fuel ih =>
    rw [heapifyDownLoop_succ]
    split
    · rename_i hne
      obtain ⟨hm, hmn, _⟩ := selectLargest_ne hne
      have hkm : k < selectLargest heap n k := by
        unfold leftChild rightChild at hm; omega
      exact (ih _ _ (by rw [length_swap]; exact hn)).trans
        (swap_take_perm heap n k _ hn (by omega) hmn)
    · exact List.Perm.refl _

theorem heapifyDownLoop_fuel (size f1 f2 : Nat) (heap : List ScheduledTask) (index : Nat)
    (h1 : size - index ≤ f1) (h2 : size - index ≤ f2) :
    heapifyDownLoop size f1 heap index = heapifyDownLoop size f2 heap index := by
  induction f1 generalizing f2 heap index with
  | zero =>
    cases f2 with
    | zero => rfl
    | succ f2 =>
      rw [heapifyDownLoop_succ]
      split
      · rename_i hne
        obtain ⟨hm, hmn, _⟩ := selectLargest_ne hne
        unfold leftChild rightChild at hm; omega
      · rfl
  | succ f1 ih =>
    cases f2 with
    | zero =>
      rw [heapifyDownLoop_succ]
      split
      · rename_i hne
        obtain ⟨hm, hmn, _⟩ := selectLargest_ne hne
        unfold leftChild rightChild at hm; omega
      · rfl
    | succ f2 =>
      rw [heapifyDownLoop_succ, heapifyDownLoop_succ]
      split
      · rename_i hne
        obtain ⟨hm, hmn, _⟩ := selectLargest_ne hne
        have hkm : index < selectLargest heap size index := by
          unfold leftChild rightChild at hm; omega
        exact ih _ _ _ (by omega) (by omega)
      · rfl

theorem take_succ_set (l : List ScheduledTask) (n : Nat) (x : ScheduledTask)
    (h : n < l.length) : (l.set n x).take (n + 1) = l.take n ++ [x] := by
  rw [List.take_succ, List.set_take, List.set_eq_of_length_le (by simp)]
  simp [List.getElem?_set, h]

theorem valid_new (cap : Nat) : (PriorityQueue.new cap).Valid := by
  refine ⟨by simp [PriorityQueue.new], Nat.zero_le _, ?_⟩
  intro i _ hi
  simp [PriorityQueue.new] at hi

theorem enqueue_full (q : PriorityQueue) (task : ScheduledTask) (h : q.size ≥ q.capacity) :
    q.enqueue task = q := by
  simp [PriorityQueue.enqueue, h]

theorem enqueue_size (q : PriorityQueue) (task : ScheduledTask) (h : q.size < q.capacity) :
    (q.enqueue task).size = q.size + 1 := by
  have : ¬ q.size ≥ q.capacity := by omega
  simp [PriorityQueue.enqueue, this]

theorem enqueue_capacity (q : PriorityQueue) (task : ScheduledTask) :
    (q.enqueue task).capacity = q.capacity := by
  unfold PriorityQueue.enqueue
  split <;> rfl

theorem valid_enqueue (q : PriorityQueue) (task : ScheduledTask) (hv : q.Valid) :
    (q.enqueue task).Valid := by
  obtain ⟨hlen, hle, hord⟩ := hv
  unfold PriorityQueue.enqueue
  split
  · exact ⟨hlen, hle, hord⟩
  · rename_i hfull
    have hlt : q.size < q.heap.length := by omega
    refine ⟨?_, ?_, ?_⟩
    · simp [heapifyUp, heapifyUpLoop_length, hlen]
    · show q.size + 1 ≤ q.capacity
      omega
    · show HeapOrdered (heapifyUp (q.heap.set q.size task) q.size) (q.size + 1)
      apply heapifyUpLoop_heapOrdered _ _ _ _ (Nat.le_refl _) (by simp; omega) (by omega)
      constructor
      · intro i hi0 hin hne
        have hp := parent_lt hi0
        rw [heapAt_set, heapAt_set, if_neg (by omega), if_neg (by omega)]
        exact hord i hi0 (by omega)
      · intro i hi0 hin hp _
        have := parent_lt hi0
        omega

theorem enqueue_tasks_perm (q : PriorityQueue) (task : ScheduledTask) (hv : q.Valid)
    (h : q.size < q.capacity) : (q.enqueue task).tasks.Perm (q.tasks ++ [task]) := by
  obtain ⟨hlen, hle, hord⟩ := hv
  have hfull : ¬ q.size ≥ q.capacity := by omega
  have hlt : q.size < q.heap.length := by omega
  unfold PriorityQueue.tasks PriorityQueue.enqueue
  rw [if_neg hfull]
  show ((heapifyUp (q.heap.set q.size task) q.size).take (q.size + 1)).Perm _
  rw [← take_succ_set _ _ _ hlt]
  exact heapifyUpLoop_perm _ _ _ _ (by simp; omega) (by omega)

theorem dequeue_empty (q : PriorityQueue) (h : q.size = 0) :
    q.dequeue = (ScheduledTask.new, q) := by
  simp [PriorityQueue.dequeue, h]

theorem dequeue_fst (q : PriorityQueue) (h : q.size ≠ 0) :
    (q.dequeue).1 = heapAt q.heap 0 := by
  simp [PriorityQueue.dequeue, h]

theorem dequeue_size (q : PriorityQueue) : (q.dequeue).2.size = q.size - 1 := by
  unfold PriorityQueue.dequeue
  split
  · rename_i h; simp [h]
  · rfl

theorem dequeue_capacity (q : PriorityQueue) : (q.dequeue).2.capacity = q.capacity := by
  unfold PriorityQueue.dequeue
  split <;> rfl

theorem valid_dequeue (q : PriorityQueue) (hv : q.Valid) : (q.dequeue).2.Valid := by
  obtain ⟨hlen, hle, hord⟩ := hv
  unfold PriorityQueue.dequeue
  split
  · exact ⟨hlen, hle, hord⟩
  · rename_i hne
    refine ⟨?_, ?_, ?_⟩
    · simp [heapifyDown, heapifyDownLoop_length, hlen]
    · show q.size - 1 ≤ q.capacity
      omega
    · show HeapOrdered (heapifyDown (q.heap.set 0 (heapAt q.heap (q.size - 1)))
        (q.size - 1) 0) (q.size - 1)
      apply heapifyDownLoop_heapOrdered _ _ _ _ (Nat.le_refl _) (by simp; omega)
      constructor
      · intro i hi0 hin hp
        rw [heapAt_set, heapAt_set, if_neg (by omega), if_neg (by omega)]
        exact hord i hi0 (by omega)
      · intro i _ _ _ h0
        omega

theorem dequeue_tasks_perm (q : PriorityQueue) (hv : q.Valid) (h : q.size ≠ 0) :
    ((q.dequeue).1 :: (q.dequeue).2.tasks).Perm q.tasks := by
  obtain ⟨hlen, hle, hord⟩ := hv
  obtain ⟨m, hm⟩ := Nat.exists_eq_succ_of_ne_zero h
  have hlt : m < q.heap.length := by omega
  unfold PriorityQueue.tasks PriorityQueue.dequeue
  rw [if_neg h]
  show (heapAt q.heap 0 :: (heapifyDown (q.heap.set 0 (heapAt q.heap (q.size - 1)))
    (q.size - 1) 0).take (q.size - 1)).Perm (q.heap.take q.size)
  rw [hm, Nat.succ_sub_one]
  have p1 : ((heapifyDown (q.heap.set 0 (heapAt q.heap m)) m 0).take m).Perm
      ((q.heap.set 0 (heapAt q.heap m)).take m) :=
    heapifyDownLoop_perm _ _ _ _ (by simp; omega)
  have p2 : ((swap q.heap 0 m).take (m + 1)).Perm (q.heap.take (m + 1)) :=
    swap_take_perm _ _ _ _ (by omega) (by omega) (by omega)
  have e : (swap q.heap 0 m).take (m + 1) =
      (q.heap.set 0 (heapAt q.heap m)).take m ++ [heapAt q.heap 0] := by
    unfold swap
    simp only []
    rw [take_succ_set _ _ _ (by simp; omega)]
  rw [e] at p2
  exact ((List.Perm.cons _ p1).trans (List.perm_append_singleton _ _).symm).trans p2

theorem valid_run (q : PriorityQueue) (ops : List QueueOp) (hv : q.Valid) :
    (q.run ops).Valid := by
  unfold PriorityQueue.run
  induction ops generalizing q with
  | nil => exact hv
  | cons op ops ih =>
    simp only [List.foldl_cons]
    apply ih
    cases op with
    | enq task => exact valid_enqueue q task hv
    | deq => exact valid_dequeue q hv

theorem peek_mem_tasks (q : PriorityQueue) (hv : q.Valid) (h : q.size ≠ 0) :
    q.peek ∈ q.tasks := by
  obtain ⟨hlen, hle, hord⟩ := hv
  unfold PriorityQueue.peek PriorityQueue.tasks
  rw [if_neg h]
  exact heapAt_mem_take _ _ _ (by omega) (by omega)

theorem root_not_outranked (q : PriorityQueue) (hv : q.Valid) (t : ScheduledTask)
    (ht : t ∈ q.tasks) : ¬ outranks t (heapAt q.heap 0) := by
  obtain ⟨hlen, hle, hord⟩ := hv
  obtain ⟨i, hi, _, rfl⟩ := exists_of_mem_take _ _ _ ht
  exact hord.root_max i hi

theorem enqueueAll_spec (q : PriorityQueue) (ts : List ScheduledTask) (hv : q.Valid)
    (h : q.size + ts.length ≤ q.capacity) :
    (q.enqueueAll ts).Valid ∧ (q.enqueueAll ts).tasks.Perm (q.tasks ++ ts) ∧
      (q.enqueueAll ts).size = q.size + ts.length := by
  unfold PriorityQueue.enqueueAll
  induction ts generalizing q with
  | nil => exact ⟨hv, by simp, rfl⟩
  | cons t ts ih =>
    simp only [List.foldl_cons, List.length_cons] at h ⊢
    have hlt : q.size < q.capacity := by omega
    have hs := enqueue_size q t hlt
    have hc := enqueue_capacity q t
    obtain ⟨v, p, s⟩ := ih (q.enqueue t) (valid_enqueue q t hv) (by omega)
    refine ⟨v, ?_, by omega⟩
    refine p.trans ?_
    have := (enqueue_tasks_perm q t hv hlt).append_right ts
    simpa using this

theorem dequeueN_spec (n : Nat) (q : PriorityQueue) (hv : q.Valid) (hn : q.size = n) :
    (PriorityQueue.dequeueN n q).Perm q.tasks ∧
      (PriorityQueue.dequeueN n q).Pairwise (fun a b => ¬ outranks b a) := by
  induction n generalizing q with
  | zero =>
    simp [PriorityQueue.dequeueN, PriorityQueue.tasks, hn]
  | succ n ih =>
    have hne : q.size ≠ 0 := by omega
    have hv' := valid_dequeue q hv
    have hs' : (q.dequeue).2.size = n := by rw [dequeue_size]; omega
    obtain ⟨p, s⟩ := ih (q.dequeue).2 hv' hs'
    have pq := dequeue_tasks_perm q hv hne
    unfold PriorityQueue.dequeueN
    refine ⟨(List.Perm.cons _ p).trans pq, ?_⟩
    rw [List.pairwise_cons]
    refine ⟨?_, s⟩
    intro b hb
    rw [dequeue_fst q hne]
    apply root_not_outranked q hv
    exact pq.subset (List.mem_cons_of_mem _ (p.subset hb))

theorem sorted_of_perm_three {a b c : ScheduledTask} (ha : a.priority = 5)
    (ha' : a.scheduledTime = 10) (hb : b.priority = 8) (hb' : b.scheduledTime = 3)
    (hc : c.priority = 8) (hc' : c.scheduledTime = 1) (out : List ScheduledTask)
    (hp : out.Perm [a, b, c]) (hs : out.Pairwise (fun x y => ¬ outranks y x)) :
    out = [c, b, a] := by
  have hlen : out.length = 3 := by simpa using hp.length_eq
  obtain ⟨x, y, z, rfl⟩ := List.length_eq_three.mp hlen
  have hx : x ∈ [a, b, c] := hp.subset (by simp)
  have hy : y ∈ [a, b, c] := hp.subset (by simp)
  have hz : z ∈ [a, b, c] := hp.subset (by simp)
  have ma : a ∈ [x, y, z] := hp.symm.subset (by simp)
  have mb : b ∈ [x, y, z] := hp.symm.subset (by simp)
  have mc : c ∈ [x, y, z] := hp.symm.subset (by simp)
  simp only [List.pairwise_cons, List.mem_cons, List.mem_singleton, List.not_mem_nil,
    or_false, forall_eq_or_imp, forall_eq, outranks, List.Pairwise.nil, and_true,
    IsEmpty.forall_iff, implies_true] at hs hx hy hz ma mb mc
  have nab : a ≠ b := fun e => by rw [e] at ha; omega
  have nac : a ≠ c := fun e => by rw [e] at ha; omega
  have nbc : b ≠ c := fun e => by rw [e] at hb'; omega
  have nba : b ≠ a := fun e => nab e.symm
  have nca : c ≠ a := fun e => nac e.symm
  have ncb : c ≠ b := fun e => nbc e.symm
  rcases hx with rfl | rfl | rfl <;> rcases hy with rfl | rfl | rfl <;>
    rcases hz with rfl | rfl | rfl <;>
    first
    | rfl
    | (exfalso; omega)
    | (exfalso; simp_all)

/-! ### The bubble sort -/

theorem bubbleInner_eq_foldl (key : Nat → Int) (arr : List Nat) (bound : Nat) :
    bubbleInner key arr bound = (List.range bound).foldl (bubbleStep key) arr := rfl

theorem bubbleSort_eq_outer (key : Nat → Int) (arr : List Nat) :
    bubbleSort key arr = bubbleOuter key arr.length arr (arr.length - 1) := rfl

theorem bubbleStep_cons_succ (key : Nat → Int) (a : Nat) (t : List Nat) (j : Nat) :
    bubbleStep key (a :: t) (j + 1) = a :: bubbleStep key t j := by
  unfold bubbleStep ptrAt
  simp only [List.getD_cons_succ, List.set_cons_succ]
  split <;> rfl

theorem foldl_bubbleStep_shift (key : Nat → Int) (js : List Nat) (a : Nat) (t : List Nat) :
    (js.map Nat.succ).foldl (bubbleStep key) (a :: t) = a :: js.foldl (bubbleStep key) t := by
  induction js generalizing t with
  | nil => rfl
  | cons j js ih =>
    simp only [List.map_cons, List.foldl_cons]
    rw [show Nat.succ j = j + 1 from rfl, bubbleStep_cons_succ, ih]

theorem bubbleInner_zero (key : Nat → Int) (arr : List Nat) : bubbleInner key arr 0 = arr :=
  rfl

theorem bubbleInner_cons_cons (key : Nat → Int) (x y : Nat) (r : List Nat) (b : Nat) :
    bubbleInner key (x :: y :: r) (b + 1) =
      if key x > key y then y :: bubbleInner key (x :: r) b
      else x :: bubbleInner key (y :: r) b := by
  simp only [bubbleInner_eq_foldl]
  rw [List.range_succ_eq_map, List.foldl_cons]
  have e : bubbleStep key (x :: y :: r) 0 =
      if key x > key y then y :: x :: r else x :: y :: r := by
    unfold bubbleStep ptrAt
    simp
  rw [e]
  split
  · rw [foldl_bubbleStep_shift]
  · rw [foldl_bubbleStep_shift]

theorem bubbleInner_perm (key : Nat → Int) (b : Nat) (arr : List Nat)
    (h : b + 1 ≤ arr.length) : (bubbleInner key arr b).Perm arr := by
  induction b generalizing arr with
  | zero => exact List.Perm.refl _
  | succ b ih =>
    match arr, h with
    | x :: y :: r, h =>
      rw [bubbleInner_cons_cons]
      have hl : b + 1 ≤ (x :: r).length := by simp at h ⊢; omega
      have hl' : b + 1 ≤ (y :: r).length := by simp at h ⊢; omega
      split
      · exact ((ih (x :: r) hl).cons y).trans (List.Perm.swap x y r)
      · exact (ih (y :: r) hl').cons x

theorem bubbleInner_last_max (key : Nat → Int) (b : Nat) (arr : List Nat)
    (h : arr.length = b + 1) :
    ∃ init m, bubbleInner key arr b = init ++ [m] ∧ ∀ x ∈ arr, key x ≤ key m := by
  induction b generalizing arr with
  | zero =>
    match arr, h with
    | [x], _ => exact ⟨[], x, rfl, by simp⟩
  | succ b ih =>
    match arr, h with
    | x :: y :: r, h =>
      rw [bubbleInner_cons_cons]
      have hl : (x :: r).length = b + 1 := by simp at h ⊢; omega
      have hl' : (y :: r).length = b + 1 := by simp at h ⊢; omega
      split
      · rename_i hxy
        obtain ⟨init, m, e, hm⟩ := ih (x :: r) hl
        refine ⟨y :: init, m, by rw [e]; rfl, ?_⟩
        intro z hz
        simp only [List.mem_cons] at hz hm
        rcases hz with rfl | rfl | hz
        · exact hm z (Or.inl rfl)
        · have := hm x (Or.inl rfl); omega
        · exact hm z (Or.inr hz)
      · rename_i hxy
        obtain ⟨init, m, e, hm⟩ := ih (y :: r) hl'
        refine ⟨x :: init, m, by rw [e]; rfl, ?_⟩
        intro z hz
        simp only [List.mem_cons] at hz hm
        rcases hz with rfl | rfl | hz
        · have := hm y (Or.inl rfl); omega
        · exact hm z (Or.inl rfl)
        · exact hm z (Or.inr hz)

theorem bubbleInner_append (key : Nat → Int) (b : Nat) (l s : List Nat)
    (h : b + 1 ≤ l.length) : bubbleInner key (l ++ s) b = bubbleInner key l b ++ s := by
  induction b generalizing l with
  | zero => rfl
  | succ b ih =>
    match l, h with
    | x :: y :: r, h =>
      have hl : b + 1 ≤ (x :: r).length := by simp at h ⊢; omega
      have hl' : b + 1 ≤ (y :: r).length := by simp at h ⊢; omega
      simp only [List.cons_append]
      rw [bubbleInner_cons_cons, bubbleInner_cons_cons]
      split
      · rw [← List.cons_append, ih _ hl]; rfl
      · rw [← List.cons_append, ih _ hl']; rfl

theorem bubbleOuter_succ (key : Nat → Int) (n : Nat) (arr : List Nat) (m : Nat) :
    bubbleOuter key n arr (m + 1) = bubbleInner key (bubbleOuter key n arr m) (n - m - 1) := by
  unfold bubbleOuter
  rw [List.range_succ, List.foldl_append]
  rfl

theorem bubbleOuter_inv (key : Nat → Int) (arr : List Nat) (m : Nat)
    (hm : m ≤ arr.length - 1) :
    ∃ pre suf, bubbleOuter key arr.length arr m = pre ++ suf ∧ suf.length = m ∧
      (pre ++ suf).Perm arr ∧ suf.Pairwise (fun a b => key a ≤ key b) ∧
      ∀ x ∈ pre, ∀ y ∈ suf, key x ≤ key y := by
  induction m with
  | zero =>
    exact ⟨arr, [], by simp [bubbleOuter], rfl, by simp, List.Pairwise.nil, by simp⟩
  | succ m ih =>
    obtain ⟨pre, suf, e, hlen, hperm, hsorted, hle⟩ := ih (by omega)
    have hl := hperm.length_eq
    simp only [List.length_append] at hl
    have hpre : pre.length = (arr.length - m - 1) + 1 := by omega
    rw [bubbleOuter_succ, e, bubbleInner_append _ _ _ _ (by omega)]
    obtain ⟨init, mx, e2, hmax⟩ := bubbleInner_last_max key _ pre hpre
    have hp2 : (init ++ [mx]).Perm pre := by
      rw [← e2]; exact bubbleInner_perm key _ pre (by omega)
    have hmx : mx ∈ pre := hp2.subset (by simp)
    refine ⟨init, mx :: suf, by rw [e2]; simp, by simp [hlen], ?_, ?_, ?_⟩
    · have : (init ++ mx :: suf) = (init ++ [mx]) ++ suf := by simp
      rw [this]
      exact (hp2.append_right suf).trans hperm
    · rw [List.pairwise_cons]
      exact ⟨fun y hy => hle mx hmx y hy, hsorted⟩
    · intro x hx y hy
      have hxp : x ∈ pre := hp2.subset (by simp [hx])
      rcases List.mem_cons.mp hy with rfl | hy
      · exact hmax x hxp
      · exact hle x hxp y hy

theorem bubbleSort_perm (key : Nat → Int) (arr : List Nat) :
    (bubbleSort key arr).Perm arr := by
  obtain ⟨pre, suf, e, _, hperm, _, _⟩ := bubbleOuter_inv key arr (arr.length - 1) (Nat.le_refl _)
  rw [bubbleSort_eq_outer, e]
  exact hperm

theorem bubbleSort_sorted (key : Nat → Int) (arr : List Nat) :
    (bubbleSort key arr).Pairwise (fun a b => key a ≤ key b) := by
  obtain ⟨pre, suf, e, hlen, hperm, hsorted, hle⟩ :=
    bubbleOuter_inv key arr (arr.length - 1) (Nat.le_refl _)
  rw [bubbleSort_eq_outer, e]
  have hl := hperm.length_eq
  simp only [List.length_append] at hl
  rw [List.pairwise_append]
  refine ⟨?_, hsorted, hle⟩
  match pre, hl with
  | [], _ => exact List.Pairwise.nil
  | [x], _ => exact List.pairwise_singleton _ _
  | x :: y :: r, hl => simp at hl; omega

/-! ### The candidates of the shedding -/

theorem collectNonCritical_eq_filter (devices : List Device) :
    collectNonCritical devices =
      (List.range devices.length).filter
        (fun i => (deviceAt devices i).status = Status.ON ∧ ¬ (deviceAt devices i).isCritical) := by
  unfold collectNonCritical
  generalize devices.length = n
  induction n with
  | zero => rfl
  | succ n ih =>
    rw [List.range_succ, List.foldl_append, List.filter_append, ih]
    simp only [List.foldl_cons, List.foldl_nil, List.filter_cons, List.filter_nil]
    split
    · rename_i h
      simp [h]
    · rename_i h
      have h' : (deviceAt devices n).status = Status.ON → (deviceAt devices n).isCritical = true := by
        intro h1
        by_contra h2
        exact h ⟨h1, h2⟩
      simpa using h'

theorem mem_collectNonCritical (devices : List Device) (i : Nat) :
    i ∈ collectNonCritical devices ↔
      i < devices.length ∧ (deviceAt devices i).status = Status.ON ∧
        (deviceAt devices i).isCritical = false := by
  rw [collectNonCritical_eq_filter]
  simp [List.mem_filter]

theorem nodup_collectNonCritical (devices : List Device) :
    (collectNonCritical devices).Nodup := by
  rw [collectNonCritical_eq_filter]
  exact (List.nodup_range _).filter _

theorem sortedNonCritical_perm (devices : List Device) :
    (sortedNonCritical devices).Perm (collectNonCritical devices) :=
  bubbleSort_perm _ _

theorem mem_sortedNonCritical (devices : List Device) (i : Nat) :
    i ∈ sortedNonCritical devices ↔
      i < devices.length ∧ (deviceAt devices i).status = Status.ON ∧
        (deviceAt devices i).isCritical = false := by
  rw [(sortedNonCritical_perm devices).mem_iff, mem_collectNonCritical]

theorem nodup_sortedNonCritical (devices : List Device) :
    (sortedNonCritical devices).Nodup :=
  (sortedNonCritical_perm devices).nodup_iff.mpr (nodup_collectNonCritical devices)

theorem sortedNonCritical_sorted (devices : List Device) :
    (sortedNonCritical devices).Pairwise
      (fun a b => (deviceAt devices a).priority ≤ (deviceAt devices b).priority) :=
  bubbleSort_sorted _ _

/-! ### The shedding loop -/

theorem deviceAt_set (devices : List Device) (p i : Nat) (d : Device) :
    deviceAt (devices.set p d) i =
      if i = p ∧ p < devices.length then d else deviceAt devices i := by
  unfold deviceAt
  simp only [List.getD_eq_getElem?_getD, List.getElem?_set]
  by_cases h : p = i
  · subst h
    by_cases h2 : p < devices.length
    · simp [h2]
    · have h3 : devices.length ≤ p := by omega
      simp [h2, List.getElem?_eq_none h3]
  · have h' : ¬ i = p := fun e => h e.symm
    simp [h, h']

theorem turnOff_turnOff (d : Device) : d.turnOff.turnOff = d.turnOff := rfl

theorem sumRates_nil (devices : List Device) : sumRates devices [] = 0 := rfl

theorem sumRates_cons (devices : List Device) (p : Nat) (ptrs : List Nat) :
    sumRates devices (p :: ptrs) =
      (deviceAt devices p).consumptionRate + sumRates devices ptrs := by
  simp [sumRates]

theorem sumRates_set_turnOff (devices : List Device) (p : Nat) (ptrs : List Nat) :
    sumRates (devices.set p (deviceAt devices p).turnOff) ptrs = sumRates devices ptrs := by
  induction ptrs with
  | nil => rfl
  | cons q ptrs ih =>
    rw [sumRates_cons, sumRates_cons, ih, deviceAt_set]
    split
    · rename_i h
      rw [h.1]; rfl
    · rfl

theorem sumRates_perm (devices : List Device) {l1 l2 : List Nat} (h : l1.Perm l2) :
    sumRates devices l1 = sumRates devices l2 := by
  unfold sumRates
  exact (h.map _).sum_eq

theorem shedLoop_spec (req : ℚ) (ptrs : List Nat) (devices : List Device) (freed : ℚ)
    (cnt : Nat) (hb : ∀ p ∈ ptrs, p < devices.length) :
    ∃ k, k ≤ ptrs.length ∧
      (shedLoop req ptrs devices freed cnt).2.2 = cnt + k ∧
      (shedLoop req ptrs devices freed cnt).2.1 = freed + sumRates devices (ptrs.take k) ∧
      (shedLoop req ptrs devices freed cnt).1.length = devices.length ∧
      (∀ i, deviceAt (shedLoop req ptrs devices freed cnt).1 i =
        if i ∈ ptrs.take k then (deviceAt devices i).turnOff else deviceAt devices i) ∧
      (∀ j, j < k → freed + sumRates devices (ptrs.take j) < req) ∧
      (k = ptrs.length ∨ req ≤ freed + sumRates devices (ptrs.take k)) := by
  induction ptrs generalizing devices freed cnt with
  | nil =>
    refine ⟨0, Nat.le_refl _, rfl, by simp [shedLoop, sumRates], rfl, ?_, ?_, Or.inl rfl⟩
    · intro i; simp [shedLoop]
    · intro j hj; omega
  | cons p rest ih =>
    by_cases hlt : freed < req
    · have hp : p < devices.length := hb p (List.mem_cons_self _ _)
      have hrate : (deviceAt (devices.set p (deviceAt devices p).turnOff) p).consumptionRate =
          (deviceAt devices p).consumptionRate := by
        rw [deviceAt_set, if_pos ⟨rfl, hp⟩]; rfl
      have hstep : shedLoop req (p :: rest) devices freed cnt =
          shedLoop req rest (devices.set p (deviceAt devices p).turnOff)
            (freed + (deviceAt devices p).consumptionRate) (cnt + 1) := by
        rw [shedLoop, if_pos hlt]
        simp only []
        rw [hrate]
      obtain ⟨k, hk, h1, h2, h3, h4, h5, h6⟩ :=
        ih (devices.set p (deviceAt devices p).turnOff)
          (freed + (deviceAt devices p).consumptionRate) (cnt + 1)
          (fun q hq => by simpa using hb q (List.mem_cons_of_mem _ hq))
      rw [hstep]
      refine ⟨k + 1, by simpa using hk, by omega, ?_, by simpa using h3, ?_, ?_, ?_⟩
      · rw [h2, sumRates_set_turnOff, List.take_succ_cons, sumRates_cons, add_assoc]
      · intro i
        rw [h4 i, deviceAt_set, List.take_succ_cons]
        by_cases hip : i = p
        · subst hip
          simp only [List.mem_cons, true_or, if_true, true_and, hp]
          split <;> rfl
        · simp only [List.mem_cons, hip, false_or, false_and, if_false]
      · intro j hj
        cases j with
        | zero => simpa [sumRates] using hlt
        | succ j =>
          have := h5 j (by omega)
          rw [sumRates_set_turnOff] at this
          rw [List.take_succ_cons, sumRates_cons, ← add_assoc]
          exact this
      · rcases h6 with h6 | h6
        · left; simp [h6]
        · right
          rw [sumRates_set_turnOff] at h6
          rw [List.take_succ_cons, sumRates_cons, ← add_assoc]
          exact h6
    · refine ⟨0, Nat.zero_le _, ?_, ?_, ?_, ?_, ?_, Or.inr ?_⟩
      · rw [shedLoop, if_neg hlt]; rfl
      · rw [shedLoop, if_neg hlt]; simp [sumRates]
      · rw [shedLoop, if_neg hlt]
      · intro i; rw [shedLoop, if_neg hlt]; simp
      · intro j hj; omega
      · simpa [sumRates] using not_lt.mp hlt

theorem sheddingRun_spec (s : EnergyOptimizationSystem) (req : ℚ) :
    ∃ k, k ≤ (sortedNonCritical s.deviceRegistry).length ∧
      (sheddingRun s req).2.2 = k ∧
      (sheddingRun s req).2.1 =
        sumRates s.deviceRegistry ((sortedNonCritical s.deviceRegistry).take k) ∧
      (sheddingRun s req).1.length = s.deviceRegistry.length ∧
      (∀ i, deviceAt (sheddingRun s req).1 i =
        if i ∈ (sortedNonCritical s.deviceRegistry).take k then
          (deviceAt s.deviceRegistry i).turnOff
        else deviceAt s.deviceRegistry i) ∧
      (∀ j, j < k →
        sumRates s.deviceRegistry ((sortedNonCritical s.deviceRegistry).take j) < req) ∧
      (k = (sortedNonCritical s.deviceRegistry).length ∨
        req ≤ sumRates s.deviceRegistry ((sortedNonCritical s.deviceRegistry).take k)) := by
  obtain ⟨k, hk, h1, h2, h3, h4, h5, h6⟩ :=
    shedLoop_spec req (sortedNonCritical s.deviceRegistry) s.deviceRegistry 0 0
      (fun p hp => ((mem_sortedNonCritical _ p).mp hp).1)
  refine ⟨k, hk, ?_, ?_, h3, h4, ?_, ?_⟩
  · simpa [sheddingRun] using h1
  · simpa [sheddingRun] using h2
  · intro j hj; simpa using h5 j hj
  · simpa using h6

theorem mem_turnedOff (before after : List Device) (i : Nat) :
    i ∈ turnedOff before after ↔
      i < before.length ∧ (deviceAt before i).status = Status.ON ∧
        (deviceAt after i).status = Status.OFF := by
  simp [turnedOff, List.mem_filter]

theorem nodup_turnedOff (before after : List Device) : (turnedOff before after).Nodup :=
  (List.nodup_range _).filter _

theorem mem_turnedOff_shedding (s : EnergyOptimizationSystem) (req : ℚ) (k : Nat)
    (h4 : ∀ i, deviceAt (sheddingRun s req).1 i =
        if i ∈ (sortedNonCritical s.deviceRegistry).take k then
          (deviceAt s.deviceRegistry i).turnOff
        else deviceAt s.deviceRegistry i) (i : Nat) :
    i ∈ turnedOff s.deviceRegistry (sheddingRun s req).1 ↔
      i ∈ (sortedNonCritical s.deviceRegistry).take k := by
  rw [mem_turnedOff, h4 i]
  constructor
  · rintro ⟨_, hon, hoff⟩
    by_contra hni
    rw [if_neg hni, hon] at hoff
    exact absurd hoff (by decide)
  · intro hi
    have hs := (mem_sortedNonCritical _ i).mp (List.mem_of_mem_take hi)
    rw [if_pos hi]
    exact ⟨hs.1, hs.2.1, rfl⟩

theorem performLoadShedding_registry (s : EnergyOptimizationSystem) (req : ℚ) :
    (performLoadShedding s req).2.deviceRegistry = (sheddingRun s req).1 := rfl

theorem performLoadShedding_flag (s : EnergyOptimizationSystem) (req : ℚ) :
    (performLoadShedding s req).1 = decide ((sheddingRun s req).2.1 ≥ req) := rfl

theorem performLoadShedding_history (s : EnergyOptimizationSystem) (req : ℚ) :
    (performLoadShedding s req).2.historyTracker = s.historyTracker := rfl

theorem run_capacity (q : PriorityQueue) (ops : List QueueOp) :
    (q.run ops).capacity = q.capacity := by
  unfold PriorityQueue.run
  induction ops generalizing q with
  | nil => rfl
  | cons op ops ih =>
    simp only [List.foldl_cons]
    rw [ih]
    cases op with
    | enq task => exact enqueue_capacity q task
    | deq => exact dequeue_capacity q

/-! ### Registry lookups and the total load -/

theorem findIdx?_bound {α : Type} (p : α → Bool) (l : List α) (start i : Nat)
    (h : l.findIdx? p start = some i) : start ≤ i ∧ i < start + l.length := by
  induction l generalizing start with
  | nil => simp at h
  | cons a l ih =>
    rw [List.findIdx?_cons] at h
    split at h
    · simp only [Option.some.injEq] at h
      simp only [List.length_cons]
      omega
    · have := ih _ h
      simp only [List.length_cons]
      omega

theorem registryGet_lt {devices : List Device} {id : String} {i : Nat}
    (h : registryGet devices id = some i) : i < devices.length := by
  have := findIdx?_bound _ _ _ _ h
  omega

theorem deviceAt_mem {devices : List Device} {i : Nat} (h : i < devices.length) :
    deviceAt devices i ∈ devices := by
  unfold deviceAt
  rw [List.getD_eq_getElem _ _ h]
  exact List.getElem_mem _

theorem foldl_load (devices : List Device) (acc : ℚ) :
    devices.foldl
      (fun total d => if d.status = Status.ON then total + d.consumptionRate else total) acc =
      acc + totalLoad devices := by
  induction devices generalizing acc with
  | nil => simp [totalLoad]
  | cons d ds ih =>
    simp only [List.foldl_cons, totalLoad, List.map_cons, List.sum_cons]
    rw [ih]
    unfold totalLoad
    by_cases h : d.status = Status.ON
    · simp only [h, if_true, loadOf]
      ring
    · simp only [h, if_false, loadOf]
      ring

theorem getCurrentTotalLoad_eq (s : EnergyOptimizationSystem) :
    getCurrentTotalLoad s = totalLoad s.deviceRegistry := by
  unfold getCurrentTotalLoad
  rw [foldl_load, zero_add]

theorem totalLoad_set (devices : List Device) (i : Nat) (d : Device)
    (h : i < devices.length) :
    totalLoad (devices.set i d) = totalLoad devices - loadOf (deviceAt devices i) + loadOf d := by
  induction devices generalizing i with
  | nil => simp at h
  | cons x xs ih =>
    cases i with
    | zero =>
      simp only [List.set_cons_zero, totalLoad, List.map_cons, List.sum_cons, deviceAt,
        List.getD_cons_zero]
      ring
    | succ i =>
      have h' : i < xs.length := by simpa using h
      have := ih i h'
      simp only [totalLoad, deviceAt] at this
      simp only [List.set_cons_succ, totalLoad, List.map_cons, List.sum_cons, deviceAt,
        List.getD_cons_succ]
      rw [this]
      ring

theorem shedLoop_load (req : ℚ) (ptrs : List Nat) (devices : List Device) (freed : ℚ)
    (cnt : Nat) (hnd : ptrs.Nodup)
    (hb : ∀ p ∈ ptrs, p < devices.length ∧ (deviceAt devices p).status = Status.ON) :
    totalLoad (shedLoop req ptrs devices freed cnt).1 =
      totalLoad devices - ((shedLoop req ptrs devices freed cnt).2.1 - freed) := by
  induction ptrs generalizing devices freed cnt with
  | nil => simp [shedLoop]
  | cons p rest ih =>
    by_cases hlt : freed < req
    · obtain ⟨hp, hon⟩ := hb p (List.mem_cons_self _ _)
      have hnd' := List.nodup_cons.mp hnd
      have hrate : (deviceAt (devices.set p (deviceAt devices p).turnOff) p).consumptionRate =
          (deviceAt devices p).consumptionRate := by
        rw [deviceAt_set, if_pos ⟨rfl, hp⟩]; rfl
      have hstep : shedLoop req (p :: rest) devices freed cnt =
          shedLoop req rest (devices.set p (deviceAt devices p).turnOff)
            (freed + (deviceAt devices p).consumptionRate) (cnt + 1) := by
        rw [shedLoop, if_pos hlt]
        simp only []
        rw [hrate]
      rw [hstep, ih _ _ _ hnd'.2, totalLoad_set _ _ _ hp]
      · have e1 : loadOf (deviceAt devices p) = (deviceAt devices p).consumptionRate := by
          simp [loadOf, hon]
        have e2 : loadOf (deviceAt devices p).turnOff = 0 := by
          simp [loadOf, Device.turnOff]
        rw [e1, e2]
        ring
      · intro q hq
        have hq' := hb q (List.mem_cons_of_mem _ hq)
        have hne : q ≠ p := fun e => hnd'.1 (e ▸ hq)
        refine ⟨by simpa using hq'.1, ?_⟩
        rw [deviceAt_set, if_neg (fun h => hne h.1)]
        exact hq'.2
    · rw [shedLoop, if_neg hlt]
      simp

theorem sumRates_nonneg (devices : List Device) (ptrs : List Nat)
    (h : ∀ d ∈ devices, 0 ≤ d.consumptionRate) : 0 ≤ sumRates devices ptrs := by
  induction ptrs with
  | nil => simp [sumRates]
  | cons p ptrs ih =>
    rw [sumRates_cons]
    have : 0 ≤ (deviceAt devices p).consumptionRate := by
      by_cases hp : p < devices.length
      · exact h _ (deviceAt_mem hp)
      · unfold deviceAt
        rw [List.getD_eq_default _ _ (by omega)]
        exact le_refl _
    exact add_nonneg this ih

theorem sheddingRun_load (s : EnergyOptimizationSystem) (req : ℚ) :
    totalLoad (sheddingRun s req).1 = totalLoad s.deviceRegistry - (sheddingRun s req).2.1 := by
  have := shedLoop_load req (sortedNonCritical s.deviceRegistry) s.deviceRegistry 0 0
    (nodup_sortedNonCritical _)
    (fun p hp => ⟨((mem_sortedNonCritical _ p).mp hp).1, ((mem_sortedNonCritical _ p).mp hp).2.1⟩)
  simpa [sheddingRun] using this

/-! ### Stability of the bubble sort -/

theorem bubbleInner_length (key : Nat → Int) (b : Nat) (arr : List Nat)
    (h : b + 1 ≤ arr.length) : (bubbleInner key arr b).length = arr.length :=
  (bubbleInner_perm key b arr h).length_eq

theorem bubbleInner_pair (key : Nat → Int) (b : Nat) (arr : List Nat)
    (h : b + 1 ≤ arr.length) (u v : Nat) (huv : key u ≤ key v)
    (hs : [u, v].Sublist arr) : [u, v].Sublist (bubbleInner key arr b) := by
  induction b generalizing arr with
  | zero => exact hs
  | succ b ih =>
    match arr, h with
    | x :: y :: r, h =>
      rw [bubbleInner_cons_cons]
      have hl : b + 1 ≤ (x :: r).length := by simp at h ⊢; omega
      have hl' : b + 1 ≤ (y :: r).length := by simp at h ⊢; omega
      split
      · rename_i hxy
        rcases List.sublist_cons_iff.mp hs with h1 | ⟨t, ht, h1⟩
        · rcases List.sublist_cons_iff.mp h1 with h2 | ⟨t2, ht2, h2⟩
          · exact (ih (x :: r) hl (h2.cons x)).cons y
          · simp only [List.cons.injEq] at ht2
            obtain ⟨rfl, rfl⟩ := ht2
            have hv : v ∈ bubbleInner key (x :: r) b :=
              (bubbleInner_perm key b (x :: r) hl).symm.subset
                (List.mem_cons_of_mem _ (List.singleton_sublist.mp h2))
            exact List.cons_sublist_cons.mpr (List.singleton_sublist.mpr hv)
        · simp only [List.cons.injEq] at ht
          obtain ⟨rfl, rfl⟩ := ht
          rcases List.sublist_cons_iff.mp h1 with h2 | ⟨t2, ht2, _⟩
          · exact (ih (u :: r) hl (List.cons_sublist_cons.mpr h2)).cons y
          · simp only [List.cons.injEq] at ht2
            obtain ⟨rfl, _⟩ := ht2
            omega
      · rcases List.sublist_cons_iff.mp hs with h1 | ⟨t, ht, h1⟩
        · exact (ih (y :: r) hl' h1).cons x
        · simp only [List.cons.injEq] at ht
          obtain ⟨rfl, rfl⟩ := ht
          have hv : v ∈ bubbleInner key (y :: r) b :=
            (bubbleInner_perm key b (y :: r) hl').symm.subset (List.singleton_sublist.mp h1)
          exact List.cons_sublist_cons.mpr (List.singleton_sublist.mpr hv)

theorem bubbleOuter_perm (key : Nat → Int) (arr : List Nat) (m : Nat)
    (hm : m ≤ arr.length - 1) : (bubbleOuter key arr.length arr m).Perm arr := by
  obtain ⟨pre, suf, e, _, hperm, _, _⟩ := bubbleOuter_inv key arr m hm
  rw [e]; exact hperm

theorem bubbleOuter_pair (key : Nat → Int) (arr : List Nat) (m : Nat)
    (hm : m ≤ arr.length - 1) (u v : Nat) (huv : key u ≤ key v)
    (hs : [u, v].Sublist arr) : [u, v].Sublist (bubbleOuter key arr.length arr m) := by
  induction m with
  | zero => exact hs
  | succ m ih =>
    rw [bubbleOuter_succ]
    have hlen := (bubbleOuter_perm key arr m (by omega)).length_eq
    exact bubbleInner_pair key _ _ (by omega) u v huv (ih (by omega))

theorem bubbleSort_pair (key : Nat → Int) (arr : List Nat) (u v : Nat)
    (huv : key u ≤ key v) (hs : [u, v].Sublist arr) :
    [u, v].Sublist (bubbleSort key arr) := by
  rw [bubbleSort_eq_outer]
  exact bubbleOuter_pair key arr _ (Nat.le_refl _) u v huv hs

/-! ### A stable sort of distinct elements is unique -/

theorem pair_sublist_or {l : List Nat} {u v : Nat} (hu : u ∈ l) (hv : v ∈ l) (hne : u ≠ v) :
    [u, v].Sublist l ∨ [v, u].Sublist l := by
  induction l with
  | nil => simp at hu
  | cons x xs ih =>
    rcases List.mem_cons.mp hu with rfl | hu'
    · rcases List.mem_cons.mp hv with e | hv'
      · exact absurd e.symm hne
      · exact Or.inl (List.cons_sublist_cons.mpr (List.singleton_sublist.mpr hv'))
    · rcases List.mem_cons.mp hv with rfl | hv'
      · exact Or.inr (List.cons_sublist_cons.mpr (List.singleton_sublist.mpr hu'))
      · rcases ih hu' hv' with h | h
        · exact Or.inl (h.cons x)
        · exact Or.inr (h.cons x)

theorem pair_sublist_asymm {l : List Nat} {u v : Nat} (hnd : l.Nodup)
    (h1 : [u, v].Sublist l) (h2 : [v, u].Sublist l) : False := by
  have hp : [u, v].Pairwise (fun a b => a ≠ b) := hnd.sublist h1
  have hne : u ≠ v := by
    simpa using hp
  induction l with
  | nil => simp at h1
  | cons x xs ih =>
    have hnd' := List.nodup_cons.mp hnd
    rcases List.sublist_cons_iff.mp h1 with a1 | ⟨t, ht, a1⟩
    · rcases List.sublist_cons_iff.mp h2 with b1 | ⟨t', ht', b1⟩
      · exact ih hnd'.2 a1 b1
      · simp only [List.cons.injEq] at ht'
        obtain ⟨rfl, rfl⟩ := ht'
        exact hnd'.1 (a1.subset (by simp))
    · simp only [List.cons.injEq] at ht
      obtain ⟨rfl, rfl⟩ := ht
      rcases List.sublist_cons_iff.mp h2 with b1 | ⟨t', ht', _⟩
      · exact hnd'.1 (b1.subset (by simp))
      · simp only [List.cons.injEq] at ht'
        exact hne ht'.1.symm

theorem stable_sorted_unique (key : Nat → Int) (l1 l2 : List Nat) (hp : l1.Perm l2)
    (hnd : l1.Nodup) (hs1 : l1.Pairwise (fun a b => key a ≤ key b))
    (hs2 : l2.Pairwise (fun a b => key a ≤ key b))
    (hst : ∀ u v, key u = key v → [u, v].Sublist l1 → [u, v].Sublist l2) : l1 = l2 := by
  induction l1 generalizing l2 with
  | nil => exact (List.nil_perm.mp hp).symm
  | cons x t1 ih =>
    match l2, hp with
    | [], hp => exact absurd hp.length_eq (by simp)
    | y :: t2, hp =>
      have hnd1 := List.nodup_cons.mp hnd
      have hnd2 : (y :: t2).Nodup := hp.nodup_iff.mp hnd
      have hnd2' := List.nodup_cons.mp hnd2
      have hxy : x = y := by
        by_contra hne
        have hy : y ∈ t1 := by
          have : y ∈ x :: t1 := hp.symm.subset (List.mem_cons_self _ _)
          rcases List.mem_cons.mp this with e | h
          · exact absurd e.symm hne
          · exact h
        have hx : x ∈ t2 := by
          have : x ∈ y :: t2 := hp.subset (List.mem_cons_self _ _)
          rcases List.mem_cons.mp this with e | h
          · exact absurd e hne
          · exact h
        have k1 : key x ≤ key y := (List.pairwise_cons.mp hs1).1 y hy
        have k2 : key y ≤ key x := (List.pairwise_cons.mp hs2).1 x hx
        have hsub : [x, y].Sublist (x :: t1) :=
          List.cons_sublist_cons.mpr (List.singleton_sublist.mpr hy)
        have hsub2 := hst x y (le_antisymm k1 k2) hsub
        have hsub3 : [y, x].Sublist (y :: t2) :=
          List.cons_sublist_cons.mpr (List.singleton_sublist.mpr hx)
        exact pair_sublist_asymm hnd2 hsub2 hsub3
      subst hxy
      have hp' : t1.Perm t2 := (List.perm_cons x).mp hp
      have := ih t2 hp' hnd1.2 (List.pairwise_cons.mp hs1).2 (List.pairwise_cons.mp hs2).2
        (by
          intro u v huv hsub
          have h2 := hst u v huv (hsub.cons x)
          rcases List.sublist_cons_iff.mp h2 with h3 | ⟨t, ht, _⟩
          · exact h3
          · simp only [List.cons.injEq] at ht
            obtain ⟨rfl, _⟩ := ht
            exact absurd (hsub.subset (by simp)) hnd1.1)
      rw [this]

theorem bubbleSort_eq_stableSort (key : Nat → Int) (arr : List Nat) (hnd : arr.Nodup) :
    bubbleSort key arr = stableSortByPriority key arr := by
  haveI : IsTotal Nat (fun a b => key a ≤ key b) := ⟨fun a b => le_total (key a) (key b)⟩
  haveI : IsTrans Nat (fun a b => key a ≤ key b) :=
    ⟨fun a b c h1 h2 => le_trans h1 h2⟩
  have p1 := bubbleSort_perm key arr
  have p2 : (stableSortByPriority key arr).Perm arr := List.perm_insertionSort _ arr
  apply stable_sorted_unique key _ _ (p1.trans p2.symm) (p1.nodup_iff.mpr hnd)
    (bubbleSort_sorted key arr) (List.sorted_insertionSort _ arr)
  intro u v huv hsub
  have hu : u ∈ arr := p1.subset (hsub.subset (by simp))
  have hv : v ∈ arr := p1.subset (hsub.subset (by simp))
  have hne : u ≠ v := by
    have hp : [u, v].Pairwise (fun a b => a ≠ b) := (p1.nodup_iff.mpr hnd).sublist hsub
    simpa using hp
  rcases pair_sublist_or hu hv hne with h | h
  · exact List.pair_sublist_insertionSort (le_of_eq huv) h
  · exact absurd hsub (fun hs =>
      pair_sublist_asymm (p1.nodup_iff.mpr hnd) hs (bubbleSort_pair key arr v u (le_of_eq huv.symm) h))

/-! ### The branches of `toggleDevice` -/

theorem toggleDevice_not_found (s : EnergyOptimizationSystem) (id : String) (now stamp : Int)
    (hget : registryGet s.deviceRegistry id = none) : toggleDevice s id now stamp = s := by
  unfold toggleDevice
  rw [hget]

theorem toggleDevice_fits (s : EnergyOptimizationSystem) (id : String) (now stamp : Int)
    (i : Nat) (hget : registryGet s.deviceRegistry id = some i)
    (hoff : (deviceAt s.deviceRegistry i).status = Status.OFF)
    (hfit : getCurrentTotalLoad s + (deviceAt s.deviceRegistry i).consumptionRate ≤
      s.maxLoadCapacity) :
    toggleDevice s id now stamp =
      { s with deviceRegistry :=
          s.deviceRegistry.set i ((deviceAt s.deviceRegistry i).turnOn now) } := by
  unfold toggleDevice
  rw [hget]
  simp only [hoff, if_true, gt_iff_lt, not_lt.mpr hfit, if_false]

theorem toggleDevice_rejected (s : EnergyOptimizationSystem) (id : String) (now stamp : Int)
    (i : Nat) (hget : registryGet s.deviceRegistry id = some i)
    (hoff : (deviceAt s.deviceRegistry i).status = Status.OFF)
    (hnc : (deviceAt s.deviceRegistry i).isCritical = false)
    (hover : getCurrentTotalLoad s + (deviceAt s.deviceRegistry i).consumptionRate >
      s.maxLoadCapacity) :
    toggleDevice s id now stamp = s := by
  unfold toggleDevice
  rw [hget]
  simp only [hoff, if_true, hover, hnc]
  rfl

theorem toggleDevice_critical (s : EnergyOptimizationSystem) (id : String) (now stamp : Int)
    (i : Nat) (hget : registryGet s.deviceRegistry id = some i)
    (hoff : (deviceAt s.deviceRegistry i).status = Status.OFF)
    (hc : (deviceAt s.deviceRegistry i).isCritical = true)
    (hover : getCurrentTotalLoad s + (deviceAt s.deviceRegistry i).consumptionRate >
      s.maxLoadCapacity) :
    toggleDevice s id now stamp =
      if (performLoadShedding s (deviceAt s.deviceRegistry i).consumptionRate).1 = true then
        { (performLoadShedding s (deviceAt s.deviceRegistry i).consumptionRate).2 with
          deviceRegistry :=
            (performLoadShedding s (deviceAt s.deviceRegistry i).consumptionRate).2.deviceRegistry.set i
              ((deviceAt (performLoadShedding s
                (deviceAt s.deviceRegistry i).consumptionRate).2.deviceRegistry i).turnOn now) }
      else (performLoadShedding s (deviceAt s.deviceRegistry i).consumptionRate).2 := by
  unfold toggleDevice
  rw [hget]
  simp only [hoff, if_true, hover, hc]

theorem toggleDevice_on (s : EnergyOptimizationSystem) (id : String) (now stamp : Int)
    (i : Nat) (hget : registryGet s.deviceRegistry id = some i)
    (hon : (deviceAt s.deviceRegistry i).status = Status.ON) :
    toggleDevice s id now stamp =
      { s with
        deviceRegistry := s.deviceRegistry.set i (deviceAt s.deviceRegistry i).turnOff,
        historyTracker := s.historyTracker ++
          [{ deviceID := (deviceAt s.deviceRegistry i).deviceID,
             deviceName := (deviceAt s.deviceRegistry i).deviceName,
             consumptionRate := (deviceAt s.deviceRegistry i).consumptionRate,
             timestamp := stamp,
             duration := now - (deviceAt s.deviceRegistry i).startTime,
             unitsConsumed := ((deviceAt s.deviceRegistry i).consumptionRate *
               (((now - (deviceAt s.deviceRegistry i).startTime : Int) : ℚ) / 3600)) / 1000 }] } := by
  unfold toggleDevice
  rw [hget]
  have : ¬ (deviceAt s.deviceRegistry i).status = Status.OFF := by rw [hon]; decide
  simp only [this, if_false]
  rfl

theorem status_cases (d : Device) : d.status = Status.ON ∨ d.status = Status.OFF := by
  cases h : d.status
  · exact Or.inl rfl
  · exact Or.inr rfl

/-- What a toggle keeps of a device: everything but the status and the start time. -/
theorem toggleDevice_frame (s : EnergyOptimizationSystem) (id : String) (now stamp : Int)
    (j : Nat) :
    (toggleDevice s id now stamp).deviceRegistry.length = s.deviceRegistry.length ∧
    (toggleDevice s id now stamp).maxLoadCapacity = s.maxLoadCapacity ∧
    (toggleDevice s id now stamp).scheduler = s.scheduler ∧
    (deviceAt (toggleDevice s id now stamp).deviceRegistry j).isCritical =
      (deviceAt s.deviceRegistry j).isCritical ∧
    (deviceAt (toggleDevice s id now stamp).deviceRegistry j).priority =
      (deviceAt s.deviceRegistry j).priority ∧
    (deviceAt (toggleDevice s id now stamp).deviceRegistry j).consumptionRate =
      (deviceAt s.deviceRegistry j).consumptionRate := by
  cases hget : registryGet s.deviceRegistry id with
  | none =>
    rw [toggleDevice_not_found s id now stamp hget]
    exact ⟨rfl, rfl, rfl, rfl, rfl, rfl⟩
  | some i =>
    have hi := registryGet_lt hget
    rcases status_cases (deviceAt s.deviceRegistry i) with hon | hoff
    · rw [toggleDevice_on s id now stamp i hget hon]
      refine ⟨by simp, rfl, rfl, ?_⟩
      simp only [deviceAt_set]
      split
      · rename_i h; rw [h.1]; exact ⟨rfl, rfl, rfl⟩
      · exact ⟨rfl, rfl, rfl⟩
    · by_cases hover : getCurrentTotalLoad s + (deviceAt s.deviceRegistry i).consumptionRate >
          s.maxLoadCapacity
      · cases hc : (deviceAt s.deviceRegistry i).isCritical with
        | false =>
          rw [toggleDevice_rejected s id now stamp i hget hoff hc hover]
          exact ⟨rfl, rfl, rfl, rfl, rfl, rfl⟩
        | true =>
          rw [toggleDevice_critical s id now stamp i hget hoff hc hover]
          obtain ⟨k, _, _, _, hlen, h4, _, _⟩ :=
            sheddingRun_spec s (deviceAt s.deviceRegistry i).consumptionRate
          have hframe : ∀ m,
              (deviceAt (performLoadShedding s
                (deviceAt s.deviceRegistry i).consumptionRate).2.deviceRegistry m).isCritical =
                (deviceAt s.deviceRegistry m).isCritical ∧
              (deviceAt (performLoadShedding s
                (deviceAt s.deviceRegistry i).consumptionRate).2.deviceRegistry m).priority =
                (deviceAt s.deviceRegistry m).priority ∧
              (deviceAt (performLoadShedding s
                (deviceAt s.deviceRegistry i).consumptionRate).2.deviceRegistry m).consumptionRate =
                (deviceAt s.deviceRegistry m).consumptionRate := by
            intro m
            rw [performLoadShedding_registry, h4 m]
            split
            · exact ⟨rfl, rfl, rfl⟩
            · exact ⟨rfl, rfl, rfl⟩
          split
          · refine ⟨by simp [performLoadShedding_registry, hlen], rfl, rfl, ?_⟩
            simp only [deviceAt_set]
            split
            · rename_i h
              rw [h.1]
              exact hframe i
            · exact hframe j
          · exact ⟨by simp [performLoadShedding_registry, hlen], rfl, rfl, hframe j⟩
      · rw [toggleDevice_fits s id now stamp i hget hoff (not_lt.mp hover)]
        refine ⟨by simp, rfl, rfl, ?_⟩
        simp only [deviceAt_set]
        split
        · rename_i h; rw [h.1]; exact ⟨rfl, rfl, rfl⟩
        · exact ⟨rfl, rfl, rfl⟩

/-! ### Systems reached from the initial one -/

theorem mem_registryInsert {devices : List Device} {id : String} {device d : Device}
    (h : d ∈ registryInsert devices id device) : d ∈ devices ∨ d = device := by
  unfold registryInsert at h
  split at h
  · exact List.mem_or_eq_of_mem_set h
  · rcases List.mem_append.mp h with h | h
    · exact Or.inl h
    · exact Or.inr (List.mem_singleton.mp h)

theorem registryInsert_mem (devices : List Device) (id : String) (device : Device) :
    device ∈ registryInsert devices id device := by
  unfold registryInsert
  split
  · rename_i i hget
    exact List.mem_set _ _ (registryGet_lt hget) _
  · simp

theorem criticalMax_addDevice (s : EnergyOptimizationSystem) (id name : String) (rate : ℚ)
    (critical priorityInput : Int) (h : CriticalMax s.deviceRegistry) :
    CriticalMax (addDevice s id name rate critical priorityInput).deviceRegistry := by
  intro d hd hc
  rcases mem_registryInsert hd with hd | rfl
  · exact h d hd hc
  · simp only [Device.create, decide_eq_true_eq] at hc
    simp [Device.create, hc]

theorem mem_iff_deviceAt {devices : List Device} {d : Device} :
    d ∈ devices ↔ ∃ i, i < devices.length ∧ deviceAt devices i = d := by
  constructor
  · intro h
    obtain ⟨i, hi, rfl⟩ := List.getElem_of_mem h
    exact ⟨i, hi, by unfold deviceAt; rw [List.getD_eq_getElem _ _ hi]⟩
  · rintro ⟨i, hi, rfl⟩
    exact deviceAt_mem hi

theorem criticalMax_toggleDevice (s : EnergyOptimizationSystem) (id : String)
    (now stamp : Int) (h : CriticalMax s.deviceRegistry) :
    CriticalMax (toggleDevice s id now stamp).deviceRegistry := by
  intro d hd hc
  obtain ⟨j, hj, rfl⟩ := mem_iff_deviceAt.mp hd
  obtain ⟨hlen, _, _, h1, h2, _⟩ := toggleDevice_frame s id now stamp j
  rw [h1] at hc
  rw [h2]
  exact h _ (deviceAt_mem (by omega)) hc

theorem scheduleDevice_registry (s : EnergyOptimizationSystem) (id : String)
    (timeHour duration : Int) :
    (scheduleDevice s id timeHour duration).deviceRegistry = s.deviceRegistry := by
  unfold scheduleDevice
  split <;> rfl

theorem scheduleDevice_found (s : EnergyOptimizationSystem) (id : String)
    (timeHour duration : Int) (i : Nat) (hget : registryGet s.deviceRegistry id = some i) :
    scheduleDevice s id timeHour duration =
      { s with scheduler :=
          s.scheduler.enqueue (scheduledTaskFor (deviceAt s.deviceRegistry i) timeHour duration) } := by
  unfold scheduleDevice
  rw [hget]

theorem run_invariants (maxLoadCapacity : ℚ) (choices : List MenuChoice) :
    CriticalMax ((EnergyOptimizationSystem.init maxLoadCapacity).run choices).deviceRegistry ∧
    ((EnergyOptimizationSystem.init maxLoadCapacity).run choices).scheduler.Valid ∧
    ((EnergyOptimizationSystem.init maxLoadCapacity).run choices).scheduler.capacity =
      defaultCapacity := by
  have gen : ∀ (s : EnergyOptimizationSystem),
      CriticalMax s.deviceRegistry ∧ s.scheduler.Valid ∧ s.scheduler.capacity = defaultCapacity →
      CriticalMax (s.run choices).deviceRegistry ∧ (s.run choices).scheduler.Valid ∧
        (s.run choices).scheduler.capacity = defaultCapacity := by
    unfold EnergyOptimizationSystem.run
    induction choices with
    | nil => intro s h; exact h
    | cons c cs ih =>
      intro s ⟨h1, h2, h3⟩
      simp only [List.foldl_cons]
      apply ih
      cases c with
      | add id name rate critical priorityInput =>
        exact ⟨criticalMax_addDevice s id name rate critical priorityInput h1, h2, h3⟩
      | toggle id now stamp =>
        obtain ⟨_, _, hs, _⟩ := toggleDevice_frame s id now stamp 0
        refine ⟨criticalMax_toggleDevice s id now stamp h1, ?_, ?_⟩
        · show (toggleDevice s id now stamp).scheduler.Valid
          rw [hs]; exact h2
        · show (toggleDevice s id now stamp).scheduler.capacity = defaultCapacity
          rw [hs]; exact h3
      | schedule id timeHour duration =>
        refine ⟨?_, ?_, ?_⟩
        · show CriticalMax (scheduleDevice s id timeHour duration).deviceRegistry
          rw [scheduleDevice_registry]; exact h1
        · show (scheduleDevice s id timeHour duration).scheduler.Valid
          unfold scheduleDevice
          split
          · exact h2
          · exact valid_enqueue _ _ h2
        · show (scheduleDevice s id timeHour duration).scheduler.capacity = defaultCapacity
          unfold scheduleDevice
          split
          · exact h3
          · simp only []
            rw [enqueue_capacity]; exact h3
  apply gen
  refine ⟨?_, valid_new _, rfl⟩
  intro d hd
  simp [EnergyOptimizationSystem.init] at hd

theorem scheduleDevice_stores (maxLoadCapacity : ℚ) (choices : List MenuChoice) (id : String)
    (timeHour duration : Int) (i : Nat)
    (hget : registryGet ((EnergyOptimizationSystem.init maxLoadCapacity).run
      choices).deviceRegistry id = some i)
    (hsize : ((EnergyOptimizationSystem.init maxLoadCapacity).run choices).scheduler.getSize <
      defaultCapacity) :
    scheduledTaskFor (deviceAt ((EnergyOptimizationSystem.init maxLoadCapacity).run
        choices).deviceRegistry i) timeHour duration ∈
      (scheduleDevice ((EnergyOptimizationSystem.init maxLoadCapacity).run choices) id
        timeHour duration).scheduler.tasks := by
  obtain ⟨_, hv, hc⟩ := run_invariants maxLoadCapacity choices
  rw [scheduleDevice_found _ id timeHour duration i hget]
  have hlt : ((EnergyOptimizationSystem.init maxLoadCapacity).run choices).scheduler.size <
      ((EnergyOptimizationSystem.init maxLoadCapacity).run choices).scheduler.capacity := by
    rw [hc]; exact hsize
  exact (enqueue_tasks_perm _ _ hv hlt).symm.subset (by simp)

/-! ### The rounded methods -/

theorem getCurrentTotalLoadWith_id (s : EnergyOptimizationSystem) :
    getCurrentTotalLoadWith id s = getCurrentTotalLoad s := rfl

theorem shedLoopWith_id (req : ℚ) (ptrs : List Nat) (devices : List Device) (freed : ℚ)
    (cnt : Nat) : shedLoopWith id req ptrs devices freed cnt = shedLoop req ptrs devices freed cnt := by
  induction ptrs generalizing devices freed cnt with
  | nil => rfl
  | cons p rest ih =>
    rw [shedLoopWith, shedLoop]
    split
    · simp only [id]
      rw [ih]
    · rfl

theorem performLoadSheddingWith_id (s : EnergyOptimizationSystem) (req : ℚ) :
    performLoadSheddingWith id s req = performLoadShedding s req := by
  unfold performLoadSheddingWith performLoadShedding sheddingRunWith sheddingRun
  simp only [shedLoopWith_id]

theorem toggleDeviceWith_id (s : EnergyOptimizationSystem) (id' : String) (now stamp : Int) :
    toggleDeviceWith id s id' now stamp = toggleDevice s id' now stamp := by
  unfold toggleDeviceWith toggleDevice
  cases registryGet s.deviceRegistry id' with
  | none => rfl
  | some i => simp only [getCurrentTotalLoadWith_id, performLoadSheddingWith_id, id]

theorem accRates_nil (rnd : ℚ → ℚ) (devices : List Device) (freed : ℚ) :
    accRates rnd devices freed [] = freed := rfl

theorem accRates_cons (rnd : ℚ → ℚ) (devices : List Device) (freed : ℚ) (p : Nat)
    (ptrs : List Nat) :
    accRates rnd devices freed (p :: ptrs) =
      accRates rnd devices (rnd (freed + (deviceAt devices p).consumptionRate)) ptrs := rfl

theorem accRates_set_turnOff (rnd : ℚ → ℚ) (devices : List Device) (q : Nat) (freed : ℚ)
    (ptrs : List Nat) :
    accRates rnd (devices.set q (deviceAt devices q).turnOff) freed ptrs =
      accRates rnd devices freed ptrs := by
  induction ptrs generalizing freed with
  | nil => rfl
  | cons p ptrs ih =>
    rw [accRates_cons, accRates_cons, ih]
    have : (deviceAt (devices.set q (deviceAt devices q).turnOff) p).consumptionRate =
        (deviceAt devices p).consumptionRate := by
      rw [deviceAt_set]
      split
      · rename_i h
        rw [h.1]; rfl
      · rfl
    rw [this]

theorem accRates_id (devices : List Device) (freed : ℚ) (ptrs : List Nat) :
    accRates id devices freed ptrs = freed + sumRates devices ptrs := by
  induction ptrs generalizing freed with
  | nil => simp [accRates, sumRates]
  | cons p ptrs ih =>
    rw [accRates_cons, ih, sumRates_cons]
    simp only [id]
    ring

theorem shedLoopWith_spec (rnd : ℚ → ℚ) (req : ℚ) (ptrs : List Nat) (devices : List Device)
    (freed : ℚ) (cnt : Nat) (hb : ∀ p ∈ ptrs, p < devices.length) :
    ∃ k, k ≤ ptrs.length ∧
      (shedLoopWith rnd req ptrs devices freed cnt).2.2 = cnt + k ∧
      (shedLoopWith rnd req ptrs devices freed cnt).2.1 =
        accRates rnd devices freed (ptrs.take k) ∧
      (shedLoopWith rnd req ptrs devices freed cnt).1.length = devices.length ∧
      (∀ i, deviceAt (shedLoopWith rnd req ptrs devices freed cnt).1 i =
        if i ∈ ptrs.take k then (deviceAt devices i).turnOff else deviceAt devices i) ∧
      (∀ j, j < k → accRates rnd devices freed (ptrs.take j) < req) ∧
      (k = ptrs.length ∨ req ≤ accRates rnd devices freed (ptrs.take k)) := by
  induction ptrs generalizing devices freed cnt with
  | nil =>
    refine ⟨0, Nat.le_refl _, rfl, by simp [shedLoopWith, accRates], rfl, ?_, ?_, Or.inl rfl⟩
    · intro i; simp [shedLoopWith]
    · intro j hj; omega
  | cons p rest ih =>
    by_cases hlt : freed < req
    · have hp : p < devices.length := hb p (List.mem_cons_self _ _)
      have hrate : (deviceAt (devices.set p (deviceAt devices p).turnOff) p).consumptionRate =
          (deviceAt devices p).consumptionRate := by
        rw [deviceAt_set, if_pos ⟨rfl, hp⟩]; rfl
      have hstep : shedLoopWith rnd req (p :: rest) devices freed cnt =
          shedLoopWith rnd req rest (devices.set p (deviceAt devices p).turnOff)
            (rnd (freed + (deviceAt devices p).consumptionRate)) (cnt + 1) := by
        rw [shedLoopWith, if_pos hlt]
        simp only []
        rw [hrate]
      obtain ⟨k, hk, h1, h2, h3, h4, h5, h6⟩ :=
        ih (devices.set p (deviceAt devices p).turnOff)
          (rnd (freed + (deviceAt devices p).consumptionRate)) (cnt + 1)
          (fun q hq => by simpa using hb q (List.mem_cons_of_mem _ hq))
      rw [hstep]
      refine ⟨k + 1, by simpa using hk, by omega, ?_, by simpa using h3, ?_, ?_, ?_⟩
      · rw [h2, accRates_set_turnOff, List.take_succ_cons, accRates_cons]
      · intro i
        rw [h4 i, deviceAt_set, List.take_succ_cons]
        by_cases hip : i = p
        · subst hip
          simp only [List.mem_cons, true_or, if_true, true_and, hp]
          split <;> rfl
        · simp only [List.mem_cons, hip, false_or, false_and, if_false]
      · intro j hj
        cases j with
        | zero => simpa [accRates] using hlt
        | succ j =>
          have := h5 j (by omega)
          rw [accRates_set_turnOff] at this
          rw [List.take_succ_cons, accRates_cons]
          exact this
      · rcases h6 with h6 | h6
        · left; simp [h6]
        · right
          rw [accRates_set_turnOff] at h6
          rw [List.take_succ_cons, accRates_cons]
          exact h6
    · refine ⟨0, Nat.zero_le _, ?_, ?_, ?_, ?_, ?_, Or.inr ?_⟩
      · rw [shedLoopWith, if_neg hlt]; rfl
      · rw [shedLoopWith, if_neg hlt]; simp [accRates]
      · rw [shedLoopWith, if_neg hlt]
      · intro i; rw [shedLoopWith, if_neg hlt]; simp
      · intro j hj; omega
      · simpa [accRates] using not_lt.mp hlt

theorem sheddingRunWith_spec (rnd : ℚ → ℚ) (s : EnergyOptimizationSystem) (req : ℚ) :
    ∃ k, k ≤ (sortedNonCritical s.deviceRegistry).length ∧
      (sheddingRunWith rnd s req).2.2 = k ∧
      (sheddingRunWith rnd s req).2.1 =
        accRates rnd s.deviceRegistry 0 ((sortedNonCritical s.deviceRegistry).take k) ∧
      (sheddingRunWith rnd s req).1.length = s.deviceRegistry.length ∧
      (∀ i, deviceAt (sheddingRunWith rnd s req).1 i =
        if i ∈ (sortedNonCritical s.deviceRegistry).take k then
          (deviceAt s.deviceRegistry i).turnOff
        else deviceAt s.deviceRegistry i) ∧
      (∀ j, j < k →
        accRates rnd s.deviceRegistry 0 ((sortedNonCritical s.deviceRegistry).take j) < req) ∧
      (k = (sortedNonCritical s.deviceRegistry).length ∨
        req ≤ accRates rnd s.deviceRegistry 0 ((sortedNonCritical s.deviceRegistry).take k)) := by
  obtain ⟨k, hk, h1, h2, h3, h4, h5, h6⟩ :=
    shedLoopWith_spec rnd req (sortedNonCritical s.deviceRegistry) s.deviceRegistry 0 0
      (fun p hp => ((mem_sortedNonCritical _ p).mp hp).1)
  refine ⟨k, hk, ?_, h2, h3, h4, h5, h6⟩
  simpa [sheddingRunWith] using h1

theorem mem_turnedOff_sheddingWith (rnd : ℚ → ℚ) (s : EnergyOptimizationSystem) (req : ℚ)
    (k : Nat)
    (h4 : ∀ i, deviceAt (sheddingRunWith rnd s req).1 i =
        if i ∈ (sortedNonCritical s.deviceRegistry).take k then
          (deviceAt s.deviceRegistry i).turnOff
        else deviceAt s.deviceRegistry i) (i : Nat) :
    i ∈ turnedOff s.deviceRegistry (sheddingRunWith rnd s req).1 ↔
      i ∈ (sortedNonCritical s.deviceRegistry).take k := by
  rw [mem_turnedOff, h4 i]
  constructor
  · rintro ⟨_, hon, hoff⟩
    by_contra hni
    rw [if_neg hni, hon] at hoff
    exact absurd hoff (by decide)
  · intro hi
    have hs := (mem_sortedNonCritical _ i).mp (List.mem_of_mem_take hi)
    rw [if_pos hi]
    exact ⟨hs.1, hs.2.1, rfl⟩

theorem toggleDeviceWith_rejected (rnd : ℚ → ℚ) (s : EnergyOptimizationSystem) (id : String)
    (now stamp : Int) (i : Nat) (hget : registryGet s.deviceRegistry id = some i)
    (hoff : (deviceAt s.deviceRegistry i).status = Status.OFF)
    (hnc : (deviceAt s.deviceRegistry i).isCritical = false)
    (hover : rnd (getCurrentTotalLoadWith rnd s + (deviceAt s.deviceRegistry i).consumptionRate) >
      s.maxLoadCapacity) :
    toggleDeviceWith rnd s id now stamp = s := by
  unfold toggleDeviceWith
  rw [hget]
  simp only [hoff, if_true, hover, hnc]
  rfl

theorem toggleDeviceWith_fits (rnd : ℚ → ℚ) (s : EnergyOptimizationSystem) (id : String)
    (now stamp : Int) (i : Nat) (hget : registryGet s.deviceRegistry id = some i)
    (hoff : (deviceAt s.deviceRegistry i).status = Status.OFF)
    (hfit : rnd (getCurrentTotalLoadWith rnd s + (deviceAt s.deviceRegistry i).consumptionRate) ≤
      s.maxLoadCapacity) :
    toggleDeviceWith rnd s id now stamp =
      { s with deviceRegistry :=
          s.deviceRegistry.set i ((deviceAt s.deviceRegistry i).turnOn now) } := by
  unfold toggleDeviceWith
  rw [hget]
  simp only [hoff, if_true, gt_iff_lt, not_lt.mpr hfit, if_false]

/-! ## The claims -/

/-- C1: for every queue obtained from the empty `PriorityQueue` (of any capacity) by a
finite sequence of enqueue and dequeue operations, if the queue is non-empty then
`peek` returns a stored task that no stored task outranks. -/
theorem peek_not_outranked (cap : Nat) (ops : List QueueOp)
    (hne : ((PriorityQueue.new cap).run ops).isEmpty = false) :
    ((PriorityQueue.new cap).run ops).peek ∈ ((PriorityQueue.new cap).run ops).tasks ∧
      ∀ t ∈ ((PriorityQueue.new cap).run ops).tasks,
        ¬ outranks t ((PriorityQueue.new cap).run ops).peek := by
  have hv := valid_run _ ops (valid_new cap)
  generalize (PriorityQueue.new cap).run ops = q at *
  have hs : q.size ≠ 0 := by
    simpa [PriorityQueue.isEmpty] using hne
  refine ⟨peek_mem_tasks q hv hs, ?_⟩
  intro t ht
  have := root_not_outranked q hv t ht
  simpa [PriorityQueue.peek, hs] using this

/-- Witness for C1: three enqueues and a dequeue on the default queue. -/
theorem peek_not_outranked_witness :
    ((PriorityQueue.new 100).run
        [QueueOp.enq (sampleTask "a" 5 10), QueueOp.enq (sampleTask "b" 8 3),
          QueueOp.deq, QueueOp.enq (sampleTask "c" 8 1)]).isEmpty = false ∧
      ((PriorityQueue.new 100).run
        [QueueOp.enq (sampleTask "a" 5 10), QueueOp.enq (sampleTask "b" 8 3),
          QueueOp.deq, QueueOp.enq (sampleTask "c" 8 1)]).peek = sampleTask "c" 8 1 ∧
      ∀ t ∈ ((PriorityQueue.new 100).run
        [QueueOp.enq (sampleTask "a" 5 10), QueueOp.enq (sampleTask "b" 8 3),
          QueueOp.deq, QueueOp.enq (sampleTask "c" 8 1)]).tasks,
        ¬ outranks t ((PriorityQueue.new 100).run
          [QueueOp.enq (sampleTask "a" 5 10), QueueOp.enq (sampleTask "b" 8 3),
            QueueOp.deq, QueueOp.enq (sampleTask "c" 8 1)]).peek :=
  ⟨by decide, by decide, (peek_not_outranked 100 _ (by decide)).2⟩

/-- C2: for every list of at most 100 tasks enqueued into the empty default queue,
dequeuing until the queue is empty returns a permutation of the enqueued tasks in
which no later task outranks an earlier one; and tasks with (priority, hour)
`(5,10)`, `(8,3)`, `(8,1)`, enqueued in any order, come out as `(8,1)`, `(8,3)`,
`(5,10)`. -/
theorem drain_sorted_perm :
    (∀ ts : List ScheduledTask, ts.length ≤ 100 →
      (((PriorityQueue.new defaultCapacity).enqueueAll ts).drain).Perm ts ∧
      (((PriorityQueue.new defaultCapacity).enqueueAll ts).drain).Pairwise
        (fun earlier later => ¬ outranks later earlier)) ∧
    (∀ a b c : ScheduledTask, a.priority = 5 → a.scheduledTime = 10 →
      b.priority = 8 → b.scheduledTime = 3 → c.priority = 8 → c.scheduledTime = 1 →
      ∀ ts : List ScheduledTask, ts.Perm [a, b, c] →
        ((PriorityQueue.new defaultCapacity).enqueueAll ts).drain = [c, b, a]) := by
  have main : ∀ ts : List ScheduledTask, ts.length ≤ 100 →
      (((PriorityQueue.new defaultCapacity).enqueueAll ts).drain).Perm ts ∧
      (((PriorityQueue.new defaultCapacity).enqueueAll ts).drain).Pairwise
        (fun earlier later => ¬ outranks later earlier) := by
    intro ts hlen
    obtain ⟨v, p, _⟩ := enqueueAll_spec (PriorityQueue.new defaultCapacity) ts
      (valid_new _) (by simpa [PriorityQueue.new, defaultCapacity] using hlen)
    obtain ⟨p', s⟩ := dequeueN_spec _ _ v rfl
    refine ⟨?_, s⟩
    have e : (PriorityQueue.new defaultCapacity).tasks ++ ts = ts := by
      simp [PriorityQueue.tasks, PriorityQueue.new]
    rw [e] at p
    exact p'.trans p
  refine ⟨main, ?_⟩
  intro a b c ha ha' hb hb' hc hc' ts hp
  have hlen : ts.length ≤ 100 := by
    have := hp.length_eq
    simp at this
    omega
  obtain ⟨p, s⟩ := main ts hlen
  exact sorted_of_perm_three ha ha' hb hb' hc hc' _ (p.trans hp) s

/-- Witness for C2: the three tasks of the example, enqueued in the order given. -/
theorem drain_sorted_perm_witness :
    [sampleTask "a" 5 10, sampleTask "b" 8 3, sampleTask "c" 8 1].length ≤ 100 ∧
      (((PriorityQueue.new defaultCapacity).enqueueAll
        [sampleTask "a" 5 10, sampleTask "b" 8 3, sampleTask "c" 8 1]).drain).Perm
        [sampleTask "a" 5 10, sampleTask "b" 8 3, sampleTask "c" 8 1] ∧
      ((PriorityQueue.new defaultCapacity).enqueueAll
        [sampleTask "a" 5 10, sampleTask "b" 8 3, sampleTask "c" 8 1]).drain =
        [sampleTask "c" 8 1, sampleTask "b" 8 3, sampleTask "a" 5 10] :=
  ⟨by decide, (drain_sorted_perm.1 _ (by decide)).1,
    drain_sorted_perm.2 (sampleTask "a" 5 10) (sampleTask "b" 8 3)
      (sampleTask "c" 8 1) rfl rfl rfl rfl rfl rfl _ (List.Perm.refl _)⟩

/-- C3 (evaluation of the code at the failing inputs): `toggleDevice` passes the
device's whole `consumptionRate` to `performLoadShedding`, not `newLoad - capacity`.
First input: capacity 1000, critical K (800 W, ON), non-critical A (150 W, ON),
critical C (200 W, OFF); `newLoad - capacity` is 150 and the `ON` non-critical
devices sum to 150, yet after toggling C the device A is `OFF` and C is still `OFF`.
Second input: non-critical A (100 W, priority 1, ON) and B (800 W, priority 2, ON),
critical C (200 W, OFF); `newLoad - capacity` is 100, which A alone frees, yet B is
turned off as well. -/
theorem toggle_critical_sheds_consumptionRate :
    (getCurrentTotalLoad (sampleSystem
        [sampleDevice "K" 800 true 10 Status.ON, sampleDevice "A" 150 false 3 Status.ON,
          sampleDevice "C" 200 true 10 Status.OFF] 1000) + 200 - 1000 = 150 ∧
      sumRates (sampleSystem
        [sampleDevice "K" 800 true 10 Status.ON, sampleDevice "A" 150 false 3 Status.ON,
          sampleDevice "C" 200 true 10 Status.OFF] 1000).deviceRegistry
        (collectNonCritical (sampleSystem
          [sampleDevice "K" 800 true 10 Status.ON, sampleDevice "A" 150 false 3 Status.ON,
            sampleDevice "C" 200 true 10 Status.OFF] 1000).deviceRegistry) = 150 ∧
      statuses (toggleDevice (sampleSystem
        [sampleDevice "K" 800 true 10 Status.ON, sampleDevice "A" 150 false 3 Status.ON,
          sampleDevice "C" 200 true 10 Status.OFF] 1000) "C" 0 0) =
        [Status.ON, Status.OFF, Status.OFF]) ∧
    (getCurrentTotalLoad (sampleSystem
        [sampleDevice "A" 100 false 1 Status.ON, sampleDevice "B" 800 false 2 Status.ON,
          sampleDevice "C" 200 true 10 Status.OFF] 1000) + 200 - 1000 = 100 ∧
      statuses (toggleDevice (sampleSystem
        [sampleDevice "A" 100 false 1 Status.ON, sampleDevice "B" 800 false 2 Status.ON,
          sampleDevice "C" 200 true 10 Status.OFF] 1000) "C" 0 0) =
        [Status.OFF, Status.OFF, Status.ON]) := by
  refine ⟨⟨by decide!, by decide!, by decide!⟩, ⟨by decide!, by decide!⟩⟩

/-- C4 (counterexample): with `float` rounding a non-critical device is admitted
although its rate plus the current total load exceeds the capacity. Capacity
`2 ^ 24`, one device `ON` at `2 ^ 24` W, a non-critical 1 W device toggled: the exact
sum `2 ^ 24 + 1` exceeds the capacity, the binary32 sum is `2 ^ 24`, and the device
ends `ON`. The same at capacity 5000 with 5000 W `ON` and a device of the `float`
nearest to 0.0001 W. -/
theorem toggle_noncritical_overload_admitted_by_rounding :
    ((deviceAt (sampleSystem
        [sampleDevice "H" 16777216 false 4 Status.ON, sampleDevice "N" 1 false 6 Status.OFF]
        16777216).deviceRegistry 1).isCritical = false ∧
      getCurrentTotalLoad (sampleSystem
        [sampleDevice "H" 16777216 false 4 Status.ON, sampleDevice "N" 1 false 6 Status.OFF]
        16777216) + 1 > 16777216 ∧
      float32Round (getCurrentTotalLoadWith float32Round (sampleSystem
        [sampleDevice "H" 16777216 false 4 Status.ON, sampleDevice "N" 1 false 6 Status.OFF]
        16777216) + 1) = 16777216 ∧
      statuses (toggleDeviceWith float32Round (sampleSystem
        [sampleDevice "H" 16777216 false 4 Status.ON, sampleDevice "N" 1 false 6 Status.OFF]
        16777216) "N" 0 0) = [Status.ON, Status.ON]) ∧
    (getCurrentTotalLoad (sampleSystem
        [sampleDevice "H" 5000 false 4 Status.ON,
          sampleDevice "N" (float32Round (1 / 10000)) false 6 Status.OFF] 5000) +
        float32Round (1 / 10000) > 5000 ∧
      statuses (toggleDeviceWith float32Round (sampleSystem
        [sampleDevice "H" 5000 false 4 Status.ON,
          sampleDevice "N" (float32Round (1 / 10000)) false 6 Status.OFF] 5000) "N" 0 0) =
        [Status.ON, Status.ON]) := by
  refine ⟨⟨by decide, by decide!, by decide!, by decide!⟩, ⟨by decide!, by decide!⟩⟩

/-- C4 (amended): in exact arithmetic, toggling an `OFF` non-critical device whose rate
added to the current total load exceeds the capacity leaves the whole system state
unchanged: no device changes, the registry and the history are the same. With the
`float` results rounded by any `rnd`, the same holds whenever `newLoad` as the code
computes it, the rounded sum of the rounded running total and the rate, exceeds the
capacity. -/
theorem toggle_noncritical_overload_rejected (s : EnergyOptimizationSystem) (id : String)
    (now stamp : Int) (i : Nat) (hget : registryGet s.deviceRegistry id = some i)
    (hoff : (deviceAt s.deviceRegistry i).status = Status.OFF)
    (hnc : (deviceAt s.deviceRegistry i).isCritical = false) :
    (getCurrentTotalLoad s + (deviceAt s.deviceRegistry i).consumptionRate >
        s.maxLoadCapacity →
      toggleDevice s id now stamp = s) ∧
    (∀ rnd : ℚ → ℚ,
      rnd (getCurrentTotalLoadWith rnd s + (deviceAt s.deviceRegistry i).consumptionRate) >
        s.maxLoadCapacity →
      toggleDeviceWith rnd s id now stamp = s) := by
  constructor
  · intro hover
    unfold toggleDevice
    rw [hget]
    simp only [hoff, if_true, hover, hnc]
    rfl
  · intro rnd hover
    exact toggleDeviceWith_rejected rnd s id now stamp i hget hoff hnc hover

/-- Witness for C4: capacity 1000, one device `ON` at 900 W, a non-critical 200 W
device toggled, in exact arithmetic and in binary32. -/
theorem toggle_noncritical_overload_rejected_witness :
    toggleDevice (sampleSystem
        [sampleDevice "H" 900 false 4 Status.ON, sampleDevice "N" 200 false 6 Status.OFF]
        1000) "N" 7 7 =
      sampleSystem
        [sampleDevice "H" 900 false 4 Status.ON, sampleDevice "N" 200 false 6 Status.OFF]
        1000 ∧
    toggleDeviceWith float32Round (sampleSystem
        [sampleDevice "H" 900 false 4 Status.ON, sampleDevice "N" 200 false 6 Status.OFF]
        1000) "N" 7 7 =
      sampleSystem
        [sampleDevice "H" 900 false 4 Status.ON, sampleDevice "N" 200 false 6 Status.OFF]
        1000 :=
  ⟨(toggle_noncritical_overload_rejected _ "N" 7 7 1 (by decide) (by decide) (by decide)).1
      (by decide!),
    (toggle_noncritical_overload_rejected _ "N" 7 7 1 (by decide) (by decide) (by decide)).2
      float32Round (by decide!)⟩

/-- C5: `performLoadShedding` keeps the number of devices and every device's id,
name, consumption rate, critical flag, priority and start time; a device that was
critical or `OFF` keeps its status, and a device whose status differs afterwards
was `ON` and non-critical and is now `OFF`. -/
theorem shedding_frame (s : EnergyOptimizationSystem) (requiredCapacity : ℚ) (i : Nat) :
    (performLoadShedding s requiredCapacity).2.deviceRegistry.length =
        s.deviceRegistry.length ∧
      (deviceAt (performLoadShedding s requiredCapacity).2.deviceRegistry i).consumptionRate =
        (deviceAt s.deviceRegistry i).consumptionRate ∧
      (deviceAt (performLoadShedding s requiredCapacity).2.deviceRegistry i).priority =
        (deviceAt s.deviceRegistry i).priority ∧
      (deviceAt (performLoadShedding s requiredCapacity).2.deviceRegistry i).isCritical =
        (deviceAt s.deviceRegistry i).isCritical ∧
      (deviceAt (performLoadShedding s requiredCapacity).2.deviceRegistry i).deviceID =
        (deviceAt s.deviceRegistry i).deviceID ∧
      (deviceAt (performLoadShedding s requiredCapacity).2.deviceRegistry i).deviceName =
        (deviceAt s.deviceRegistry i).deviceName ∧
      (deviceAt (performLoadShedding s requiredCapacity).2.deviceRegistry i).startTime =
        (deviceAt s.deviceRegistry i).startTime ∧
      (((deviceAt s.deviceRegistry i).isCritical = true ∨
          (deviceAt s.deviceRegistry i).status = Status.OFF) →
        (deviceAt (performLoadShedding s requiredCapacity).2.deviceRegistry i).status =
          (deviceAt s.deviceRegistry i).status) ∧
      ((deviceAt (performLoadShedding s requiredCapacity).2.deviceRegistry i).status ≠
          (deviceAt s.deviceRegistry i).status →
        (deviceAt s.deviceRegistry i).status = Status.ON ∧
        (deviceAt s.deviceRegistry i).isCritical = false ∧
        (deviceAt (performLoadShedding s requiredCapacity).2.deviceRegistry i).status =
          Status.OFF) := by
  obtain ⟨k, _, _, _, hlen, h4, _, _⟩ := sheddingRun_spec s requiredCapacity
  rw [performLoadShedding_registry, h4 i]
  refine ⟨hlen, ?_⟩
  by_cases hi : i ∈ (sortedNonCritical s.deviceRegistry).take k
  · have hs := (mem_sortedNonCritical _ i).mp (List.mem_of_mem_take hi)
    rw [if_pos hi]
    refine ⟨rfl, rfl, rfl, rfl, rfl, rfl, ?_, ?_⟩
    · rintro (hc | ho)
      · rw [hs.2.2] at hc; exact absurd hc (by decide)
      · rw [hs.2.1] at ho; exact absurd ho (by decide)
    · intro _
      exact ⟨hs.2.1, hs.2.2, rfl⟩
  · rw [if_neg hi]
    exact ⟨rfl, rfl, rfl, rfl, rfl, rfl, fun _ => rfl, fun h => absurd rfl h⟩

/-- Witness for C5: a critical device that is `ON` and a non-critical device that is
`OFF` keep their status when the shedding turns the third device off. -/
theorem shedding_frame_witness :
    (statuses (performLoadShedding (sampleSystem
        [sampleDevice "K" 800 true 10 Status.ON, sampleDevice "A" 150 false 3 Status.ON,
          sampleDevice "B" 60 false 1 Status.OFF] 1000) 100).2 =
        [Status.ON, Status.OFF, Status.OFF]) ∧
      (deviceAt (performLoadShedding (sampleSystem
        [sampleDevice "K" 800 true 10 Status.ON, sampleDevice "A" 150 false 3 Status.ON,
          sampleDevice "B" 60 false 1 Status.OFF] 1000) 100).2.deviceRegistry 0).status =
        Status.ON :=
  ⟨by decide!, (shedding_frame (sampleSystem
        [sampleDevice "K" 800 true 10 Status.ON, sampleDevice "A" 150 false 3 Status.ON,
          sampleDevice "B" 60 false 1 Status.OFF] 1000) 100 0).2.2.2.2.2.2.2.1
      (Or.inl rfl)⟩

/-- C6: `performLoadShedding` sheds lowest priority first: every device it turns off
has priority at most that of every `ON` non-critical device it leaves `ON`; with
`ON` non-critical devices A (priority 1, 50 W) and B (priority 5, 50 W), in either
enumeration order, and `requiredCapacity = 50`, only A is turned off,
`freedCapacity` is 50 and the result is `true`. -/
theorem shedding_lowest_priority_first :
    (∀ (s : EnergyOptimizationSystem) (requiredCapacity : ℚ) (i j : Nat),
      i ∈ turnedOff s.deviceRegistry
        (performLoadShedding s requiredCapacity).2.deviceRegistry →
      j < s.deviceRegistry.length →
      (deviceAt s.deviceRegistry j).status = Status.ON →
      (deviceAt s.deviceRegistry j).isCritical = false →
      (deviceAt (performLoadShedding s requiredCapacity).2.deviceRegistry j).status =
        Status.ON →
      (deviceAt s.deviceRegistry i).priority ≤ (deviceAt s.deviceRegistry j).priority) ∧
    (statuses (performLoadShedding (sampleSystem
        [sampleDevice "A" 50 false 1 Status.ON, sampleDevice "B" 50 false 5 Status.ON]
        1000) 50).2 = [Status.OFF, Status.ON] ∧
      (sheddingRun (sampleSystem
        [sampleDevice "A" 50 false 1 Status.ON, sampleDevice "B" 50 false 5 Status.ON]
        1000) 50).2.1 = 50 ∧
      (performLoadShedding (sampleSystem
        [sampleDevice "A" 50 false 1 Status.ON, sampleDevice "B" 50 false 5 Status.ON]
        1000) 50).1 = true) ∧
    (statuses (performLoadShedding (sampleSystem
        [sampleDevice "B" 50 false 5 Status.ON, sampleDevice "A" 50 false 1 Status.ON]
        1000) 50).2 = [Status.ON, Status.OFF] ∧
      (sheddingRun (sampleSystem
        [sampleDevice "B" 50 false 5 Status.ON, sampleDevice "A" 50 false 1 Status.ON]
        1000) 50).2.1 = 50 ∧
      (performLoadShedding (sampleSystem
        [sampleDevice "B" 50 false 5 Status.ON, sampleDevice "A" 50 false 1 Status.ON]
        1000) 50).1 = true) := by
  refine ⟨?_, ⟨by decide!, by decide!, by decide!⟩, ⟨by decide!, by decide!, by decide!⟩⟩
  intro s req i j hi hj hon hnc hstill
  obtain ⟨k, _, _, _, _, h4, _, _⟩ := sheddingRun_spec s req
  rw [performLoadShedding_registry] at hi hstill
  have hik := (mem_turnedOff_shedding s req k h4 i).mp hi
  have hjs : j ∈ sortedNonCritical s.deviceRegistry :=
    (mem_sortedNonCritical _ j).mpr ⟨hj, hon, hnc⟩
  have hjk : j ∉ (sortedNonCritical s.deviceRegistry).take k := by
    intro hjk
    rw [h4 j, if_pos hjk] at hstill
    simp [Device.turnOff] at hstill
  have hjd : j ∈ (sortedNonCritical s.deviceRegistry).drop k := by
    rw [← List.take_append_drop k (sortedNonCritical s.deviceRegistry)] at hjs
    rcases List.mem_append.mp hjs with h | h
    · exact absurd h hjk
    · exact h
  have hsorted := sortedNonCritical_sorted s.deviceRegistry
  rw [← List.take_append_drop k (sortedNonCritical s.deviceRegistry),
    List.pairwise_append] at hsorted
  exact hsorted.2.2 i hik j hjd

/-- Witness for C6: of three `ON` non-critical devices the shedding turns off the one
of priority 1 and leaves the one of priority 5 `ON`, and 1 ≤ 5. -/
theorem shedding_lowest_priority_first_witness :
    1 ∈ turnedOff (sampleSystem
        [sampleDevice "B" 50 false 5 Status.ON, sampleDevice "A" 50 false 1 Status.ON,
          sampleDevice "K" 50 true 10 Status.ON] 1000).deviceRegistry
        (performLoadShedding (sampleSystem
        [sampleDevice "B" 50 false 5 Status.ON, sampleDevice "A" 50 false 1 Status.ON,
          sampleDevice "K" 50 true 10 Status.ON] 1000) 50).2.deviceRegistry ∧
      (deviceAt (sampleSystem
        [sampleDevice "B" 50 false 5 Status.ON, sampleDevice "A" 50 false 1 Status.ON,
          sampleDevice "K" 50 true 10 Status.ON] 1000).deviceRegistry 1).priority ≤
      (deviceAt (sampleSystem
        [sampleDevice "B" 50 false 5 Status.ON, sampleDevice "A" 50 false 1 Status.ON,
          sampleDevice "K" 50 true 10 Status.ON] 1000).deviceRegistry 0).priority :=
  ⟨by decide!, shedding_lowest_priority_first.1 (sampleSystem
        [sampleDevice "B" 50 false 5 Status.ON, sampleDevice "A" 50 false 1 Status.ON,
          sampleDevice "K" 50 true 10 Status.ON] 1000) 50 1 0 (by decide!) (by decide)
        (by decide) (by decide) (by decide!)⟩

/-- C7 (counterexample): with `float` rounding the loop does not stop at the
shortest run that reaches `requiredCapacity`, and the flag is not the comparison of
the summed rate. Non-critical devices `ON` at `2 ^ 24`, 1 and 1 W (priorities 1, 2,
3) and `requiredCapacity = 2 ^ 24 + 2`: the three rates sum to `2 ^ 24 + 2`, but
`freedCapacity` stays `2 ^ 24` in binary32 and the result is `false`. With a fourth
device of 1 W the first three already reach `2 ^ 24 + 2`, yet all four are turned
off. -/
theorem shedding_overruns_by_rounding :
    ((performLoadSheddingWith float32Round (sampleSystem
        [sampleDevice "A" 16777216 false 1 Status.ON, sampleDevice "B" 1 false 2 Status.ON,
          sampleDevice "C" 1 false 3 Status.ON] 20000000) 16777218).1 = false ∧
      (sheddingRunWith float32Round (sampleSystem
        [sampleDevice "A" 16777216 false 1 Status.ON, sampleDevice "B" 1 false 2 Status.ON,
          sampleDevice "C" 1 false 3 Status.ON] 20000000) 16777218).2.1 = 16777216 ∧
      sumRates (sampleSystem
        [sampleDevice "A" 16777216 false 1 Status.ON, sampleDevice "B" 1 false 2 Status.ON,
          sampleDevice "C" 1 false 3 Status.ON] 20000000).deviceRegistry
        (turnedOff (sampleSystem
          [sampleDevice "A" 16777216 false 1 Status.ON, sampleDevice "B" 1 false 2 Status.ON,
            sampleDevice "C" 1 false 3 Status.ON] 20000000).deviceRegistry
          (performLoadSheddingWith float32Round (sampleSystem
            [sampleDevice "A" 16777216 false 1 Status.ON, sampleDevice "B" 1 false 2 Status.ON,
              sampleDevice "C" 1 false 3 Status.ON] 20000000) 16777218).2.deviceRegistry) =
        16777218) ∧
    (sumRates (sampleSystem
        [sampleDevice "A" 16777216 false 1 Status.ON, sampleDevice "B" 1 false 2 Status.ON,
          sampleDevice "C" 1 false 3 Status.ON, sampleDevice "D" 1 false 4 Status.ON]
        20000000).deviceRegistry
        ((sortedNonCritical (sampleSystem
          [sampleDevice "A" 16777216 false 1 Status.ON, sampleDevice "B" 1 false 2 Status.ON,
            sampleDevice "C" 1 false 3 Status.ON, sampleDevice "D" 1 false 4 Status.ON]
          20000000).deviceRegistry).take 3) = 16777218 ∧
      statuses (performLoadSheddingWith float32Round (sampleSystem
        [sampleDevice "A" 16777216 false 1 Status.ON, sampleDevice "B" 1 false 2 Status.ON,
          sampleDevice "C" 1 false 3 Status.ON, sampleDevice "D" 1 false 4 Status.ON]
        20000000) 16777218).2 = [Status.OFF, Status.OFF, Status.OFF, Status.OFF]) := by
  refine ⟨⟨by decide!, by decide!, by decide!⟩, ⟨by decide!, by decide!⟩⟩

/-- C7 (amended): in exact arithmetic `performLoadShedding` turns off exactly a prefix
of the priority-sorted `ON` non-critical devices: the shortest prefix whose summed
rate reaches `requiredCapacity`, the whole list if no prefix does, and no device if
`requiredCapacity ≤ 0`; it returns `true` iff the summed rate of the devices it
turned off is at least `requiredCapacity`. The sorted list is a permutation of the
`ON` non-critical devices in ascending priority. With the additions rounded by any
`rnd`, the same holds with `freedCapacity` as the code accumulates it (`accRates`)
in place of the summed rate. -/
theorem shedding_stops_when_freed (s : EnergyOptimizationSystem) (requiredCapacity : ℚ) :
    ((∀ i, i ∈ sortedNonCritical s.deviceRegistry ↔
      i < s.deviceRegistry.length ∧ (deviceAt s.deviceRegistry i).status = Status.ON ∧
        (deviceAt s.deviceRegistry i).isCritical = false) ∧
    (sortedNonCritical s.deviceRegistry).Nodup ∧
    (sortedNonCritical s.deviceRegistry).Pairwise
      (fun a b => (deviceAt s.deviceRegistry a).priority ≤
        (deviceAt s.deviceRegistry b).priority) ∧
    (∃ k, k ≤ (sortedNonCritical s.deviceRegistry).length ∧
      k = (sheddingRun s requiredCapacity).2.2 ∧
      (∀ i, i ∈ turnedOff s.deviceRegistry
          (performLoadShedding s requiredCapacity).2.deviceRegistry ↔
        i ∈ (sortedNonCritical s.deviceRegistry).take k) ∧
      (∀ j, j < k →
        sumRates s.deviceRegistry ((sortedNonCritical s.deviceRegistry).take j) <
          requiredCapacity) ∧
      (k = (sortedNonCritical s.deviceRegistry).length ∨
        requiredCapacity ≤
          sumRates s.deviceRegistry ((sortedNonCritical s.deviceRegistry).take k)) ∧
      (requiredCapacity ≤ 0 → k = 0)) ∧
    ((performLoadShedding s requiredCapacity).1 = true ↔
      requiredCapacity ≤ sumRates s.deviceRegistry
        (turnedOff s.deviceRegistry
          (performLoadShedding s requiredCapacity).2.deviceRegistry))) ∧
    (∀ rnd : ℚ → ℚ,
      ∃ k, k ≤ (sortedNonCritical s.deviceRegistry).length ∧
        k = (sheddingRunWith rnd s requiredCapacity).2.2 ∧
        (∀ i, i ∈ turnedOff s.deviceRegistry
            (performLoadSheddingWith rnd s requiredCapacity).2.deviceRegistry ↔
          i ∈ (sortedNonCritical s.deviceRegistry).take k) ∧
        (∀ j, j < k →
          accRates rnd s.deviceRegistry 0 ((sortedNonCritical s.deviceRegistry).take j) <
            requiredCapacity) ∧
        (k = (sortedNonCritical s.deviceRegistry).length ∨
          requiredCapacity ≤
            accRates rnd s.deviceRegistry 0 ((sortedNonCritical s.deviceRegistry).take k)) ∧
        (requiredCapacity ≤ 0 → k = 0) ∧
        ((performLoadSheddingWith rnd s requiredCapacity).1 = true ↔
          requiredCapacity ≤
            accRates rnd s.deviceRegistry 0
              ((sortedNonCritical s.deviceRegistry).take k))) := by
  constructor
  · obtain ⟨k, hk, h1, h2, _, h4, h5, h6⟩ := sheddingRun_spec s requiredCapacity
    have hmem := mem_turnedOff_shedding s requiredCapacity k h4
    refine ⟨mem_sortedNonCritical _, nodup_sortedNonCritical _, sortedNonCritical_sorted _,
      ⟨k, hk, h1.symm, hmem, h5, h6, ?_⟩, ?_⟩
    · intro hreq
      by_contra hk0
      have := h5 0 (Nat.pos_of_ne_zero hk0)
      simp only [List.take_zero, sumRates_nil] at this
      exact absurd (lt_of_lt_of_le this hreq) (lt_irrefl _)
    · have hperm : (turnedOff s.deviceRegistry
          (performLoadShedding s requiredCapacity).2.deviceRegistry).Perm
          ((sortedNonCritical s.deviceRegistry).take k) := by
        rw [performLoadShedding_registry]
        exact (List.perm_ext_iff_of_nodup (nodup_turnedOff _ _)
          ((nodup_sortedNonCritical _).sublist (List.take_sublist _ _))).mpr hmem
      rw [sumRates_perm _ hperm, performLoadShedding_flag, h2]
      simp
  · intro rnd
    obtain ⟨k, hk, h1, h2, _, h4, h5, h6⟩ := sheddingRunWith_spec rnd s requiredCapacity
    have hmem := mem_turnedOff_sheddingWith rnd s requiredCapacity k h4
    refine ⟨k, hk, h1.symm, hmem, h5, h6, ?_, ?_⟩
    · intro hreq
      by_contra hk0
      have := h5 0 (Nat.pos_of_ne_zero hk0)
      simp only [List.take_zero, accRates_nil] at this
      exact absurd (lt_of_lt_of_le this hreq) (lt_irrefl _)
    · show decide ((sheddingRunWith rnd s requiredCapacity).2.1 ≥ requiredCapacity) = true ↔ _
      rw [h2]
      simp

/-- Witness for C7: with devices of 50 W each and `requiredCapacity = 60` the loop
sheds two devices, and the prefix of length one frees less than 60, in exact
arithmetic and in binary32. -/
theorem shedding_stops_when_freed_witness :
    (sheddingRun (sampleSystem
        [sampleDevice "B" 50 false 5 Status.ON, sampleDevice "A" 50 false 1 Status.ON]
        1000) 60).2.2 = 2 ∧
      sumRates (sampleSystem
        [sampleDevice "B" 50 false 5 Status.ON, sampleDevice "A" 50 false 1 Status.ON]
        1000).deviceRegistry
        ((sortedNonCritical (sampleSystem
          [sampleDevice "B" 50 false 5 Status.ON, sampleDevice "A" 50 false 1 Status.ON]
          1000).deviceRegistry).take 1) < 60 ∧
      (sheddingRunWith float32Round (sampleSystem
        [sampleDevice "B" 50 false 5 Status.ON, sampleDevice "A" 50 false 1 Status.ON]
        1000) 60).2.2 = 2 ∧
      accRates float32Round (sampleSystem
        [sampleDevice "B" 50 false 5 Status.ON, sampleDevice "A" 50 false 1 Status.ON]
        1000).deviceRegistry 0
        ((sortedNonCritical (sampleSystem
          [sampleDevice "B" 50 false 5 Status.ON, sampleDevice "A" 50 false 1 Status.ON]
          1000).deviceRegistry).take 1) < 60 := by
  have h2 : (sheddingRun (sampleSystem
        [sampleDevice "B" 50 false 5 Status.ON, sampleDevice "A" 50 false 1 Status.ON]
        1000) 60).2.2 = 2 := by decide!
  have h2' : (sheddingRunWith float32Round (sampleSystem
        [sampleDevice "B" 50 false 5 Status.ON, sampleDevice "A" 50 false 1 Status.ON]
        1000) 60).2.2 = 2 := by decide!
  obtain ⟨k, _, hc, _, h5, _, _⟩ := (shedding_stops_when_freed (sampleSystem
        [sampleDevice "B" 50 false 5 Status.ON, sampleDevice "A" 50 false 1 Status.ON]
        1000) 60).1.2.2.2.1
  obtain ⟨k', _, hc', _, h5', _, _⟩ := (shedding_stops_when_freed (sampleSystem
        [sampleDevice "B" 50 false 5 Status.ON, sampleDevice "A" 50 false 1 Status.ON]
        1000) 60).2 float32Round
  exact ⟨h2, h5 1 (by omega), h2', h5' 1 (by omega)⟩

/-- C8 (evaluation of the code at the failing input): `performLoadShedding` never
writes to the history tracker; with one `ON` non-critical device of 50 W and
`requiredCapacity = 50` the device is turned off and the history stays empty, while
a manual toggle-off of the same device appends one record. -/
theorem shedding_records_no_history :
    (∀ (s : EnergyOptimizationSystem) (requiredCapacity : ℚ),
      (performLoadShedding s requiredCapacity).2.historyTracker = s.historyTracker) ∧
    statuses (performLoadShedding (sampleSystem
      [sampleDevice "A" 50 false 1 Status.ON] 1000) 50).2 = [Status.OFF] ∧
    (performLoadShedding (sampleSystem
      [sampleDevice "A" 50 false 1 Status.ON] 1000) 50).2.historyTracker = [] ∧
    statuses (toggleDevice (sampleSystem
      [sampleDevice "A" 50 false 1 Status.ON] 1000) "A" 3600 3600) = [Status.OFF] ∧
    (toggleDevice (sampleSystem
      [sampleDevice "A" 50 false 1 Status.ON] 1000) "A" 3600 3600).historyTracker.length = 1 :=
  ⟨performLoadShedding_history, by decide!, rfl, by decide!, by decide!⟩

/-- C9 (counterexample): the task that `dequeue` and `peek` return on the empty
default queue is the task they return on the non-empty queue that holds one
default-valued task. -/
theorem empty_result_equals_nonempty_result :
    ((PriorityQueue.new defaultCapacity).enqueue ScheduledTask.new).isEmpty = false ∧
      (PriorityQueue.new defaultCapacity).isEmpty = true ∧
      ((PriorityQueue.new defaultCapacity).dequeue).1 =
        (((PriorityQueue.new defaultCapacity).enqueue ScheduledTask.new).dequeue).1 ∧
      (PriorityQueue.new defaultCapacity).peek =
        ((PriorityQueue.new defaultCapacity).enqueue ScheduledTask.new).peek := by
  decide

/-- C9 (amended): on an empty queue `dequeue` and `peek` return the
default-constructed `ScheduledTask()` and leave the queue unchanged, with size 0;
`isEmpty` is `true` exactly when `getSize` is 0, so the empty case is told apart by
`isEmpty` or `getSize`, not by the returned task. -/
theorem empty_queue_returns_default (q : PriorityQueue) :
    (q.isEmpty = true →
      (q.dequeue).1 = ScheduledTask.new ∧ q.peek = ScheduledTask.new ∧
        (q.dequeue).2 = q ∧ (q.dequeue).2.getSize = 0) ∧
    (q.isEmpty = true ↔ q.getSize = 0) ∧
    ScheduledTask.new = ScheduledTask.create "" "" 0 0 5 false := by
  have hiff : q.isEmpty = true ↔ q.getSize = 0 := by
    simp [PriorityQueue.isEmpty, PriorityQueue.getSize]
  refine ⟨?_, hiff, rfl⟩
  intro h
  have hs : q.size = 0 := hiff.mp h
  rw [dequeue_empty q hs]
  exact ⟨rfl, by simp [PriorityQueue.peek, hs], rfl, hs⟩

/-- Witness for C9: the empty default queue. -/
theorem empty_queue_returns_default_witness :
    (PriorityQueue.new defaultCapacity).isEmpty = true ∧
      ((PriorityQueue.new defaultCapacity).dequeue).1 = ScheduledTask.new ∧
      (PriorityQueue.new defaultCapacity).peek = ScheduledTask.new ∧
      ((PriorityQueue.new defaultCapacity).dequeue).2 = PriorityQueue.new defaultCapacity ∧
      ((PriorityQueue.new defaultCapacity).dequeue).2.getSize = 0 :=
  ⟨by decide, (empty_queue_returns_default (PriorityQueue.new defaultCapacity)).1 (by decide)⟩

/-- C10 (counterexample): the default queue holding 100 tasks drops a further task:
the size stays 100 and the task is not stored. -/
theorem enqueue_on_full_queue_drops :
    fullQueue.getSize = 100 ∧
      (fullQueue.enqueue (sampleTask "z" 9 0)).getSize = 100 ∧
      sampleTask "z" 9 0 ∉ (fullQueue.enqueue (sampleTask "z" 9 0)).tasks ∧
      fullQueue.enqueue (sampleTask "z" 9 0) = fullQueue := by
  decide!

/-- C10 (amended): for every queue reached from an empty queue of capacity `cap`, the
capacity is still `cap`; while `getSize` is below the capacity, `enqueue` grows
`getSize` by exactly one and the task is among the stored tasks afterwards; once
`getSize` has reached the capacity, `enqueue` leaves the queue unchanged. -/
theorem enqueue_below_capacity (cap : Nat) (ops : List QueueOp) (task : ScheduledTask) :
    ((PriorityQueue.new cap).run ops).capacity = cap ∧
    (((PriorityQueue.new cap).run ops).getSize < cap →
      (((PriorityQueue.new cap).run ops).enqueue task).getSize =
        ((PriorityQueue.new cap).run ops).getSize + 1 ∧
      task ∈ (((PriorityQueue.new cap).run ops).enqueue task).tasks) ∧
    (cap ≤ ((PriorityQueue.new cap).run ops).getSize →
      ((PriorityQueue.new cap).run ops).enqueue task = (PriorityQueue.new cap).run ops) := by
  have hv := valid_run _ ops (valid_new cap)
  have hc : ((PriorityQueue.new cap).run ops).capacity = cap := run_capacity _ ops
  generalize (PriorityQueue.new cap).run ops = q at *
  refine ⟨hc, ?_, ?_⟩
  · intro h
    have hlt : q.size < q.capacity := by rw [hc]; exact h
    refine ⟨enqueue_size q task hlt, ?_⟩
    exact (enqueue_tasks_perm q task hv hlt).symm.subset (by simp)
  · intro h
    exact enqueue_full q task (by rw [hc]; exact h)

/-- Witness for C10: an enqueue on a queue of capacity 2 that holds one task, and an
enqueue on the same queue once it is full. -/
theorem enqueue_below_capacity_witness :
    (((PriorityQueue.new 2).run [QueueOp.enq (sampleTask "a" 5 10)]).getSize < 2 ∧
      (((PriorityQueue.new 2).run [QueueOp.enq (sampleTask "a" 5 10)]).enqueue
        (sampleTask "b" 8 3)).getSize =
        ((PriorityQueue.new 2).run [QueueOp.enq (sampleTask "a" 5 10)]).getSize + 1) ∧
    (2 ≤ ((PriorityQueue.new 2).run
        [QueueOp.enq (sampleTask "a" 5 10), QueueOp.enq (sampleTask "b" 8 3)]).getSize ∧
      ((PriorityQueue.new 2).run
        [QueueOp.enq (sampleTask "a" 5 10), QueueOp.enq (sampleTask "b" 8 3)]).enqueue
        (sampleTask "c" 8 1) =
      (PriorityQueue.new 2).run
        [QueueOp.enq (sampleTask "a" 5 10), QueueOp.enq (sampleTask "b" 8 3)]) :=
  ⟨⟨by decide, ((enqueue_below_capacity 2 [QueueOp.enq (sampleTask "a" 5 10)]
      (sampleTask "b" 8 3)).2.1 (by decide)).1⟩,
    ⟨by decide, (enqueue_below_capacity 2
      [QueueOp.enq (sampleTask "a" 5 10), QueueOp.enq (sampleTask "b" 8 3)]
      (sampleTask "c" 8 1)).2.2 (by decide)⟩⟩

/-- C11: the task `scheduleDevice` builds and enqueues for a device has
`estimatedCost = rate * duration / 60 / 1000 * tariff` in exact arithmetic, with
tariff 20 when `6 ≤ hour ≤ 22` and 10 otherwise, and has `priority` and `isCritical`
copied from the device; it is the task passed to `enqueue`, and it is stored when
the scheduler of a system reached from the initial one holds fewer than 100 tasks. -/
theorem scheduled_task_cost :
    (∀ (device : Device) (timeHour duration : Int),
      (scheduledTaskFor device timeHour duration).estimatedCost =
        device.consumptionRate * (duration : ℚ) / 60 / 1000 *
          (if 6 ≤ timeHour ∧ timeHour ≤ 22 then 20 else 10) ∧
      (scheduledTaskFor device timeHour duration).priority = device.priority ∧
      (scheduledTaskFor device timeHour duration).isCritical = device.isCritical) ∧
    (∀ (s : EnergyOptimizationSystem) (id : String) (timeHour duration : Int) (i : Nat),
      registryGet s.deviceRegistry id = some i →
      (scheduleDevice s id timeHour duration).scheduler =
        s.scheduler.enqueue
          (scheduledTaskFor (deviceAt s.deviceRegistry i) timeHour duration)) ∧
    (∀ (maxLoadCapacity : ℚ) (choices : List MenuChoice) (id : String)
      (timeHour duration : Int) (i : Nat),
      registryGet ((EnergyOptimizationSystem.init maxLoadCapacity).run
        choices).deviceRegistry id = some i →
      ((EnergyOptimizationSystem.init maxLoadCapacity).run choices).scheduler.getSize <
        defaultCapacity →
      scheduledTaskFor (deviceAt ((EnergyOptimizationSystem.init maxLoadCapacity).run
          choices).deviceRegistry i) timeHour duration ∈
        (scheduleDevice ((EnergyOptimizationSystem.init maxLoadCapacity).run choices) id
          timeHour duration).scheduler.tasks) := by
  refine ⟨?_, ?_, ?_⟩
  · intro device timeHour duration
    refine ⟨?_, rfl, rfl⟩
    simp only [scheduledTaskFor, ge_iff_le]
  · intro s id timeHour duration i hget
    rw [scheduleDevice_found s id timeHour duration i hget]
  · intro cap choices id timeHour duration i hget hsize
    exact scheduleDevice_stores cap choices id timeHour duration i hget hsize

/-- Witness for C11: a 1200 W device scheduled at hour 7 for 30 minutes costs
`1200 * 30 / 60 / 1000 * 20 = 12`, and at hour 23 it costs 6. -/
theorem scheduled_task_cost_witness :
    registryGet ((EnergyOptimizationSystem.init 1000).run
        [MenuChoice.add "W" "washer" 1200 0 4]).deviceRegistry "W" = some 0 ∧
      (scheduleDevice ((EnergyOptimizationSystem.init 1000).run
        [MenuChoice.add "W" "washer" 1200 0 4]) "W" 7 30).scheduler =
        ((EnergyOptimizationSystem.init 1000).run
          [MenuChoice.add "W" "washer" 1200 0 4]).scheduler.enqueue
          (scheduledTaskFor (deviceAt ((EnergyOptimizationSystem.init 1000).run
            [MenuChoice.add "W" "washer" 1200 0 4]).deviceRegistry 0) 7 30) ∧
      (scheduleDevice ((EnergyOptimizationSystem.init 1000).run
        [MenuChoice.add "W" "washer" 1200 0 4]) "W" 7 30).scheduler.peek.estimatedCost = 12 ∧
      (scheduleDevice ((EnergyOptimizationSystem.init 1000).run
        [MenuChoice.add "W" "washer" 1200 0 4]) "W" 23 30).scheduler.peek.estimatedCost = 6 :=
  ⟨by decide, scheduled_task_cost.2.1 _ "W" 7 30 0 (by decide), by decide!, by decide!⟩

/-- C12: when `toggleDevice` turns an `ON` device off it appends exactly one record,
whose rate is the device's rate, whose duration is `now - startTime`, and whose
`unitsConsumed` is `consumptionRate * duration / 3600 / 1000` in exact arithmetic;
for 1000 W and 3600 s this is exactly 1 kWh. -/
theorem toggle_off_units (s : EnergyOptimizationSystem) (id : String) (now stamp : Int)
    (i : Nat) (hget : registryGet s.deviceRegistry id = some i)
    (hon : (deviceAt s.deviceRegistry i).status = Status.ON) :
    ∃ record : HistoryRecord,
      (toggleDevice s id now stamp).historyTracker = s.historyTracker ++ [record] ∧
      (deviceAt (toggleDevice s id now stamp).deviceRegistry i).status = Status.OFF ∧
      record.consumptionRate = (deviceAt s.deviceRegistry i).consumptionRate ∧
      record.duration = now - (deviceAt s.deviceRegistry i).startTime ∧
      record.unitsConsumed = record.consumptionRate * (record.duration : ℚ) / 3600 / 1000 ∧
      (record.consumptionRate = 1000 → record.duration = 3600 → record.unitsConsumed = 1) := by
  have hi := registryGet_lt hget
  rw [toggleDevice_on s id now stamp i hget hon]
  refine ⟨{ deviceID := (deviceAt s.deviceRegistry i).deviceID,
            deviceName := (deviceAt s.deviceRegistry i).deviceName,
            consumptionRate := (deviceAt s.deviceRegistry i).consumptionRate,
            timestamp := stamp,
            duration := now - (deviceAt s.deviceRegistry i).startTime,
            unitsConsumed := ((deviceAt s.deviceRegistry i).consumptionRate *
              (((now - (deviceAt s.deviceRegistry i).startTime : Int) : ℚ) / 3600)) / 1000 },
    ?_, ?_, ?_, ?_, ?_, ?_⟩
  · rfl
  · show (deviceAt (s.deviceRegistry.set i (deviceAt s.deviceRegistry i).turnOff) i).status =
      Status.OFF
    rw [deviceAt_set, if_pos ⟨rfl, hi⟩]
    rfl
  · rfl
  · rfl
  · simp only []
    ring
  · simp only []
    intro h1 h2
    rw [h1, h2]
    norm_num

/-- Witness for C12: a 1000 W device switched on at time 0 and off at time 3600. -/
theorem toggle_off_units_witness :
    registryGet (sampleSystem [sampleDevice "A" 1000 false 5 Status.ON]
        5000).deviceRegistry "A" = some 0 ∧
      (deviceAt (sampleSystem [sampleDevice "A" 1000 false 5 Status.ON]
        5000).deviceRegistry 0).status = Status.ON ∧
      ∃ record : HistoryRecord,
        (toggleDevice (sampleSystem [sampleDevice "A" 1000 false 5 Status.ON] 5000)
          "A" 3600 3600).historyTracker = [record] ∧
        record.unitsConsumed = 1 := by
  obtain ⟨record, h1, _, h3, h4, _, h6⟩ :=
    toggle_off_units (sampleSystem [sampleDevice "A" 1000 false 5 Status.ON] 5000)
      "A" 3600 3600 0 (by decide) (by decide)
  exact ⟨by decide, by decide, record, h1, h6 (h3.trans (by decide!)) (h4.trans (by decide))⟩

/-- C13: for every requested priority, `addDevice` with a non-zero critical flag
registers a device flagged critical with priority 10 (so with requested priority 3);
in every system reached from the initial one by adding, toggling and scheduling,
every critical device of the registry has priority 10. -/
theorem addDevice_critical_priority :
    (∀ (s : EnergyOptimizationSystem) (id name : String) (rate : ℚ)
      (critical priorityInput : Int), critical ≠ 0 →
      Device.create id name rate true 10 ∈
        (addDevice s id name rate critical priorityInput).deviceRegistry) ∧
    (∀ (s : EnergyOptimizationSystem) (id name : String) (rate : ℚ),
      Device.create id name rate true 10 ∈ (addDevice s id name rate 1 3).deviceRegistry) ∧
    (∀ (maxLoadCapacity : ℚ) (choices : List MenuChoice) (d : Device),
      d ∈ ((EnergyOptimizationSystem.init maxLoadCapacity).run choices).deviceRegistry →
      d.isCritical = true → d.priority = 10) := by
  have h1 : ∀ (s : EnergyOptimizationSystem) (id name : String) (rate : ℚ)
      (critical priorityInput : Int), critical ≠ 0 →
      Device.create id name rate true 10 ∈
        (addDevice s id name rate critical priorityInput).deviceRegistry := by
    intro s id name rate critical priorityInput hc
    have := registryInsert_mem s.deviceRegistry id
      (Device.create id name rate (decide (critical ≠ 0)) (if critical ≠ 0 then 10 else priorityInput))
    simpa [addDevice, hc] using this
  refine ⟨h1, fun s id name rate => h1 s id name rate 1 3 (by decide), ?_⟩
  intro cap choices d hd hc
  exact (run_invariants cap choices).1 d hd hc

/-- Witness for C13: a critical device registered with requested priority 3. -/
theorem addDevice_critical_priority_witness :
    (1 : Int) ≠ 0 ∧
      Device.create "F" "fridge" 150 true 10 ∈
        (addDevice (EnergyOptimizationSystem.init 1000) "F" "fridge" 150 1 3).deviceRegistry ∧
      (addDevice (EnergyOptimizationSystem.init 1000) "F" "fridge" 150 1 3).deviceRegistry =
        [Device.create "F" "fridge" 150 true 10] :=
  ⟨by decide, addDevice_critical_priority.1 _ "F" "fridge" 150 1 3 (by decide), by decide⟩

/-- C14 (counterexample): a critical device C and a non-critical device N registered
with priority 10 through `addDevice`; C is scheduled at hour 5 and N at hour 1. The
task of N outranks the task of C, and `peek` returns the task of N. -/
theorem noncritical_task_outranks_critical :
    outranks
        (scheduledTaskFor (Device.create "N" "heater" 100 false 10) 1 30)
        (scheduledTaskFor (Device.create "C" "pump" 200 true 10) 5 30) ∧
      ((EnergyOptimizationSystem.init 1000).run
        [MenuChoice.add "C" "pump" 200 1 3, MenuChoice.add "N" "heater" 100 0 10,
          MenuChoice.schedule "C" 5 30, MenuChoice.schedule "N" 1 30]).deviceRegistry =
        [Device.create "C" "pump" 200 true 10, Device.create "N" "heater" 100 false 10] ∧
      ((EnergyOptimizationSystem.init 1000).run
        [MenuChoice.add "C" "pump" 200 1 3, MenuChoice.add "N" "heater" 100 0 10,
          MenuChoice.schedule "C" 5 30, MenuChoice.schedule "N" 1 30]).scheduler.peek =
        scheduledTaskFor (Device.create "N" "heater" 100 false 10) 1 30 := by
  refine ⟨by decide, by decide, by decide!⟩

/-- C14 (amended): for a critical device of a system reached from the initial one and
a non-critical device whose priority is within the prompted scale (at most 10), the
task of the critical device has priority 10; the task of the non-critical device
outranks it exactly when the non-critical device has priority 10 and an earlier
scheduled hour; when the non-critical device has priority below 10 the critical task
outranks the non-critical one and is not outranked by it. -/
theorem critical_task_rank (maxLoadCapacity : ℚ) (choices : List MenuChoice)
    (c n : Device) (hourC durC hourN durN : Int)
    (hc : c ∈ ((EnergyOptimizationSystem.init maxLoadCapacity).run choices).deviceRegistry)
    (hcrit : c.isCritical = true) (hn : n.isCritical = false) (hscale : n.priority ≤ 10) :
    (scheduledTaskFor c hourC durC).priority = 10 ∧
    (scheduledTaskFor c hourC durC).isCritical = true ∧
    (scheduledTaskFor n hourN durN).isCritical = false ∧
    (outranks (scheduledTaskFor n hourN durN) (scheduledTaskFor c hourC durC) ↔
      (n.priority = 10 ∧ hourN < hourC)) ∧
    (n.priority < 10 →
      outranks (scheduledTaskFor c hourC durC) (scheduledTaskFor n hourN durN) ∧
      ¬ outranks (scheduledTaskFor n hourN durN) (scheduledTaskFor c hourC durC)) := by
  have hp : c.priority = 10 := (run_invariants maxLoadCapacity choices).1 c hc hcrit
  have e1 : (scheduledTaskFor c hourC durC).priority = 10 := hp
  have e2 : (scheduledTaskFor n hourN durN).priority = n.priority := rfl
  have e3 : (scheduledTaskFor c hourC durC).scheduledTime = hourC := rfl
  have e4 : (scheduledTaskFor n hourN durN).scheduledTime = hourN := rfl
  refine ⟨e1, hcrit, hn, ?_, ?_⟩
  · unfold outranks
    rw [e1, e2, e3, e4]
    omega
  · intro hlt
    unfold outranks
    rw [e1, e2, e3, e4]
    omega

/-- Witness for C14: a critical device and a non-critical device of priority 4. -/
theorem critical_task_rank_witness :
    Device.create "C" "pump" 200 true 10 ∈
        ((EnergyOptimizationSystem.init 1000).run
          [MenuChoice.add "C" "pump" 200 1 3,
            MenuChoice.add "N" "heater" 100 0 4]).deviceRegistry ∧
      outranks (scheduledTaskFor (Device.create "C" "pump" 200 true 10) 5 30)
        (scheduledTaskFor (Device.create "N" "heater" 100 false 4) 1 30) :=
  ⟨by decide, ((critical_task_rank 1000
      [MenuChoice.add "C" "pump" 200 1 3, MenuChoice.add "N" "heater" 100 0 4]
      (Device.create "C" "pump" 200 true 10) (Device.create "N" "heater" 100 false 4)
      5 30 1 30 (by decide) rfl rfl (by decide)).2.2.2.2 (by decide)).1⟩

/-- C15 (counterexample): `scheduleDevice` with hour 25 and duration -5 stores a task
with `scheduledTime = 25` and `duration = -5`. -/
theorem schedule_stores_out_of_range :
    ((EnergyOptimizationSystem.init 1000).run
        [MenuChoice.add "N" "heater" 100 0 5,
          MenuChoice.schedule "N" 25 (-5)]).scheduler.getSize = 1 ∧
      ((EnergyOptimizationSystem.init 1000).run
        [MenuChoice.add "N" "heater" 100 0 5,
          MenuChoice.schedule "N" 25 (-5)]).scheduler.peek.scheduledTime = 25 ∧
      ((EnergyOptimizationSystem.init 1000).run
        [MenuChoice.add "N" "heater" 100 0 5,
          MenuChoice.schedule "N" 25 (-5)]).scheduler.peek.duration = -5 := by
  refine ⟨by decide, by decide!, by decide!⟩

/-- C15 (amended): the task `scheduleDevice` passes to the scheduler has
`scheduledTime` and `duration` equal to the hour and the duration the caller supplies,
unchecked; so `scheduledTime` is in `[0,23]` and `duration > 0` exactly when the
supplied values are. The task is stored when the scheduler of a system reached from
the initial one holds fewer than 100 tasks. -/
theorem schedule_stores_supplied_values :
    (∀ (s : EnergyOptimizationSystem) (id : String) (timeHour duration : Int) (i : Nat),
      registryGet s.deviceRegistry id = some i →
      (scheduleDevice s id timeHour duration).scheduler =
        s.scheduler.enqueue
          (scheduledTaskFor (deviceAt s.deviceRegistry i) timeHour duration)) ∧
    (∀ (device : Device) (timeHour duration : Int),
      (scheduledTaskFor device timeHour duration).scheduledTime = timeHour ∧
      (scheduledTaskFor device timeHour duration).duration = duration ∧
      ((0 ≤ (scheduledTaskFor device timeHour duration).scheduledTime ∧
          (scheduledTaskFor device timeHour duration).scheduledTime ≤ 23 ∧
          0 < (scheduledTaskFor device timeHour duration).duration) ↔
        (0 ≤ timeHour ∧ timeHour ≤ 23 ∧ 0 < duration))) ∧
    (∀ (maxLoadCapacity : ℚ) (choices : List MenuChoice) (id : String)
      (timeHour duration : Int) (i : Nat),
      registryGet ((EnergyOptimizationSystem.init maxLoadCapacity).run
        choices).deviceRegistry id = some i →
      ((EnergyOptimizationSystem.init maxLoadCapacity).run choices).scheduler.getSize <
        defaultCapacity →
      ∃ task ∈ (scheduleDevice ((EnergyOptimizationSystem.init maxLoadCapacity).run choices)
          id timeHour duration).scheduler.tasks,
        task.scheduledTime = timeHour ∧ task.duration = duration) := by
  refine ⟨?_, ?_, ?_⟩
  · intro s id timeHour duration i hget
    rw [scheduleDevice_found s id timeHour duration i hget]
  · intro device timeHour duration
    exact ⟨rfl, rfl, Iff.rfl⟩
  · intro cap choices id timeHour duration i hget hsize
    exact ⟨_, scheduleDevice_stores cap choices id timeHour duration i hget hsize, rfl, rfl⟩

/-- Witness for C15: a device scheduled at hour 7 for 30 minutes. -/
theorem schedule_stores_supplied_values_witness :
    registryGet ((EnergyOptimizationSystem.init 1000).run
        [MenuChoice.add "N" "heater" 100 0 5]).deviceRegistry "N" = some 0 ∧
      ((EnergyOptimizationSystem.init 1000).run
        [MenuChoice.add "N" "heater" 100 0 5]).scheduler.getSize < defaultCapacity ∧
      ∃ task ∈ (scheduleDevice ((EnergyOptimizationSystem.init 1000).run
          [MenuChoice.add "N" "heater" 100 0 5]) "N" 7 30).scheduler.tasks,
        task.scheduledTime = 7 ∧ task.duration = 30 :=
  ⟨by decide, by decide, schedule_stores_supplied_values.2.2 1000
    [MenuChoice.add "N" "heater" 100 0 5] "N" 7 30 0 (by decide) (by decide)⟩

/-- C16 (counterexample): with `float` rounding a device whose rate plus the current
total load is at most the capacity is refused. Capacity 16777222, devices `ON` at
`2 ^ 24` and 3 W, a non-critical 3 W device toggled: the exact sum is 16777222, the
binary32 running total is 16777220 and `newLoad` is 16777224, so the device stays
`OFF` and the state is unchanged. -/
theorem toggle_fitting_device_refused_by_rounding :
    getCurrentTotalLoad (sampleSystem
        [sampleDevice "H" 16777216 false 4 Status.ON, sampleDevice "G" 3 false 5 Status.ON,
          sampleDevice "N" 3 false 6 Status.OFF] 16777222) + 3 ≤ 16777222 ∧
    getCurrentTotalLoadWith float32Round (sampleSystem
        [sampleDevice "H" 16777216 false 4 Status.ON, sampleDevice "G" 3 false 5 Status.ON,
          sampleDevice "N" 3 false 6 Status.OFF] 16777222) = 16777220 ∧
    float32Round (getCurrentTotalLoadWith float32Round (sampleSystem
        [sampleDevice "H" 16777216 false 4 Status.ON, sampleDevice "G" 3 false 5 Status.ON,
          sampleDevice "N" 3 false 6 Status.OFF] 16777222) + 3) = 16777224 ∧
    statuses (toggleDeviceWith float32Round (sampleSystem
        [sampleDevice "H" 16777216 false 4 Status.ON, sampleDevice "G" 3 false 5 Status.ON,
          sampleDevice "N" 3 false 6 Status.OFF] 16777222) "N" 0 0) =
      [Status.ON, Status.ON, Status.OFF] ∧
    toggleDeviceWith float32Round (sampleSystem
        [sampleDevice "H" 16777216 false 4 Status.ON, sampleDevice "G" 3 false 5 Status.ON,
          sampleDevice "N" 3 false 6 Status.OFF] 16777222) "N" 0 0 =
      sampleSystem
        [sampleDevice "H" 16777216 false 4 Status.ON, sampleDevice "G" 3 false 5 Status.ON,
          sampleDevice "N" 3 false 6 Status.OFF] 16777222 := by
  refine ⟨by decide!, by decide!, by decide!, by decide!, by decide!⟩

/-- C16 (amended): in exact arithmetic, toggling an `OFF` device, critical or not, whose
rate added to the current total load is at most the capacity turns exactly that device
`ON` (with start time `now`): every other device is unchanged, the registry keeps its
length, and the history and the scheduler are unchanged. With the `float` results
rounded by any `rnd`, the same holds whenever `newLoad` as the code computes it, the
rounded sum of the rounded running total and the rate, is at most the capacity. -/
theorem toggle_fits_turns_on (s : EnergyOptimizationSystem) (id : String) (now stamp : Int)
    (i : Nat) (hget : registryGet s.deviceRegistry id = some i)
    (hoff : (deviceAt s.deviceRegistry i).status = Status.OFF) :
    (getCurrentTotalLoad s + (deviceAt s.deviceRegistry i).consumptionRate ≤
        s.maxLoadCapacity →
      (deviceAt (toggleDevice s id now stamp).deviceRegistry i).status = Status.ON ∧
      deviceAt (toggleDevice s id now stamp).deviceRegistry i =
        (deviceAt s.deviceRegistry i).turnOn now ∧
      (∀ j, j ≠ i →
        deviceAt (toggleDevice s id now stamp).deviceRegistry j =
          deviceAt s.deviceRegistry j) ∧
      (toggleDevice s id now stamp).deviceRegistry.length = s.deviceRegistry.length ∧
      (toggleDevice s id now stamp).historyTracker = s.historyTracker ∧
      (toggleDevice s id now stamp).scheduler = s.scheduler) ∧
    (∀ rnd : ℚ → ℚ,
      rnd (getCurrentTotalLoadWith rnd s + (deviceAt s.deviceRegistry i).consumptionRate) ≤
        s.maxLoadCapacity →
      (deviceAt (toggleDeviceWith rnd s id now stamp).deviceRegistry i).status = Status.ON ∧
      deviceAt (toggleDeviceWith rnd s id now stamp).deviceRegistry i =
        (deviceAt s.deviceRegistry i).turnOn now ∧
      (∀ j, j ≠ i →
        deviceAt (toggleDeviceWith rnd s id now stamp).deviceRegistry j =
          deviceAt s.deviceRegistry j) ∧
      (toggleDeviceWith rnd s id now stamp).deviceRegistry.length =
        s.deviceRegistry.length ∧
      (toggleDeviceWith rnd s id now stamp).historyTracker = s.historyTracker ∧
      (toggleDeviceWith rnd s id now stamp).scheduler = s.scheduler) := by
  have hi := registryGet_lt hget
  have e : deviceAt (s.deviceRegistry.set i ((deviceAt s.deviceRegistry i).turnOn now)) i =
      (deviceAt s.deviceRegistry i).turnOn now := by
    rw [deviceAt_set, if_pos ⟨rfl, hi⟩]
  constructor
  · intro hfit
    rw [toggleDevice_fits s id now stamp i hget hoff hfit]
    refine ⟨?_, e, ?_, ?_, rfl, rfl⟩
    · show (deviceAt (s.deviceRegistry.set i
        ((deviceAt s.deviceRegistry i).turnOn now)) i).status = Status.ON
      rw [e]; rfl
    · intro j hj
      show deviceAt (s.deviceRegistry.set i ((deviceAt s.deviceRegistry i).turnOn now)) j = _
      rw [deviceAt_set, if_neg (fun h => hj h.1)]
    · show (s.deviceRegistry.set i ((deviceAt s.deviceRegistry i).turnOn now)).length = _
      simp
  · intro rnd hfit
    rw [toggleDeviceWith_fits rnd s id now stamp i hget hoff hfit]
    refine ⟨?_, e, ?_, ?_, rfl, rfl⟩
    · show (deviceAt (s.deviceRegistry.set i
        ((deviceAt s.deviceRegistry i).turnOn now)) i).status = Status.ON
      rw [e]; rfl
    · intro j hj
      show deviceAt (s.deviceRegistry.set i ((deviceAt s.deviceRegistry i).turnOn now)) j = _
      rw [deviceAt_set, if_neg (fun h => hj h.1)]
    · show (s.deviceRegistry.set i ((deviceAt s.deviceRegistry i).turnOn now)).length = _
      simp

/-- Witness for C16: capacity 1000, one device `ON` at 700 W, a critical 200 W device
toggled, in exact arithmetic and in binary32. -/
theorem toggle_fits_turns_on_witness :
    registryGet (sampleSystem
        [sampleDevice "H" 700 false 4 Status.ON, sampleDevice "C" 200 true 10 Status.OFF]
        1000).deviceRegistry "C" = some 1 ∧
      statuses (toggleDevice (sampleSystem
        [sampleDevice "H" 700 false 4 Status.ON, sampleDevice "C" 200 true 10 Status.OFF]
        1000) "C" 7 7) = [Status.ON, Status.ON] ∧
      (toggleDevice (sampleSystem
        [sampleDevice "H" 700 false 4 Status.ON, sampleDevice "C" 200 true 10 Status.OFF]
        1000) "C" 7 7).historyTracker = [] ∧
      (deviceAt (toggleDeviceWith float32Round (sampleSystem
        [sampleDevice "H" 700 false 4 Status.ON, sampleDevice "C" 200 true 10 Status.OFF]
        1000) "C" 7 7).deviceRegistry 1).status = Status.ON :=
  ⟨by decide, by decide!, ((toggle_fits_turns_on (sampleSystem
        [sampleDevice "H" 700 false 4 Status.ON, sampleDevice "C" 200 true 10 Status.OFF]
        1000) "C" 7 7 1 (by decide) (by decide)).1 (by decide!)).2.2.2.2.1,
    ((toggle_fits_turns_on (sampleSystem
        [sampleDevice "H" 700 false 4 Status.ON, sampleDevice "C" 200 true 10 Status.OFF]
        1000) "C" 7 7 1 (by decide) (by decide)).2 float32Round (by decide!)).1⟩

/-- C17: the comparison in `heapifyUp` and the two child comparisons in `heapifyDown`
are the relation `outranks`; `outranks` is irreflexive and transitive, incomparability
is transitive, and two tasks are mutually non-outranking exactly when they have equal
priority and equal `scheduledTime`. -/
theorem comparisons_are_outranks :
    (∀ (fuel : Nat) (heap : List ScheduledTask) (index : Nat),
      heapifyUpLoop (fuel + 1) heap index =
        if index > 0 then
          if outranks (heapAt heap index) (heapAt heap (parent index)) then
            heapifyUpLoop fuel (swap heap index (parent index)) (parent index)
          else heap
        else heap) ∧
    (∀ (size fuel : Nat) (heap : List ScheduledTask) (index : Nat),
      heapifyDownLoop size (fuel + 1) heap index =
        if largestByOutranks heap size index ≠ index then
          heapifyDownLoop size fuel (swap heap index (largestByOutranks heap size index))
            (largestByOutranks heap size index)
        else heap) ∧
    (∀ a : ScheduledTask, ¬ outranks a a) ∧
    (∀ a b c : ScheduledTask, outranks a b → outranks b c → outranks a c) ∧
    (∀ a b c : ScheduledTask, ¬ outranks a b → ¬ outranks b c → ¬ outranks a c) ∧
    (∀ a b : ScheduledTask, (¬ outranks a b ∧ ¬ outranks b a) ↔
      (a.priority = b.priority ∧ a.scheduledTime = b.scheduledTime)) := by
  refine ⟨fun _ _ _ => rfl, fun _ _ _ _ => rfl, outranks_irrefl,
    fun a b c => outranks_trans, fun a b c => not_outranks_trans, ?_⟩
  intro a b
  unfold outranks
  omega

/-- Witness for C17: transitivity on tasks of (priority, hour) `(8,1)`, `(8,3)`,
`(5,10)`. -/
theorem comparisons_are_outranks_witness :
    outranks (sampleTask "c" 8 1) (sampleTask "b" 8 3) ∧
      outranks (sampleTask "b" 8 3) (sampleTask "a" 5 10) ∧
      outranks (sampleTask "c" 8 1) (sampleTask "a" 5 10) :=
  ⟨by decide, by decide,
    comparisons_are_outranks.2.2.2.1 (sampleTask "c" 8 1) (sampleTask "b" 8 3)
      (sampleTask "a" 5 10) (by decide) (by decide)⟩

/-- C18: heap order is an invariant of the queue. For a queue whose array has
`capacity` slots and whose size is within the capacity, if no task at an index `i`
with `0 < i < size` outranks the task at its parent `(i - 1) / 2`, then the same holds
after `enqueue` and after `dequeue`; the empty queue satisfies it. -/
theorem heap_order_invariant :
    (∀ (cap i : Nat), 0 < i → i < (PriorityQueue.new cap).size →
      ¬ outranks (heapAt (PriorityQueue.new cap).heap i)
        (heapAt (PriorityQueue.new cap).heap (parent i))) ∧
    (∀ (q : PriorityQueue) (task : ScheduledTask), q.heap.length = q.capacity →
      q.size ≤ q.capacity →
      (∀ i, 0 < i → i < q.size → ¬ outranks (heapAt q.heap i) (heapAt q.heap (parent i))) →
      ∀ i, 0 < i → i < (q.enqueue task).size →
        ¬ outranks (heapAt (q.enqueue task).heap i) (heapAt (q.enqueue task).heap (parent i))) ∧
    (∀ (q : PriorityQueue), q.heap.length = q.capacity → q.size ≤ q.capacity →
      (∀ i, 0 < i → i < q.size → ¬ outranks (heapAt q.heap i) (heapAt q.heap (parent i))) →
      ∀ i, 0 < i → i < (q.dequeue).2.size →
        ¬ outranks (heapAt (q.dequeue).2.heap i) (heapAt (q.dequeue).2.heap (parent i))) := by
  refine ⟨?_, ?_, ?_⟩
  · intro cap
    exact (valid_new cap).2.2
  · intro q task hlen hsize hord
    exact (valid_enqueue q task ⟨hlen, hsize, hord⟩).2.2
  · intro q hlen hsize hord
    exact (valid_dequeue q ⟨hlen, hsize, hord⟩).2.2

/-- Witness for C18: a queue of capacity 3 holding one task of rank `(5,10)`; after
the enqueue of a task of rank `(8,3)` the task at index 1 does not outrank the
root. -/
theorem heap_order_invariant_witness :
    ((PriorityQueue.new 3).enqueue (sampleTask "a" 5 10)).heap.length =
        ((PriorityQueue.new 3).enqueue (sampleTask "a" 5 10)).capacity ∧
      ((PriorityQueue.new 3).enqueue (sampleTask "a" 5 10)).size ≤
        ((PriorityQueue.new 3).enqueue (sampleTask "a" 5 10)).capacity ∧
      ¬ outranks
        (heapAt (((PriorityQueue.new 3).enqueue (sampleTask "a" 5 10)).enqueue
          (sampleTask "b" 8 3)).heap 1)
        (heapAt (((PriorityQueue.new 3).enqueue (sampleTask "a" 5 10)).enqueue
          (sampleTask "b" 8 3)).heap (parent 1)) :=
  ⟨by decide, by decide,
    heap_order_invariant.2.1 ((PriorityQueue.new 3).enqueue (sampleTask "a" 5 10))
      (sampleTask "b" 8 3) (by decide) (by decide)
      (fun i h0 h1 => absurd h1 (by
        have : ((PriorityQueue.new 3).enqueue (sampleTask "a" 5 10)).size = 1 := by decide
        omega))
      1 (by decide) (by decide)⟩

/-- C19: the bubble sort of `performLoadShedding` behaves as a stable ascending sort
by priority: its result is a permutation of the input with non-decreasing keys, two
elements of equal key keep their input order, and on distinct pointers (as the
candidate array holds) it equals the insertion sort `stableSortByPriority`; so the
sorted candidates are the stable sort of the collected candidates. -/
theorem bubbleSort_is_stable_sort :
    (∀ (key : Nat → Int) (arr : List Nat),
      (bubbleSort key arr).Perm arr ∧
      (bubbleSort key arr).Pairwise (fun a b => key a ≤ key b) ∧
      (∀ u v, key u = key v → [u, v].Sublist arr → [u, v].Sublist (bubbleSort key arr)) ∧
      (arr.Nodup → bubbleSort key arr = stableSortByPriority key arr)) ∧
    (∀ devices : List Device,
      sortedNonCritical devices =
        stableSortByPriority (fun p => (deviceAt devices p).priority)
          (collectNonCritical devices)) := by
  refine ⟨?_, ?_⟩
  · intro key arr
    exact ⟨bubbleSort_perm key arr, bubbleSort_sorted key arr,
      fun u v huv hs => bubbleSort_pair key arr u v (le_of_eq huv) hs,
      bubbleSort_eq_stableSort key arr⟩
  · intro devices
    exact bubbleSort_eq_stableSort _ _ (nodup_collectNonCritical devices)

/-- Witness for C19: four pointers with priorities 5, 3, 5, 1; the two devices of
priority 5 keep their order. -/
theorem bubbleSort_is_stable_sort_witness :
    [0, 1, 2, 3].Nodup ∧
      bubbleSort (fun p => [5, 3, 5, 1].getD p 0) [0, 1, 2, 3] =
        stableSortByPriority (fun p => [5, 3, 5, 1].getD p 0) [0, 1, 2, 3] ∧
      bubbleSort (fun p => [5, 3, 5, 1].getD p 0) [0, 1, 2, 3] = [3, 1, 0, 2] :=
  ⟨by decide, (bubbleSort_is_stable_sort.1 (fun p => [5, 3, 5, 1].getD p 0)
    [0, 1, 2, 3]).2.2.2 (by decide), by decide⟩

/-- C20: capacity is an invariant of toggling. If every consumption rate of the
registry is non-negative and the total load of the `ON` devices is at most
`maxLoadCapacity`, then after `toggleDevice` on any id (found or not, `ON` or `OFF`,
critical or not, with or without shedding) the total load is still at most
`maxLoadCapacity`, which is unchanged; in exact arithmetic. -/
theorem toggle_keeps_capacity (s : EnergyOptimizationSystem) (id : String) (now stamp : Int)
    (hrates : ∀ d ∈ s.deviceRegistry, 0 ≤ d.consumptionRate)
    (hload : getCurrentTotalLoad s ≤ s.maxLoadCapacity) :
    getCurrentTotalLoad (toggleDevice s id now stamp) ≤
        (toggleDevice s id now stamp).maxLoadCapacity ∧
      (toggleDevice s id now stamp).maxLoadCapacity = s.maxLoadCapacity := by
  have hcap := (toggleDevice_frame s id now stamp 0).2.1
  refine ⟨?_, hcap⟩
  rw [hcap]
  cases hget : registryGet s.deviceRegistry id with
  | none =>
    rw [toggleDevice_not_found s id now stamp hget]
    exact hload
  | some i =>
    have hi := registryGet_lt hget
    have hri : 0 ≤ (deviceAt s.deviceRegistry i).consumptionRate := hrates _ (deviceAt_mem hi)
    rw [getCurrentTotalLoad_eq] at hload
    rcases status_cases (deviceAt s.deviceRegistry i) with hon | hoff
    · rw [toggleDevice_on s id now stamp i hget hon, getCurrentTotalLoad_eq]
      show totalLoad (s.deviceRegistry.set i (deviceAt s.deviceRegistry i).turnOff) ≤ _
      rw [totalLoad_set _ _ _ hi]
      have e1 : loadOf (deviceAt s.deviceRegistry i) =
          (deviceAt s.deviceRegistry i).consumptionRate := by simp [loadOf, hon]
      have e2 : loadOf (deviceAt s.deviceRegistry i).turnOff = 0 := by
        simp [loadOf, Device.turnOff]
      rw [e1, e2]
      linarith
    · have e0 : loadOf (deviceAt s.deviceRegistry i) = 0 := by simp [loadOf, hoff]
      by_cases hover : getCurrentTotalLoad s + (deviceAt s.deviceRegistry i).consumptionRate >
          s.maxLoadCapacity
      · cases hc : (deviceAt s.deviceRegistry i).isCritical with
        | false =>
          rw [toggleDevice_rejected s id now stamp i hget hoff hc hover, getCurrentTotalLoad_eq]
          exact hload
        | true =>
          rw [toggleDevice_critical s id now stamp i hget hoff hc hover]
          obtain ⟨k, _, _, hfreed, hlen, h4, _, _⟩ :=
            sheddingRun_spec s (deviceAt s.deviceRegistry i).consumptionRate
          have hsl := sheddingRun_load s (deviceAt s.deviceRegistry i).consumptionRate
          have hnn : 0 ≤ (sheddingRun s (deviceAt s.deviceRegistry i).consumptionRate).2.1 := by
            rw [hfreed]; exact sumRates_nonneg _ _ hrates
          split
          · rename_i hflag
            rw [performLoadShedding_flag] at hflag
            have hge : (sheddingRun s (deviceAt s.deviceRegistry i).consumptionRate).2.1 ≥
                (deviceAt s.deviceRegistry i).consumptionRate := by
              simpa using hflag
            rw [getCurrentTotalLoad_eq]
            show totalLoad ((performLoadShedding s _).2.deviceRegistry.set i _) ≤ _
            rw [performLoadShedding_registry, totalLoad_set _ _ _ (by omega), hsl]
            have hdi : (deviceAt (sheddingRun s
                (deviceAt s.deviceRegistry i).consumptionRate).1 i).status = Status.OFF ∧
                (deviceAt (sheddingRun s
                  (deviceAt s.deviceRegistry i).consumptionRate).1 i).consumptionRate =
                  (deviceAt s.deviceRegistry i).consumptionRate := by
              rw [h4 i]
              split
              · exact ⟨rfl, rfl⟩
              · exact ⟨hoff, rfl⟩
            have e1 : loadOf (deviceAt (sheddingRun s
                (deviceAt s.deviceRegistry i).consumptionRate).1 i) = 0 := by
              simp [loadOf, hdi.1]
            have e2 : loadOf ((deviceAt (sheddingRun s
                (deviceAt s.deviceRegistry i).consumptionRate).1 i).turnOn now) =
                (deviceAt s.deviceRegistry i).consumptionRate := by
              simp [loadOf, Device.turnOn, hdi.2]
            rw [e1, e2]
            linarith
          · rw [getCurrentTotalLoad_eq, performLoadShedding_registry, hsl]
            linarith
      · have hfit := not_lt.mp hover
        rw [toggleDevice_fits s id now stamp i hget hoff hfit, getCurrentTotalLoad_eq]
        show totalLoad (s.deviceRegistry.set i ((deviceAt s.deviceRegistry i).turnOn now)) ≤ _
        rw [totalLoad_set _ _ _ hi, e0]
        have e2 : loadOf ((deviceAt s.deviceRegistry i).turnOn now) =
            (deviceAt s.deviceRegistry i).consumptionRate := by
          simp [loadOf, Device.turnOn]
        rw [e2]
        rw [getCurrentTotalLoad_eq] at hfit
        linarith

/-- Witness for C20: capacity 1000, a critical device at 800 W and a non-critical one
at 150 W are `ON`; toggling the critical 200 W device sheds and the load stays
within the capacity. -/
theorem toggle_keeps_capacity_witness :
    getCurrentTotalLoad (sampleSystem
        [sampleDevice "K" 800 true 10 Status.ON, sampleDevice "A" 150 false 3 Status.ON,
          sampleDevice "C" 200 true 10 Status.OFF] 1000) ≤ 1000 ∧
      getCurrentTotalLoad (toggleDevice (sampleSystem
        [sampleDevice "K" 800 true 10 Status.ON, sampleDevice "A" 150 false 3 Status.ON,
          sampleDevice "C" 200 true 10 Status.OFF] 1000) "C" 0 0) ≤
        (toggleDevice (sampleSystem
        [sampleDevice "K" 800 true 10 Status.ON, sampleDevice "A" 150 false 3 Status.ON,
          sampleDevice "C" 200 true 10 Status.OFF] 1000) "C" 0 0).maxLoadCapacity ∧
      getCurrentTotalLoad (toggleDevice (sampleSystem
        [sampleDevice "K" 800 true 10 Status.ON, sampleDevice "A" 150 false 3 Status.ON,
          sampleDevice "C" 200 true 10 Status.OFF] 1000) "C" 0 0) = 800 :=
  ⟨by decide!, (toggle_keeps_capacity (sampleSystem
        [sampleDevice "K" 800 true 10 Status.ON, sampleDevice "A" 150 false 3 Status.ON,
          sampleDevice "C" 200 true 10 Status.OFF] 1000) "C" 0 0 (by decide!) (by decide!)).1,
    by decide!⟩

/-! ### A failed shedding -/

theorem deviceAt_default_status (devices : List Device) (i : Nat)
    (h : devices.length ≤ i) : (deviceAt devices i).status = Status.OFF := by
  unfold deviceAt
  rw [List.getD_eq_default _ _ h]
  rfl

theorem failed_shedding_all_off (s : EnergyOptimizationSystem) (req : ℚ)
    (hfail : (performLoadShedding s req).1 = false) (i : Nat)
    (hnc : (deviceAt s.deviceRegistry i).isCritical = false) :
    (deviceAt (performLoadShedding s req).2.deviceRegistry i).status = Status.OFF := by
  obtain ⟨k, hk, _, hfreed, _, h4, _, h6⟩ := sheddingRun_spec s req
  rw [performLoadShedding_flag] at hfail
  have hlt : ¬ (sheddingRun s req).2.1 ≥ req := by simpa using hfail
  have hkl : k = (sortedNonCritical s.deviceRegistry).length := by
    rcases h6 with h | h
    · exact h
    · rw [← hfreed] at h
      exact absurd h hlt
  rw [performLoadShedding_registry, h4 i, hkl, List.take_length]
  split
  · rfl
  · rename_i hni
    by_cases hi : i < s.deviceRegistry.length
    · rcases status_cases (deviceAt s.deviceRegistry i) with hon | hoff
      · exact absurd ((mem_sortedNonCritical _ i).mpr ⟨hi, hon, hnc⟩) hni
      · exact hoff
    · exact deviceAt_default_status _ _ (by omega)

/-- C21: a failed shedding is not rolled back. Whenever `performLoadShedding` returns
`false`, every non-critical device of the registry is `OFF` afterwards and every
device that was `ON` and non-critical has been turned off; in `toggleDevice`, when
the shedding for an `OFF` critical device fails, the state after the call is the
state the shedding left, and the critical device is still `OFF`. -/
theorem failed_shedding_not_rolled_back :
    (∀ (s : EnergyOptimizationSystem) (requiredCapacity : ℚ),
      (performLoadShedding s requiredCapacity).1 = false →
      (∀ d ∈ (performLoadShedding s requiredCapacity).2.deviceRegistry,
        d.isCritical = false → d.status = Status.OFF) ∧
      (∀ i, i < s.deviceRegistry.length →
        (deviceAt s.deviceRegistry i).status = Status.ON →
        (deviceAt s.deviceRegistry i).isCritical = false →
        i ∈ turnedOff s.deviceRegistry
          (performLoadShedding s requiredCapacity).2.deviceRegistry)) ∧
    (∀ (s : EnergyOptimizationSystem) (id : String) (now stamp : Int) (i : Nat),
      registryGet s.deviceRegistry id = some i →
      (deviceAt s.deviceRegistry i).status = Status.OFF →
      (deviceAt s.deviceRegistry i).isCritical = true →
      getCurrentTotalLoad s + (deviceAt s.deviceRegistry i).consumptionRate >
        s.maxLoadCapacity →
      (performLoadShedding s (deviceAt s.deviceRegistry i).consumptionRate).1 = false →
      toggleDevice s id now stamp =
        (performLoadShedding s (deviceAt s.deviceRegistry i).consumptionRate).2 ∧
      (deviceAt (toggleDevice s id now stamp).deviceRegistry i).status = Status.OFF ∧
      (∀ d ∈ (toggleDevice s id now stamp).deviceRegistry,
        d.isCritical = false → d.status = Status.OFF)) := by
  have part1 : ∀ (s : EnergyOptimizationSystem) (requiredCapacity : ℚ),
      (performLoadShedding s requiredCapacity).1 = false →
      (∀ d ∈ (performLoadShedding s requiredCapacity).2.deviceRegistry,
        d.isCritical = false → d.status = Status.OFF) ∧
      (∀ i, i < s.deviceRegistry.length →
        (deviceAt s.deviceRegistry i).status = Status.ON →
        (deviceAt s.deviceRegistry i).isCritical = false →
        i ∈ turnedOff s.deviceRegistry
          (performLoadShedding s requiredCapacity).2.deviceRegistry) := by
    intro s req hfail
    constructor
    · intro d hd hnc
      obtain ⟨i, _, rfl⟩ := mem_iff_deviceAt.mp hd
      obtain ⟨k, _, _, _, _, h4, _, _⟩ := sheddingRun_spec s req
      have hcrit : (deviceAt (performLoadShedding s req).2.deviceRegistry i).isCritical =
          (deviceAt s.deviceRegistry i).isCritical := by
        rw [performLoadShedding_registry, h4 i]
        split <;> rfl
      rw [hcrit] at hnc
      exact failed_shedding_all_off s req hfail i hnc
    · intro i hi hon hnc
      exact (mem_turnedOff _ _ i).mpr ⟨hi, hon, failed_shedding_all_off s req hfail i hnc⟩
  refine ⟨part1, ?_⟩
  intro s id now stamp i hget hoff hc hover hfail
  have e : toggleDevice s id now stamp =
      (performLoadShedding s (deviceAt s.deviceRegistry i).consumptionRate).2 := by
    rw [toggleDevice_critical s id now stamp i hget hoff hc hover, hfail]
    rfl
  rw [e]
  refine ⟨rfl, ?_, (part1 s _ hfail).1⟩
  obtain ⟨k, _, _, _, _, h4, _, _⟩ :=
    sheddingRun_spec s (deviceAt s.deviceRegistry i).consumptionRate
  rw [performLoadShedding_registry, h4 i]
  split
  · rfl
  · exact hoff

/-- Witness for C21: capacity 1000, a critical device at 800 W and a non-critical one
at 150 W are `ON`; the shedding for the critical 200 W device frees 150 and fails,
the non-critical device stays `OFF` and the requested device is still `OFF`. -/
theorem failed_shedding_not_rolled_back_witness :
    (performLoadShedding (sampleSystem
        [sampleDevice "K" 800 true 10 Status.ON, sampleDevice "A" 150 false 3 Status.ON,
          sampleDevice "C" 200 true 10 Status.OFF] 1000) 200).1 = false ∧
      statuses (toggleDevice (sampleSystem
        [sampleDevice "K" 800 true 10 Status.ON, sampleDevice "A" 150 false 3 Status.ON,
          sampleDevice "C" 200 true 10 Status.OFF] 1000) "C" 0 0) =
        [Status.ON, Status.OFF, Status.OFF] ∧
      (deviceAt (toggleDevice (sampleSystem
        [sampleDevice "K" 800 true 10 Status.ON, sampleDevice "A" 150 false 3 Status.ON,
          sampleDevice "C" 200 true 10 Status.OFF] 1000) "C" 0 0).deviceRegistry 2).status =
        Status.OFF :=
  ⟨by decide!, by decide!, (failed_shedding_not_rolled_back.2 (sampleSystem
        [sampleDevice "K" 800 true 10 Status.ON, sampleDevice "A" 150 false 3 Status.ON,
          sampleDevice "C" 200 true 10 Status.OFF] 1000) "C" 0 0 2 (by decide) (by decide)
        (by decide) (by decide!) (by decide!)).2.1⟩

/-- C22: the queue operations neither lose nor invent tasks. For every queue reached
from an empty one: while it holds fewer than `capacity` tasks, the multiset of
stored tasks after `enqueue t` is the previous multiset plus `t`; when it is
non-empty, `dequeue` returns a stored task, the multiset afterwards is the previous
one minus one occurrence of the returned task and the size is one less; `peek`
leaves the queue unchanged and, on a non-empty queue, returns a stored task, the one
`dequeue` would return. -/
theorem queue_operations_keep_tasks (cap : Nat) (ops : List QueueOp) (t : ScheduledTask) :
    (((PriorityQueue.new cap).run ops).getSize < ((PriorityQueue.new cap).run ops).capacity →
      ((((PriorityQueue.new cap).run ops).enqueue t).tasks : Multiset ScheduledTask) =
        (((PriorityQueue.new cap).run ops).tasks : Multiset ScheduledTask) + {t} ∧
      (((PriorityQueue.new cap).run ops).enqueue t).getSize =
        ((PriorityQueue.new cap).run ops).getSize + 1) ∧
    (((PriorityQueue.new cap).run ops).getSize ≠ 0 →
      (((PriorityQueue.new cap).run ops).dequeue).1 ∈ ((PriorityQueue.new cap).run ops).tasks ∧
      (((((PriorityQueue.new cap).run ops).dequeue).2.tasks : Multiset ScheduledTask) =
        (((PriorityQueue.new cap).run ops).tasks : Multiset ScheduledTask).erase
          (((PriorityQueue.new cap).run ops).dequeue).1) ∧
      (((PriorityQueue.new cap).run ops).dequeue).2.getSize + 1 =
        ((PriorityQueue.new cap).run ops).getSize) ∧
    ((((PriorityQueue.new cap).run ops).peekCall).2 = (PriorityQueue.new cap).run ops ∧
      (((PriorityQueue.new cap).run ops).getSize ≠ 0 →
        (((PriorityQueue.new cap).run ops).peekCall).1 ∈
          ((PriorityQueue.new cap).run ops).tasks ∧
        (((PriorityQueue.new cap).run ops).peekCall).1 =
          (((PriorityQueue.new cap).run ops).dequeue).1)) := by
  have hv := valid_run _ ops (valid_new cap)
  generalize (PriorityQueue.new cap).run ops = q at *
  refine ⟨?_, ?_, rfl, ?_⟩
  · intro h
    have hlt : q.size < q.capacity := h
    refine ⟨?_, enqueue_size q t hlt⟩
    have hp := enqueue_tasks_perm q t hv hlt
    rw [Multiset.coe_eq_coe.mpr hp, ← Multiset.coe_add]
    rfl
  · intro h
    have hne : q.size ≠ 0 := h
    have hp := dequeue_tasks_perm q hv hne
    refine ⟨hp.subset (List.mem_cons_self _ _), ?_, ?_⟩
    · rw [← Multiset.coe_eq_coe.mpr hp, ← Multiset.cons_coe, Multiset.erase_cons_head]
    · show (q.dequeue).2.size + 1 = q.size
      rw [dequeue_size]
      omega
  · intro h
    have hne : q.size ≠ 0 := h
    refine ⟨peek_mem_tasks q hv hne, ?_⟩
    show q.peek = (q.dequeue).1
    rw [dequeue_fst q hne]
    simp [PriorityQueue.peek, hne]

/-- Witness for C22: the default queue after two enqueues; a third task is added,
and a dequeue removes the task of rank `(8,3)`. -/
theorem queue_operations_keep_tasks_witness :
    ((PriorityQueue.new 100).run
        [QueueOp.enq (sampleTask "a" 5 10), QueueOp.enq (sampleTask "b" 8 3)]).getSize <
      ((PriorityQueue.new 100).run
        [QueueOp.enq (sampleTask "a" 5 10), QueueOp.enq (sampleTask "b" 8 3)]).capacity ∧
    ((((PriorityQueue.new 100).run
        [QueueOp.enq (sampleTask "a" 5 10), QueueOp.enq (sampleTask "b" 8 3)]).enqueue
        (sampleTask "c" 8 1)).tasks : Multiset ScheduledTask) =
      (((PriorityQueue.new 100).run
        [QueueOp.enq (sampleTask "a" 5 10), QueueOp.enq (sampleTask "b" 8 3)]).tasks :
        Multiset ScheduledTask) + {sampleTask "c" 8 1} ∧
    ((PriorityQueue.new 100).run
        [QueueOp.enq (sampleTask "a" 5 10), QueueOp.enq (sampleTask "b" 8 3)]).getSize ≠ 0 ∧
    (((PriorityQueue.new 100).run
        [QueueOp.enq (sampleTask "a" 5 10), QueueOp.enq (sampleTask "b" 8 3)]).dequeue).1 ∈
      ((PriorityQueue.new 100).run
        [QueueOp.enq (sampleTask "a" 5 10), QueueOp.enq (sampleTask "b" 8 3)]).tasks ∧
    (((PriorityQueue.new 100).run
        [QueueOp.enq (sampleTask "a" 5 10), QueueOp.enq (sampleTask "b" 8 3)]).dequeue).1 =
      sampleTask "b" 8 3 :=
  ⟨by decide,
    ((queue_operations_keep_tasks 100
      [QueueOp.enq (sampleTask "a" 5 10), QueueOp.enq (sampleTask "b" 8 3)]
      (sampleTask "c" 8 1)).1 (by decide)).1,
    by decide,
    ((queue_operations_keep_tasks 100
      [QueueOp.enq (sampleTask "a" 5 10), QueueOp.enq (sampleTask "b" 8 3)]
      (sampleTask "c" 8 1)).2.1 (by decide)).1,
    by decide⟩

end EnergySystem
